import Mathlib

/-!
# scrcpy client: session orchestration and command-line parsing

A shallow embedding of `app/src/scrcpy.c` and `app/src/cli.c`.

* External collaborators (server, stream, controller, SDL, ...) are not
  executed.  A call to one of them is recorded in a trace of `Call` values,
  and what the call returns is read from an `Env` value, so that every theorem
  quantifies over all behaviours of the collaborators.
* A C string is the list of its `char`s before the terminating NUL, and a
  nullable `const char *` is an `Option` of it.
* C integers are `Int`; a narrowing cast is written out as a wrap-around.
* An `assert` is no part of a returned value.  Where one can fail
  (`parse_shortcut_mods`), it is embedded as a flag next to the returned value:
  a build with assertions returns that value only when the flag is `true`.
-/

namespace Scrcpy

/-! ## Data model -/

/-- A C string: the `char`s before the terminating NUL. -/
abbrev CStr := List Char

/-- A socket handle (`socket_t` of `util/net.h`). -/
abbrev socket_t := Int

/-- The `struct size` of `common.h` (a frame size). -/
structure size where
  width : Int
  height : Int
deriving DecidableEq, Repr

/-- The `enum sc_log_level` used by `parse_log_level`. -/
inductive sc_log_level
  | SC_LOG_LEVEL_DEBUG
  | SC_LOG_LEVEL_INFO
  | SC_LOG_LEVEL_WARN
  | SC_LOG_LEVEL_ERROR
deriving DecidableEq, Repr

/-- The `enum sc_record_format`.  Its declaration (scrcpy.h) is not among the
sources; cli.c uses the value `0` (`return 0`, `!opts->record_format`) for "no
format" and the two enumerators `SC_RECORD_FORMAT_MP4`, `SC_RECORD_FORMAT_MKV`.
`SC_RECORD_FORMAT_AUTO` stands for the value `0`. -/
inductive sc_record_format
  | SC_RECORD_FORMAT_AUTO
  | SC_RECORD_FORMAT_MP4
  | SC_RECORD_FORMAT_MKV
deriving DecidableEq, Repr

/-- The `struct sc_port_range`. -/
structure sc_port_range where
  first : Int
  last : Int
deriving DecidableEq, Repr

/-- The `struct sc_shortcut_mods`: `data` holds the entries of the array that
have been written (index `i` is `data[i]`), `count` is the `count` field. -/
structure sc_shortcut_mods where
  data : List Nat
  count : Nat
deriving DecidableEq, Repr

/-- The `struct scrcpy_options`, with the fields that cli.c and scrcpy.c use. -/
structure scrcpy_options where
  serial : Option CStr
  crop : Option CStr
  record_filename : Option CStr
  window_title : Option CStr
  push_target : Option CStr
  render_driver : Option CStr
  codec_options : Option CStr
  encoder_name : Option CStr
  v4l2sink_device : Option CStr
  log_level : sc_log_level
  record_format : sc_record_format
  port_range : sc_port_range
  shortcut_mods : sc_shortcut_mods
  max_size : Int
  bit_rate : Int
  max_fps : Int
  lock_video_orientation : Int
  rotation : Int
  window_x : Int
  window_y : Int
  window_width : Int
  window_height : Int
  display_id : Int
  show_touches : Bool
  fullscreen : Bool
  always_on_top : Bool
  control : Bool
  display : Bool
  turn_screen_off : Bool
  render_expired_frames : Bool
  prefer_text : Bool
  window_borderless : Bool
  mipmaps : Bool
  stay_awake : Bool
  force_adb_forward : Bool
  disable_screensaver : Bool
  forward_key_repeat : Bool
  forward_all_clicks : Bool
  legacy_paste : Bool
deriving DecidableEq, Repr

/-- The `struct server_params` that scrcpy() fills from the options. -/
structure server_params where
  log_level : sc_log_level
  crop : Option CStr
  port_range : sc_port_range
  max_size : Int
  bit_rate : Int
  max_fps : Int
  lock_video_orientation : Int
  control : Bool
  display_id : Int
  show_touches : Bool
  stay_awake : Bool
  codec_options : Option CStr
  encoder_name : Option CStr
  force_adb_forward : Bool
deriving DecidableEq, Repr

/-- The message types of `struct control_msg` (control_msg.h is not among the
sources; the variants are the ones of the ControlMessage of the specification). -/
inductive control_msg_type
  | CONTROL_MSG_TYPE_INJECT_KEYCODE
  | CONTROL_MSG_TYPE_INJECT_TEXT
  | CONTROL_MSG_TYPE_INJECT_TOUCH_EVENT
  | CONTROL_MSG_TYPE_INJECT_SCROLL_EVENT
  | CONTROL_MSG_TYPE_SET_CLIPBOARD
  | CONTROL_MSG_TYPE_GET_CLIPBOARD
  | CONTROL_MSG_TYPE_SET_SCREEN_POWER_MODE
  | CONTROL_MSG_TYPE_EXPAND_NOTIFICATION_PANEL
  | CONTROL_MSG_TYPE_COLLAPSE_NOTIFICATION_PANEL
  | CONTROL_MSG_TYPE_ROTATE_DEVICE
deriving DecidableEq, Repr

/-- The screen power modes of a `SET_SCREEN_POWER_MODE` message. -/
inductive screen_power_mode
  | SCREEN_POWER_MODE_OFF
  | SCREEN_POWER_MODE_NORMAL
deriving DecidableEq, Repr

/-- The part of `struct control_msg` that scrcpy() fills: the type and the
`set_screen_power_mode.mode` member. -/
structure control_msg where
  type : control_msg_type
  set_screen_power_mode_mode : screen_power_mode
deriving DecidableEq, Repr

/-- The action of a file handler request. -/
inductive file_handler_action_t
  | ACTION_INSTALL_APK
  | ACTION_PUSH_FILE
deriving DecidableEq, Repr

/-- The event types that `handle_event` switches on.  The case labels of a C
`switch` are pairwise distinct constants; `other` is any type without a label. -/
inductive event_type
  | EVENT_STREAM_STOPPED
  | SDL_QUIT
  | EVENT_NEW_FRAME
  | SDL_WINDOWEVENT
  | SDL_TEXTINPUT
  | SDL_KEYDOWN
  | SDL_KEYUP
  | SDL_MOUSEMOTION
  | SDL_MOUSEWHEEL
  | SDL_MOUSEBUTTONDOWN
  | SDL_MOUSEBUTTONUP
  | SDL_FINGERMOTION
  | SDL_FINGERDOWN
  | SDL_FINGERUP
  | SDL_DROPFILE
  | other (code : Nat)
deriving DecidableEq, Repr

/-- An `SDL_Event`: its `type`, the `drop.file` member (read for
`SDL_DROPFILE`), and the remaining members as one uninterpreted value. -/
structure SDL_Event where
  type : event_type
  drop_file : CStr
  payload : Nat
deriving DecidableEq, Repr

/-- One call made by scrcpy() to a collaborator, with the arguments that
matter.  `event_loop` marks the entry into the event loop. -/
inductive Call
  | server_init
  | server_start (serial : Option CStr) (params : server_params)
  | SDL_Init (video : Bool)
  | atexit_SDL_Quit
  | SetConsoleCtrlHandler
  | SDL_DisableScreenSaver
  | SDL_EnableScreenSaver
  | server_connect_to
  | device_read_info (socket : socket_t)
  | fps_counter_init
  | video_buffer_init (render_expired_frames : Bool)
  | file_handler_init (push_target : Option CStr)
  | decoder_init
  | recorder_init (filename : Option CStr) (format : sc_record_format)
      (declared_frame_size : size)
  | v4l2sink_init (devicename : Option CStr) (declared_frame_size : size)
  | av_log_set_callback
  | stream_init (socket : socket_t) (decoder recorder v4l2sink : Bool)
  | stream_start
  | controller_init (control_socket : socket_t)
  | controller_start
  | screen_init_rendering (window_title : CStr) (frame_size : size)
      (always_on_top : Bool) (window_x window_y window_width window_height : Int)
      (window_borderless : Bool) (rotation : Int) (mipmaps : Bool)
  | controller_push_msg (msg : control_msg)
  | screen_switch_fullscreen
  | input_manager_init
  | event_loop
  | SDL_AddEventWatch
  | SDL_WaitEvent
  | screen_show_window
  | screen_update_frame
  | screen_handle_window_event (event : SDL_Event)
  | input_manager_process_text_input (event : SDL_Event)
  | input_manager_process_key (event : SDL_Event)
  | input_manager_process_mouse_motion (event : SDL_Event)
  | input_manager_process_mouse_wheel (event : SDL_Event)
  | input_manager_process_mouse_button (event : SDL_Event)
  | input_manager_process_touch (event : SDL_Event)
  | file_handler_request (action : file_handler_action_t) (file : CStr)
  | screen_destroy
  | stream_stop
  | controller_stop
  | file_handler_stop
  | fps_counter_interrupt
  | server_stop
  | stream_join
  | controller_join
  | controller_destroy
  | recorder_destroy
  | v4l2sink_destroy
  | file_handler_join
  | file_handler_destroy
  | video_buffer_destroy
  | fps_counter_join
  | fps_counter_destroy
  | server_destroy
deriving Repr

set_option maxHeartbeats 4000000 in
/-- Equality of calls is decidable: two calls are equal iff they are the same
function with equal arguments. -/
instance : DecidableEq Call := fun x y => by
  cases x <;> cases y <;>
    first
    | exact isFalse Call.noConfusion
    | exact isTrue rfl
    | (refine @decidable_of_iff' _ ?_ ?_ ?_
       rotate_left
       · simp only [Call.server_start.injEq, Call.SDL_Init.injEq, Call.device_read_info.injEq,
           Call.video_buffer_init.injEq, Call.file_handler_init.injEq,
           Call.recorder_init.injEq, Call.v4l2sink_init.injEq, Call.stream_init.injEq,
           Call.controller_init.injEq, Call.screen_init_rendering.injEq,
           Call.controller_push_msg.injEq, Call.screen_handle_window_event.injEq,
           Call.input_manager_process_text_input.injEq, Call.input_manager_process_key.injEq,
           Call.input_manager_process_mouse_motion.injEq,
           Call.input_manager_process_mouse_wheel.injEq,
           Call.input_manager_process_mouse_button.injEq,
           Call.input_manager_process_touch.injEq, Call.file_handler_request.injEq]
         exact Iff.rfl
       · infer_instance)

/-- One turn of the event loop as seen from outside: the event that
`SDL_WaitEvent` delivers, and what `screen_update_frame` returns if the
handling of that event calls it. -/
structure loop_input where
  event : SDL_Event
  screen_update_frame : Bool
deriving DecidableEq, Repr

/-- What the collaborators return during one run of scrcpy().  Every fallible
call is made at most once per run, so one value per call is enough.
`events` are the events that `SDL_WaitEvent` delivers, in order; after the
last one `SDL_WaitEvent` fails (returns 0). -/
structure Env where
  server_init : Bool
  server_start : Bool
  SDL_Init_ok : Bool
  server_connect_to : Option (socket_t × socket_t)
  device_read_info : socket_t → Option (CStr × size)
  fps_counter_init : Bool
  video_buffer_init : Bool
  file_handler_init : Bool
  recorder_init : Bool
  v4l2sink_init : Bool
  stream_start : Bool
  controller_init : Bool
  controller_start : Bool
  screen_init_rendering : Bool
  controller_push_msg : Bool
  screen_has_frame : Bool
  events : List loop_input

/-- The build configuration: the preprocessor symbols that the two files test. -/
structure Build where
  V4L2SINK : Bool
  WIN32 : Bool
  CONTINUOUS_RESIZING_WORKAROUND : Bool
deriving DecidableEq, Repr

/-- The local variables of scrcpy() that are live at label `end`, the
pointers handed to `stream_init`, the values read by `server_connect_to` and
`device_read_info`, `screen.has_frame`, and the calls made so far. -/
structure locals where
  ret : Bool
  server_started : Bool
  fps_counter_initialized : Bool
  video_buffer_initialized : Bool
  file_handler_initialized : Bool
  recorder_initialized : Bool
  stream_started : Bool
  controller_initialized : Bool
  controller_started : Bool
  v4l2sink_initialized : Bool
  dec : Bool
  rec_ : Bool
  sink : Bool
  video_socket : socket_t
  control_socket : socket_t
  device_name : CStr
  frame_size : size
  screen_has_frame : Bool
  trace : List Call
deriving DecidableEq, Repr

/-- Append one call to the trace. -/
def locals.call (l : locals) (c : Call) : locals :=
  { l with trace := l.trace ++ [c] }

/-- Append several calls to the trace. -/
def locals.calls (l : locals) (cs : List Call) : locals :=
  { l with trace := l.trace ++ cs }

/-! ## scrcpy.c -/

/-- The function `is_apk`: `strrchr(file, '.')` finds the last `'.'`; the text
from there to the end is compared with ".apk". -/
def is_apk (file : CStr) : Bool :=
  match file.reverse.indexOf? '.' with
  | none => false
  | some i => file.drop (file.length - 1 - i) == ['.', 'a', 'p', 'k']

/-- The `enum event_result`. -/
inductive event_result
  | EVENT_RESULT_CONTINUE
  | EVENT_RESULT_STOPPED_BY_USER
  | EVENT_RESULT_STOPPED_BY_EOS
deriving DecidableEq, Repr

/-- The function `handle_event`.  `update` is what `screen_update_frame`
returns if it is called, `has_frame` is `screen.has_frame` on entry.  The
result is the returned value, `screen.has_frame` on exit and the calls made. -/
def handle_event (options : scrcpy_options) (event : SDL_Event) (update : Bool)
    (has_frame : Bool) : event_result × Bool × List Call :=
  match event.type with
  | .EVENT_STREAM_STOPPED => (.EVENT_RESULT_STOPPED_BY_EOS, has_frame, [])
  | .SDL_QUIT => (.EVENT_RESULT_STOPPED_BY_USER, has_frame, [])
  | .EVENT_NEW_FRAME =>
    let shown : List Call := if !has_frame then [.screen_show_window] else []
    if !update then
      (.EVENT_RESULT_CONTINUE, true, shown ++ [.screen_update_frame])
    else
      (.EVENT_RESULT_CONTINUE, true, shown ++ [.screen_update_frame])
  | .SDL_WINDOWEVENT =>
    (.EVENT_RESULT_CONTINUE, has_frame, [.screen_handle_window_event event])
  | .SDL_TEXTINPUT =>
    if !options.control then (.EVENT_RESULT_CONTINUE, has_frame, [])
    else (.EVENT_RESULT_CONTINUE, has_frame, [.input_manager_process_text_input event])
  | .SDL_KEYDOWN | .SDL_KEYUP =>
    (.EVENT_RESULT_CONTINUE, has_frame, [.input_manager_process_key event])
  | .SDL_MOUSEMOTION =>
    if !options.control then (.EVENT_RESULT_CONTINUE, has_frame, [])
    else (.EVENT_RESULT_CONTINUE, has_frame, [.input_manager_process_mouse_motion event])
  | .SDL_MOUSEWHEEL =>
    if !options.control then (.EVENT_RESULT_CONTINUE, has_frame, [])
    else (.EVENT_RESULT_CONTINUE, has_frame, [.input_manager_process_mouse_wheel event])
  | .SDL_MOUSEBUTTONDOWN | .SDL_MOUSEBUTTONUP =>
    (.EVENT_RESULT_CONTINUE, has_frame, [.input_manager_process_mouse_button event])
  | .SDL_FINGERMOTION | .SDL_FINGERDOWN | .SDL_FINGERUP =>
    (.EVENT_RESULT_CONTINUE, has_frame, [.input_manager_process_touch event])
  | .SDL_DROPFILE =>
    if !options.control then (.EVENT_RESULT_CONTINUE, has_frame, [])
    else
      let action : file_handler_action_t :=
        if is_apk event.drop_file then .ACTION_INSTALL_APK else .ACTION_PUSH_FILE
      (.EVENT_RESULT_CONTINUE, has_frame, [.file_handler_request action event.drop_file])
  | .other _ => (.EVENT_RESULT_CONTINUE, has_frame, [])

/-- The `while (SDL_WaitEvent(&event))` loop of `event_loop`, over the events
still to be delivered.  With no event left `SDL_WaitEvent` returns 0 and the
loop ends.  The result is the returned value, `screen.has_frame` and the
calls made. -/
def event_loop_while (options : scrcpy_options) :
    List loop_input → Bool → Bool × Bool × List Call
  | [], has_frame => (false, has_frame, [.SDL_WaitEvent])
  | i :: rest, has_frame =>
    match handle_event options i.event i.screen_update_frame has_frame with
    | (.EVENT_RESULT_STOPPED_BY_USER, hf, cs) => (true, hf, .SDL_WaitEvent :: cs)
    | (.EVENT_RESULT_STOPPED_BY_EOS, hf, cs) => (false, hf, .SDL_WaitEvent :: cs)
    | (.EVENT_RESULT_CONTINUE, hf, cs) =>
      let r := event_loop_while options rest hf
      (r.1, r.2.1, .SDL_WaitEvent :: cs ++ r.2.2)

/-- The function `event_loop`. -/
def event_loop (b : Build) (options : scrcpy_options) (events : List loop_input)
    (has_frame : Bool) : Bool × Bool × List Call :=
  let watch : List Call :=
    if b.CONTINUOUS_RESIZING_WORKAROUND && options.display then [.SDL_AddEventWatch] else []
  let r := event_loop_while options events has_frame
  (r.1, r.2.1, watch ++ r.2.2)

/-- The function `sdl_init_and_configure`: the returned value and the calls
made.  The `SDL_SetHint` calls, whose results are only logged, are left out. -/
def sdl_init_and_configure (b : Build) (env : Env) (display : Bool)
    (disable_screensaver : Bool) : Bool × List Call :=
  if !env.SDL_Init_ok then (false, [.SDL_Init display])
  else
    let t : List Call := [.SDL_Init display, .atexit_SDL_Quit]
    let t := if b.WIN32 then t ++ [.SetConsoleCtrlHandler] else t
    if !display then (true, t)
    else if disable_screensaver then (true, t ++ [.SDL_DisableScreenSaver])
    else (true, t ++ [.SDL_EnableScreenSaver])

/-- The clean-up of scrcpy() from label `end` to `server_destroy`: the calls
it makes, given the flags. -/
def scrcpy_end (b : Build) (l : locals) : List Call :=
  (if l.stream_started then [Call.stream_stop] else []) ++
  (if l.controller_started then [Call.controller_stop] else []) ++
  (if l.file_handler_initialized then [Call.file_handler_stop] else []) ++
  (if l.fps_counter_initialized then [Call.fps_counter_interrupt] else []) ++
  (if l.server_started then [Call.server_stop] else []) ++
  (if l.stream_started then [Call.stream_join] else []) ++
  (if l.controller_started then [Call.controller_join] else []) ++
  (if l.controller_initialized then [Call.controller_destroy] else []) ++
  (if l.recorder_initialized then [Call.recorder_destroy] else []) ++
  (if b.V4L2SINK && l.v4l2sink_initialized then [Call.v4l2sink_destroy] else []) ++
  (if l.file_handler_initialized then
    [Call.file_handler_join, Call.file_handler_destroy] else []) ++
  (if l.video_buffer_initialized then [Call.video_buffer_destroy] else []) ++
  (if l.fps_counter_initialized then
    [Call.fps_counter_join, Call.fps_counter_destroy] else []) ++
  [Call.server_destroy]

/-- Where control goes after a piece of scrcpy(): on to the next statement,
or to label `end` (`goto end`). -/
inductive flow
  | next (l : locals)
  | goto_end (l : locals)
deriving DecidableEq, Repr

/-- The locals at the point where control arrives. -/
def flow.vars : flow → locals
  | .next l => l
  | .goto_end l => l

/-- Sequencing: the next piece runs unless control went to `end`. -/
def flow.bind (f : flow) (k : locals → flow) : flow :=
  match f with
  | .next l => k l
  | .goto_end l => .goto_end l

/-- The locals of scrcpy() after a successful `server_init`.  The values that
C leaves uninitialised (sockets, device name, frame size) are never read
before they are assigned. -/
def scrcpy_locals (env : Env) : locals :=
  { ret := false
    server_started := false
    fps_counter_initialized := false
    video_buffer_initialized := false
    file_handler_initialized := false
    recorder_initialized := false
    stream_started := false
    controller_initialized := false
    controller_started := false
    v4l2sink_initialized := false
    dec := false
    rec_ := false
    sink := false
    video_socket := -1
    control_socket := -1
    device_name := []
    frame_size := ⟨0, 0⟩
    screen_has_frame := env.screen_has_frame
    trace := [.server_init] }

/-- scrcpy(), from `server_start` to `device_read_info`. -/
def scrcpy_connect (b : Build) (env : Env) (options : scrcpy_options) (l : locals) : flow :=
  let params : server_params :=
    { log_level := options.log_level
      crop := options.crop
      port_range := options.port_range
      max_size := options.max_size
      bit_rate := options.bit_rate
      max_fps := options.max_fps
      lock_video_orientation := options.lock_video_orientation
      control := options.control
      display_id := options.display_id
      show_touches := options.show_touches
      stay_awake := options.stay_awake
      codec_options := options.codec_options
      encoder_name := options.encoder_name
      force_adb_forward := options.force_adb_forward }
  let l := l.call (.server_start options.serial params)
  if !env.server_start then .goto_end l
  else
    let l := { l with server_started := true }
    let r := sdl_init_and_configure b env options.display options.disable_screensaver
    let l := l.calls r.2
    if !r.1 then .goto_end l
    else
      let l := l.call .server_connect_to
      match env.server_connect_to with
      | none => .goto_end l
      | some (video_socket, control_socket) =>
        let l := { l with video_socket := video_socket, control_socket := control_socket }
        let l := l.call (.device_read_info l.video_socket)
        match env.device_read_info l.video_socket with
        | none => .goto_end l
        | some (device_name, frame_size) =>
          .next { l with device_name := device_name, frame_size := frame_size }

/-- scrcpy(): the `if (options->control)` inside the display initialisation. -/
def scrcpy_file_handler (env : Env) (options : scrcpy_options) (l : locals) : flow :=
  if options.control then
    let l := l.call (.file_handler_init options.push_target)
    if !env.file_handler_init then .goto_end l
    else .next { l with file_handler_initialized := true }
  else .next l

/-- scrcpy(): `struct decoder *dec = NULL; if (options->display) ...`. -/
def scrcpy_display (env : Env) (options : scrcpy_options) (l : locals) : flow :=
  let l := { l with dec := false }
  if options.display then
    let l := l.call .fps_counter_init
    if !env.fps_counter_init then .goto_end l
    else
      let l := { l with fps_counter_initialized := true }
      let l := l.call (.video_buffer_init options.render_expired_frames)
      if !env.video_buffer_init then .goto_end l
      else
        let l := { l with video_buffer_initialized := true }
        (scrcpy_file_handler env options l).bind fun l =>
          let l := l.call .decoder_init
          .next { l with dec := true }
  else .next l

/-- scrcpy(): `struct recorder *rec = NULL; if (record) ...`. -/
def scrcpy_recorder (env : Env) (options : scrcpy_options) (l : locals) : flow :=
  let record : Bool := options.record_filename.isSome
  let l := { l with rec_ := false }
  if record then
    let l := l.call
      (.recorder_init options.record_filename options.record_format l.frame_size)
    if !env.recorder_init then .goto_end l
    else .next { l with rec_ := true, recorder_initialized := true }
  else .next l

/-- scrcpy(): `struct v4l2sink *sink = NULL;` and the part under
`#ifdef V4L2SINK`. -/
def scrcpy_v4l2sink (b : Build) (env : Env) (options : scrcpy_options) (l : locals) : flow :=
  let l := { l with sink := false }
  if b.V4L2SINK then
    let v4l2 : Bool := options.v4l2sink_device.isSome
    if v4l2 then
      let l := l.call (.v4l2sink_init options.v4l2sink_device l.frame_size)
      if !env.v4l2sink_init then .goto_end l
      else .next { l with sink := true, v4l2sink_initialized := true }
    else .next l
  else .next l

/-- scrcpy(): `av_log_set_callback`, `stream_init`, `stream_start`. -/
def scrcpy_stream (env : Env) (l : locals) : flow :=
  let l := l.call .av_log_set_callback
  let l := l.call (.stream_init l.video_socket l.dec l.rec_ l.sink)
  let l := l.call .stream_start
  if !env.stream_start then .goto_end l
  else .next { l with stream_started := true }

/-- scrcpy(): the `if (options->control)` inside the second
`if (options->display)`. -/
def scrcpy_controller (env : Env) (options : scrcpy_options) (l : locals) : flow :=
  if options.control then
    let l := l.call (.controller_init l.control_socket)
    if !env.controller_init then .goto_end l
    else
      let l := { l with controller_initialized := true }
      let l := l.call .controller_start
      if !env.controller_start then .goto_end l
      else .next { l with controller_started := true }
  else .next l

/-- scrcpy(): the second `if (options->display)`: controller, window, screen
power mode, fullscreen. -/
def scrcpy_screen (env : Env) (options : scrcpy_options) (l : locals) : flow :=
  if options.display then
    (scrcpy_controller env options l).bind fun l =>
      let window_title : CStr :=
        match options.window_title with
        | some t => t
        | none => l.device_name
      let l := l.call
        (.screen_init_rendering window_title l.frame_size options.always_on_top
          options.window_x options.window_y options.window_width options.window_height
          options.window_borderless options.rotation options.mipmaps)
      if !env.screen_init_rendering then .goto_end l
      else
        let l :=
          if options.turn_screen_off then
            l.call (.controller_push_msg
              { type := .CONTROL_MSG_TYPE_SET_SCREEN_POWER_MODE
                set_screen_power_mode_mode := .SCREEN_POWER_MODE_OFF })
          else l
        let l := if options.fullscreen then l.call .screen_switch_fullscreen else l
        .next l
  else .next l

/-- scrcpy(): `input_manager_init`, `ret = event_loop(options)`,
`screen_destroy`; control then falls through to `end`. -/
def scrcpy_run (b : Build) (env : Env) (options : scrcpy_options) (l : locals) : flow :=
  let l := l.call .input_manager_init
  let l := l.call .event_loop
  let r := event_loop b options env.events l.screen_has_frame
  let l := { l with ret := r.1, screen_has_frame := r.2.1 }
  let l := l.calls r.2.2
  let l := l.call .screen_destroy
  .next l

/-- scrcpy() from `server_start` up to label `end`. -/
def scrcpy_body (b : Build) (env : Env) (options : scrcpy_options) : flow :=
  (((((((scrcpy_connect b env options (scrcpy_locals env)).bind
    (scrcpy_display env options)).bind
    (scrcpy_recorder env options)).bind
    (scrcpy_v4l2sink b env options)).bind
    (scrcpy_stream env)).bind
    (scrcpy_screen env options)).bind
    (scrcpy_run b env options))

/-- The function `scrcpy`: the returned value and the calls made, in order. -/
def scrcpy (b : Build) (env : Env) (options : scrcpy_options) : Bool × List Call :=
  if !env.server_init then (false, [.server_init])
  else
    let l := (scrcpy_body b env options).vars
    (l.ret, l.trace ++ scrcpy_end b l)

/-! ## Orderings in a call trace -/

/-- In the trace `t`, every occurrence of `a` is before every occurrence of `c`. -/
def precedes (a c : Call) (t : List Call) : Prop :=
  ∀ i j : Nat, t[i]? = some a → t[j]? = some c → i < j

/-! ## Vocabulary for statements about call traces -/

/-- The release calls of the clean-up. -/
def is_release : Call → Bool
  | .controller_destroy | .recorder_destroy | .v4l2sink_destroy | .file_handler_destroy
  | .video_buffer_destroy | .fps_counter_destroy | .server_destroy => true
  | _ => false

/-- The thread join calls of the clean-up. -/
def is_join : Call → Bool
  | .stream_join | .controller_join | .file_handler_join | .fps_counter_join => true
  | _ => false

/-- The four-phase reading of the shutdown path: no release call is made before
a thread join call, that is, every release comes after the last join. -/
def release_after_joins (t : List Call) : Prop :=
  ∀ (i j : Nat) (r c : Call), t[i]? = some r → t[j]? = some c →
    is_release r = true → is_join c = true → j < i

/-- The calls that the clean-up of scrcpy() makes. -/
def Call.is_cleanup : Call → Bool
  | .stream_stop | .controller_stop | .file_handler_stop | .fps_counter_interrupt
  | .server_stop | .stream_join | .controller_join | .controller_destroy
  | .recorder_destroy | .v4l2sink_destroy | .file_handler_join | .file_handler_destroy
  | .video_buffer_destroy | .fps_counter_join | .fps_counter_destroy | .server_destroy => true
  | _ => false

/-- The calls that the event loop makes. -/
def Call.is_loop : Call → Bool
  | .SDL_AddEventWatch | .SDL_WaitEvent | .screen_show_window | .screen_update_frame
  | .screen_handle_window_event _ | .input_manager_process_text_input _
  | .input_manager_process_key _ | .input_manager_process_mouse_motion _
  | .input_manager_process_mouse_wheel _ | .input_manager_process_mouse_button _
  | .input_manager_process_touch _ | .file_handler_request _ _ => true
  | _ => false

/-- Recognises a call of `server_start`, whatever its arguments. -/
def Call.is_server_start : Call → Bool
  | .server_start _ _ => true
  | _ => false

/-- Recognises a call of `video_buffer_init`. -/
def Call.is_video_buffer_init : Call → Bool
  | .video_buffer_init _ => true
  | _ => false

/-- Recognises a call of `file_handler_init`. -/
def Call.is_file_handler_init : Call → Bool
  | .file_handler_init _ => true
  | _ => false

/-- Recognises a call of `recorder_init`. -/
def Call.is_recorder_init : Call → Bool
  | .recorder_init _ _ _ => true
  | _ => false

/-- Recognises a call of `controller_init`. -/
def Call.is_controller_init : Call → Bool
  | .controller_init _ => true
  | _ => false

/-- Some call recognised by `k` is in the trace `t`. -/
def made (k : Call → Bool) (t : List Call) : Prop := ∃ c ∈ t, k c = true

instance (k : Call → Bool) (t : List Call) : Decidable (made k t) := by
  unfold made; infer_instance

/-- The calls that the accounting of acquired and released components looks at. -/
def Call.is_tracked (c : Call) : Bool :=
  c.is_cleanup || c.is_server_start || c.is_video_buffer_init || c.is_file_handler_init
    || c.is_recorder_init || c.is_controller_init || decide (c = .fps_counter_init)
    || decide (c = .stream_start) || decide (c = .controller_start)

/-- The flags of scrcpy() record exactly the fallible calls that were made and
succeeded, and no clean-up call has been made yet. -/
def tracked (env : Env) (l : locals) : Prop :=
  ¬ made Call.is_cleanup l.trace ∧
  (l.server_started = true ↔ made Call.is_server_start l.trace ∧ env.server_start = true) ∧
  (l.fps_counter_initialized = true ↔
    Call.fps_counter_init ∈ l.trace ∧ env.fps_counter_init = true) ∧
  (l.video_buffer_initialized = true ↔
    made Call.is_video_buffer_init l.trace ∧ env.video_buffer_init = true) ∧
  (l.file_handler_initialized = true ↔
    made Call.is_file_handler_init l.trace ∧ env.file_handler_init = true) ∧
  (l.recorder_initialized = true ↔
    made Call.is_recorder_init l.trace ∧ env.recorder_init = true) ∧
  (l.stream_started = true ↔ Call.stream_start ∈ l.trace ∧ env.stream_start = true) ∧
  (l.controller_initialized = true ↔
    made Call.is_controller_init l.trace ∧ env.controller_init = true) ∧
  (l.controller_started = true ↔
    Call.controller_start ∈ l.trace ∧ env.controller_start = true)

/-! ## Sample inputs -/

/-- An option set with display and control enabled and no recording. -/
def sample_options : scrcpy_options :=
  { serial := none, crop := none, record_filename := none, window_title := none,
    push_target := none, render_driver := none, codec_options := none,
    encoder_name := none, v4l2sink_device := none,
    log_level := .SC_LOG_LEVEL_INFO, record_format := .SC_RECORD_FORMAT_AUTO,
    port_range := ⟨27183, 27199⟩, shortcut_mods := ⟨[], 0⟩,
    max_size := 0, bit_rate := 8000000, max_fps := 0, lock_video_orientation := -1,
    rotation := 0, window_x := -32768, window_y := -32768, window_width := 0,
    window_height := 0, display_id := 0, show_touches := false, fullscreen := false,
    always_on_top := false, control := true, display := true, turn_screen_off := false,
    render_expired_frames := false, prefer_text := false, window_borderless := false,
    mipmaps := true, stay_awake := false, force_adb_forward := false,
    disable_screensaver := false, forward_key_repeat := true,
    forward_all_clicks := false, legacy_paste := false }

/-- Collaborators that all succeed, with no event delivered. -/
def sample_env : Env :=
  { server_init := true, server_start := true, SDL_Init_ok := true,
    server_connect_to := some (3, 4),
    device_read_info := fun _ => some ("Pixel".toList, ⟨1080, 1920⟩),
    fps_counter_init := true, video_buffer_init := true, file_handler_init := true,
    recorder_init := true, v4l2sink_init := true, stream_start := true,
    controller_init := true, controller_start := true, screen_init_rendering := true,
    controller_push_msg := true, screen_has_frame := false, events := [] }

/-- A Linux build with the v4l2 sink compiled in. -/
def sample_build : Build :=
  { V4L2SINK := true, WIN32 := false, CONTINUOUS_RESIZING_WORKAROUND := false }


/-! ## Vocabulary for the header and the event loop -/

/-- The header was read: `server_connect_to` gave the video socket `vs` and
`device_read_info` on it gave the frame size `sz`. -/
def header_read (env : Env) (vs : socket_t) (sz : size) : Prop :=
  ∃ cs name, env.server_connect_to = some (vs, cs) ∧
    env.device_read_info vs = some (name, sz)

/-- The call `c`, if it is handed a video socket or a frame size, is handed
the socket `vs` and the frame size `sz`. -/
def Call.header_ok (vs : socket_t) (sz : size) : Call → Bool
  | .stream_init s _ _ _ => decide (s = vs)
  | .recorder_init _ _ z => decide (z = sz)
  | .v4l2sink_init _ z => decide (z = sz)
  | .screen_init_rendering _ z _ _ _ _ _ _ _ _ => decide (z = sz)
  | _ => true

/-- The calls that are handed a video socket or a frame size, and `stream_start`. -/
def Call.uses_header : Call → Bool
  | .recorder_init _ _ _ | .v4l2sink_init _ _ | .stream_init _ _ _ _ | .stream_start
  | .screen_init_rendering _ _ _ _ _ _ _ _ _ _ => true
  | _ => false

/-- The state of scrcpy() after the header was read. -/
def after_header (env : Env) (l : locals) : Prop :=
  header_read env l.video_socket l.frame_size ∧ Call.device_read_info l.video_socket ∈ l.trace ∧
    precedes (.device_read_info l.video_socket) .stream_start l.trace ∧
    ∀ c ∈ l.trace, c.header_ok l.video_socket l.frame_size = true

/-- The event types at which the event loop stops. -/
def event_type.stops : event_type → Bool
  | .EVENT_STREAM_STOPPED | .SDL_QUIT => true
  | _ => false

/-- Before the event loop: it was not entered, `ret` is still false and
`screen.has_frame` is as at the start. -/
def before_loop (env : Env) (l : locals) : Prop :=
  Call.event_loop ∉ l.trace ∧ l.ret = false ∧ l.screen_has_frame = env.screen_has_frame

/-! ## The stream demuxer and the frame buffer, from the specification -/

/-- An `EncodedPacket` of the specification: payload bytes, presentation
timestamp and config flag. -/
structure EncodedPacket where
  payload : List Nat
  pts : Nat
  is_config : Bool
deriving DecidableEq, Repr

/-- The merge state of `struct stream` (stream.h): `has_pending` and the bytes
of `pending`. -/
structure stream where
  has_pending : Bool
  pending : List Nat
deriving DecidableEq, Repr

/-- The merge state that `stream_init` leaves: nothing pending. -/
def stream.init : stream :=
  { has_pending := false, pending := [] }

/-- Modelled from the spec: the merge rule of the StreamDemuxer (stream.c is not
among the sources).  A config packet is appended to pending and not dispatched.
A non-config packet: if pending is non-empty, the pending bytes followed by the
bytes of the packet are dispatched as one unit with the timestamp of the
packet, and pending is cleared; if pending is empty, the packet is dispatched
unmodified.  The result is the new state and the units dispatched. -/
def stream_push_packet (s : stream) (p : EncodedPacket) : stream × List EncodedPacket :=
  if p.is_config then
    ({ has_pending := true, pending := s.pending ++ p.payload }, [])
  else if s.has_pending then
    ({ has_pending := false, pending := [] },
      [{ payload := s.pending ++ p.payload, pts := p.pts, is_config := false }])
  else
    (s, [p])

/-- The demuxer on a sequence of packets, in arrival order: the final state
and the units dispatched, in order. -/
def stream_run (s : stream) : List EncodedPacket → stream × List EncodedPacket
  | [] => (s, [])
  | p :: ps =>
    let r := stream_push_packet s p
    let q := stream_run r.1 ps
    (q.1, r.2 ++ q.2)

/-- The unit that a run of config packets `cs` followed by the non-config
packet `d` is merged into. -/
def merged (cs : List EncodedPacket) (d : EncodedPacket) : EncodedPacket :=
  { payload := (cs.map EncodedPacket.payload).flatten ++ d.payload, pts := d.pts,
    is_config := false }

/-- The packet sequence made of the runs `runs` (config packets, then one
non-config packet) followed by the config packets `tail`. -/
def sequence_of (runs : List (List EncodedPacket × EncodedPacket))
    (tail : List EncodedPacket) : List EncodedPacket :=
  (runs.map fun r => r.1 ++ [r.2]).flatten ++ tail

/-- A pending buffer is consistent: without the flag it is empty. -/
def stream.consistent (s : stream) : Prop :=
  s.has_pending = false → s.pending = []

/-- A decoded frame: an opaque handle. -/
abbrev Frame := Nat

/-- Modelled from the spec: the FrameBuffer (video_buffer.c is not among the
sources).  `ready` holds the frames pushed and not yet consumed, oldest first
(at most one under the default, drop-latest policy), `in_flight` the frame last
handed to the renderer, `received` and `rendered` the two counters. -/
structure video_buffer where
  render_expired_frames : Bool
  ready : List Frame
  in_flight : Option Frame
  received : Nat
  rendered : Nat
deriving DecidableEq, Repr

/-- Modelled from the spec: the buffer that `video_buffer_init` sets up, with
the policy flag that scrcpy() passes. -/
def video_buffer_init (render_expired_frames : Bool) : video_buffer :=
  { render_expired_frames := render_expired_frames, ready := [], in_flight := none,
    received := 0, rendered := 0 }

/-- Modelled from the spec: `push(frame)` always succeeds and counts one frame
received; under the default policy the frame replaces a pushed frame that was
not consumed yet, otherwise it is queued behind it. -/
def video_buffer_push (vb : video_buffer) (frame : Frame) : video_buffer :=
  { vb with
    ready := if vb.render_expired_frames then vb.ready ++ [frame] else [frame]
    received := vb.received + 1 }

/-- Modelled from the spec: `consume_latest()` returns a frame only if one was
pushed since the last returned one; the frame becomes the in-flight frame and
counts as rendered. -/
def video_buffer_consume (vb : video_buffer) : Option Frame × video_buffer :=
  match vb.ready with
  | [] => (none, vb)
  | frame :: rest =>
    (some frame, { vb with ready := rest, in_flight := some frame, rendered := vb.rendered + 1 })

/-- Several pushes in a row, with no consume in between. -/
def video_buffer_pushes (vb : video_buffer) (frames : List Frame) : video_buffer :=
  frames.foldl video_buffer_push vb

/-! ## cli.c -/

/-- What cli.c takes from files that are not among the sources: the integer
parsers of util/str_util.c, and the shortcut modifier constants of scrcpy.h.
`parse_integer s` is `some v` when the C function returns true and stores `v`;
`parse_integers s sep max_items` is the list of the values stored (its length
is the returned count). -/
structure Deps where
  parse_integer : CStr → Option Int
  parse_integer_with_suffix : CStr → Option Int
  parse_integers : CStr → Char → Nat → List Int
  SC_MAX_SHORTCUT_MODS : Nat
  SC_MOD_LCTRL : Nat
  SC_MOD_RCTRL : Nat
  SC_MOD_LALT : Nat
  SC_MOD_RALT : Nat
  SC_MOD_LSUPER : Nat
  SC_MOD_RSUPER : Nat

/-- The `struct scrcpy_cli_args`. -/
structure scrcpy_cli_args where
  opts : scrcpy_options
  help : Bool
  version : Bool
deriving DecidableEq, Repr

/-- The function `parse_integer_arg`: `some value` when it returns true and
stores `value` in `*out`, `none` when it returns false (`*out` is not written). -/
def parse_integer_arg (d : Deps) (s : CStr) (accept_suffix : Bool) (min max : Int) :
    Option Int :=
  let r := if accept_suffix then d.parse_integer_with_suffix s else d.parse_integer s
  match r with
  | none => none
  | some value => if value < min ∨ value > max then none else some value

/-- The function `parse_integers_arg`: the values stored, `[]` for the returned
count 0. -/
def parse_integers_arg (d : Deps) (s : CStr) (max_items : Nat) (min max : Int) : List Int :=
  let out := d.parse_integers s ':' max_items
  if out.length = 0 then []
  else if out.all (fun value => !(decide (value < min) || decide (value > max))) then out
  else []

/-- The cast `(uint32_t) value`. -/
def to_uint32 (value : Int) : Int := value % 4294967296

/-- The cast `(uint16_t) value`. -/
def to_uint16 (value : Int) : Int := value % 65536

/-- The cast `(uint8_t) value`. -/
def to_uint8 (value : Int) : Int := value % 256

/-- The cast `(int16_t) value`. -/
def to_int16 (value : Int) : Int := (value + 32768) % 65536 - 32768

/-- The cast `(int8_t) value`. -/
def to_int8 (value : Int) : Int := (value + 128) % 256 - 128

/-- The function `parse_bit_rate`: the returned value and `*bit_rate` on exit. -/
def parse_bit_rate (d : Deps) (s : CStr) (bit_rate : Int) : Bool × Int :=
  match parse_integer_arg d s true 0 0x7FFFFFFF with
  | none => (false, bit_rate)
  | some value => (true, to_uint32 value)

/-- The function `parse_max_size`. -/
def parse_max_size (d : Deps) (s : CStr) (max_size : Int) : Bool × Int :=
  match parse_integer_arg d s false 0 0xFFFF with
  | none => (false, max_size)
  | some value => (true, to_uint16 value)

/-- The function `parse_max_fps`. -/
def parse_max_fps (d : Deps) (s : CStr) (max_fps : Int) : Bool × Int :=
  match parse_integer_arg d s false 0 1000 with
  | none => (false, max_fps)
  | some value => (true, to_uint16 value)

/-- The function `parse_lock_video_orientation`. -/
def parse_lock_video_orientation (d : Deps) (s : CStr) (lock_video_orientation : Int) :
    Bool × Int :=
  match parse_integer_arg d s false (-1) 3 with
  | none => (false, lock_video_orientation)
  | some value => (true, to_int8 value)

/-- The function `parse_rotation`. -/
def parse_rotation (d : Deps) (s : CStr) (rotation : Int) : Bool × Int :=
  match parse_integer_arg d s false 0 3 with
  | none => (false, rotation)
  | some value => (true, to_uint8 value)

/-- The constant `SC_WINDOW_POSITION_UNDEFINED`, which the `static_assert` of
`parse_window_position` fixes to `-0x8000`. -/
def SC_WINDOW_POSITION_UNDEFINED : Int := -0x8000

/-- The function `parse_window_position`. -/
def parse_window_position (d : Deps) (s : CStr) (position : Int) : Bool × Int :=
  if s = ['a', 'u', 't', 'o'] then (true, SC_WINDOW_POSITION_UNDEFINED)
  else
    match parse_integer_arg d s false (-0x7FFF) 0x7FFF with
    | none => (false, position)
    | some value => (true, to_int16 value)

/-- The function `parse_window_dimension`. -/
def parse_window_dimension (d : Deps) (s : CStr) (dimension : Int) : Bool × Int :=
  match parse_integer_arg d s false 0 0xFFFF with
  | none => (false, dimension)
  | some value => (true, to_uint16 value)

/-- The function `parse_port_range`.  `parse_integers_arg` is asked for at most
2 values; with more than one value the code asserts that there are 2. -/
def parse_port_range (d : Deps) (s : CStr) (port_range : sc_port_range) :
    Bool × sc_port_range :=
  match parse_integers_arg d s 2 0 0xFFFF with
  | [] => (false, port_range)
  | [value0] => (true, { first := to_uint16 value0, last := to_uint16 value0 })
  | value0 :: value1 :: _ =>
    let v0 := to_uint16 value0
    let v1 := to_uint16 value1
    if v0 < v1 then (true, { first := v0, last := v1 })
    else (true, { first := v1, last := v0 })

/-- The function `parse_display_id`. -/
def parse_display_id (d : Deps) (s : CStr) (display_id : Int) : Bool × Int :=
  match parse_integer_arg d s false 0 0xFFFF with
  | none => (false, display_id)
  | some value => (true, to_uint16 value)

/-- The function `parse_log_level`. -/
def parse_log_level (s : CStr) (log_level : sc_log_level) : Bool × sc_log_level :=
  if s = "debug".toList then (true, .SC_LOG_LEVEL_DEBUG)
  else if s = "info".toList then (true, .SC_LOG_LEVEL_INFO)
  else if s = "warn".toList then (true, .SC_LOG_LEVEL_WARN)
  else if s = "error".toList then (true, .SC_LOG_LEVEL_ERROR)
  else (false, log_level)

/-- The macro `STREQ(literal, s, len)`: the literal has `len` chars and they are
the first `len` chars at `s`. -/
def STREQ (literal : String) (s : CStr) (len : Nat) : Bool :=
  decide (literal.toList.length = len) && decide (literal.toList = s.take len)

/-- The `for (;;)` loop of `parse_shortcut_mods_item`.  `item` is the text from
the pointer `item` to the end of the string, `len` the number of chars that
belong to the item, `mod` the modifiers so far; `fuel` bounds the number of
turns (every turn but the last shortens `len`).  `strchr` looks for `'+'` in
the whole rest of the string, also beyond `len`.  The result is a pair: the
second component is the value returned when the `assert`s are compiled out
(`NDEBUG`); the first component is `true` when every `assert` that is reached
holds.  A build with assertions stops at the first `assert` that does not hold,
so there the function returns (the second component) only if the first
component is `true`. -/
def parse_shortcut_mods_item_loop (d : Deps) : Nat → CStr → Nat → Nat → Bool × Nat
  | 0, _, _, _ => (true, 0)
  | fuel + 1, item, len, mod =>
    let plus := item.indexOf? '+'
    let has_plus : Bool :=
      match plus with
      | some i => decide (i < len)
      | none => false
    -- assert(!has_plus || plus > item)
    let assert_plus : Bool := !has_plus || decide (0 < plus.getD 0)
    let key_len : Nat := if has_plus then plus.getD 0 else len
    let key : Option Nat :=
      if STREQ "lctrl" item key_len then some d.SC_MOD_LCTRL
      else if STREQ "rctrl" item key_len then some d.SC_MOD_RCTRL
      else if STREQ "lalt" item key_len then some d.SC_MOD_LALT
      else if STREQ "ralt" item key_len then some d.SC_MOD_RALT
      else if STREQ "lsuper" item key_len then some d.SC_MOD_LSUPER
      else if STREQ "rsuper" item key_len then some d.SC_MOD_RSUPER
      else none
    match key with
    | none => (assert_plus, 0)
    | some k =>
      let mod := mod ||| k
      if !has_plus then (assert_plus, mod)
      else
        -- assert(len >= key_len + 1)
        let assert_len : Bool := decide (len ≥ key_len + 1)
        let r := parse_shortcut_mods_item_loop d fuel (item.drop (key_len + 1))
          (len - (key_len + 1)) mod
        (assert_plus && assert_len && r.1, r.2)

/-- The function `parse_shortcut_mods_item`: whether its `assert`s hold, and
the returned value, which is the bitwise-or of the modifiers of the item, or 0
on error. -/
def parse_shortcut_mods_item (d : Deps) (item : CStr) (len : Nat) : Bool × Nat :=
  parse_shortcut_mods_item_loop d (len + 1) item len 0

/-- The assignment `data[i] = v` on the array `data`, of which the list holds
the leading entries. -/
def array_write (data : List Nat) (i : Nat) (v : Nat) : List Nat :=
  data.take i ++ [v] ++ data.drop (i + 1)

/-- The `for (;;)` loop of `parse_shortcut_mods`.  `s` is the text from the
pointer `s` to the end of the string; `fuel` bounds the number of turns (every
turn but the last shortens `s`).  The result is: whether every `assert` that
is reached holds (those of `parse_shortcut_mods_item` included), the returned
value (before `mods->count = count`), the array `mods->data` and `count`.
`SC_MAX_SHORTCUT_MODS`, the length of the array, is at least 1. -/
def parse_shortcut_mods_loop (d : Deps) :
    Nat → CStr → List Nat → Nat → Nat → Bool × Bool × List Nat × Nat
  | 0, _, data, count, _ => (true, false, data, count)
  | fuel + 1, s, data, count, current =>
    let comma := s.indexOf? ','
    if comma.isSome && decide (count = d.SC_MAX_SHORTCUT_MODS - 1) then
      -- assert(count < SC_MAX_SHORTCUT_MODS)
      (decide (count < d.SC_MAX_SHORTCUT_MODS), false, data, count)
    else
      -- assert(!comma || comma > s)
      let assert_comma : Bool :=
        match comma with
        | some i => decide (0 < i)
        | none => true
      let limit : Nat :=
        match comma with
        | some i => i
        | none => s.length
      let r := parse_shortcut_mods_item d s limit
      let mod := r.2
      if mod = 0 then (assert_comma && r.1, false, data, count)
      else
        let data := array_write data current mod
        let current := current + 1
        let count := count + 1
        match comma with
        | none => (assert_comma && r.1, true, data, count)
        | some i =>
          let q := parse_shortcut_mods_loop d fuel (s.drop (i + 1)) data count current
          (assert_comma && r.1 && q.1, q.2)

/-- The function `parse_shortcut_mods`: the returned value and `*mods` on exit,
when the `assert`s are compiled out or hold.  On failure the entries of `data`
written so far stay written and `count` is unchanged. -/
def parse_shortcut_mods (d : Deps) (s : CStr) (mods : sc_shortcut_mods) :
    Bool × sc_shortcut_mods :=
  match (parse_shortcut_mods_loop d (s.length + 1) s mods.data 0 0).2 with
  | (false, data, _) => (false, { mods with data := data })
  | (true, data, count) => (true, { data := data, count := count })

/-- Whether every `assert` reached by `parse_shortcut_mods` on the argument `s`
holds.  When it is `false`, a build with assertions stops inside
`parse_shortcut_mods` instead of returning. -/
def parse_shortcut_mods_asserts (d : Deps) (s : CStr) (mods : sc_shortcut_mods) : Bool :=
  (parse_shortcut_mods_loop d (s.length + 1) s mods.data 0 0).1

/-- The function `parse_record_format`. -/
def parse_record_format (optarg : CStr) (format : sc_record_format) :
    Bool × sc_record_format :=
  if optarg = ['m', 'p', '4'] then (true, .SC_RECORD_FORMAT_MP4)
  else if optarg = ['m', 'k', 'v'] then (true, .SC_RECORD_FORMAT_MKV)
  else (false, format)

/-- The function `guess_record_format`; `SC_RECORD_FORMAT_AUTO` is the
returned 0. -/
def guess_record_format (filename : CStr) : sc_record_format :=
  let len := filename.length
  if len < 4 then .SC_RECORD_FORMAT_AUTO
  else
    let ext := filename.drop (len - 4)
    if ext = ['.', 'm', 'p', '4'] then .SC_RECORD_FORMAT_MP4
    else if ext = ['.', 'm', 'k', 'v'] then .SC_RECORD_FORMAT_MKV
    else .SC_RECORD_FORMAT_AUTO

/-- The value that `getopt_long` returns for the short option `x`. -/
def short_option (x : Char) : Int := x.toNat

/-- The macro `OPT_RENDER_EXPIRED_FRAMES`. -/
def OPT_RENDER_EXPIRED_FRAMES : Int := 1000
/-- The macro `OPT_WINDOW_TITLE`. -/
def OPT_WINDOW_TITLE : Int := 1001
/-- The macro `OPT_PUSH_TARGET`. -/
def OPT_PUSH_TARGET : Int := 1002
/-- The macro `OPT_ALWAYS_ON_TOP`. -/
def OPT_ALWAYS_ON_TOP : Int := 1003
/-- The macro `OPT_CROP`. -/
def OPT_CROP : Int := 1004
/-- The macro `OPT_RECORD_FORMAT`. -/
def OPT_RECORD_FORMAT : Int := 1005
/-- The macro `OPT_PREFER_TEXT`. -/
def OPT_PREFER_TEXT : Int := 1006
/-- The macro `OPT_WINDOW_X`. -/
def OPT_WINDOW_X : Int := 1007
/-- The macro `OPT_WINDOW_Y`. -/
def OPT_WINDOW_Y : Int := 1008
/-- The macro `OPT_WINDOW_WIDTH`. -/
def OPT_WINDOW_WIDTH : Int := 1009
/-- The macro `OPT_WINDOW_HEIGHT`. -/
def OPT_WINDOW_HEIGHT : Int := 1010
/-- The macro `OPT_WINDOW_BORDERLESS`. -/
def OPT_WINDOW_BORDERLESS : Int := 1011
/-- The macro `OPT_MAX_FPS`. -/
def OPT_MAX_FPS : Int := 1012
/-- The macro `OPT_LOCK_VIDEO_ORIENTATION`. -/
def OPT_LOCK_VIDEO_ORIENTATION : Int := 1013
/-- The macro `OPT_DISPLAY_ID`. -/
def OPT_DISPLAY_ID : Int := 1014
/-- The macro `OPT_ROTATION`. -/
def OPT_ROTATION : Int := 1015
/-- The macro `OPT_RENDER_DRIVER`. -/
def OPT_RENDER_DRIVER : Int := 1016
/-- The macro `OPT_NO_MIPMAPS`. -/
def OPT_NO_MIPMAPS : Int := 1017
/-- The macro `OPT_CODEC_OPTIONS`. -/
def OPT_CODEC_OPTIONS : Int := 1018
/-- The macro `OPT_FORCE_ADB_FORWARD`. -/
def OPT_FORCE_ADB_FORWARD : Int := 1019
/-- The macro `OPT_DISABLE_SCREENSAVER`. -/
def OPT_DISABLE_SCREENSAVER : Int := 1020
/-- The macro `OPT_SHORTCUT_MOD`. -/
def OPT_SHORTCUT_MOD : Int := 1021
/-- The macro `OPT_NO_KEY_REPEAT`. -/
def OPT_NO_KEY_REPEAT : Int := 1022
/-- The macro `OPT_FORWARD_ALL_CLICKS`. -/
def OPT_FORWARD_ALL_CLICKS : Int := 1023
/-- The macro `OPT_LEGACY_PASTE`. -/
def OPT_LEGACY_PASTE : Int := 1024
/-- The macro `OPT_ENCODER_NAME`. -/
def OPT_ENCODER_NAME : Int := 1025
/-- The macro `OPT_V4L2SINK`. -/
def OPT_V4L2SINK : Int := 1026

/-- What `getopt_long` gives during one run of `scrcpy_parse_args`: for every
call that does not return -1, the returned value `c` and `optarg` (for an
option declared with `required_argument` it is not NULL; otherwise it is not
read), and the number `argc - optind` of arguments left after the options. -/
structure getopt_run where
  parsed : List (Int × CStr)
  remaining : Nat
deriving DecidableEq, Repr

/-- The body of the `switch (c)` of `scrcpy_parse_args`, for one option: `false`
when the function returns false there, `true` when the loop goes on; and the
arguments structure after it.  Without `V4L2SINK` there is no case for
`OPT_V4L2SINK`, which then falls to `default`. -/
def scrcpy_parse_args_switch (d : Deps) (b : Build) (args : scrcpy_cli_args) (c : Int)
    (optarg : CStr) : Bool × scrcpy_cli_args :=
  let opts := args.opts
  if c = short_option 'b' then
    let r := parse_bit_rate d optarg opts.bit_rate
    (r.1, { args with opts := { opts with bit_rate := r.2 } })
  else if c = short_option 'c' ∨ c = OPT_CROP then
    (true, { args with opts := { opts with crop := some optarg } })
  else if c = OPT_DISPLAY_ID then
    let r := parse_display_id d optarg opts.display_id
    (r.1, { args with opts := { opts with display_id := r.2 } })
  else if c = short_option 'f' then
    (true, { args with opts := { opts with fullscreen := true } })
  else if c = short_option 'F' ∨ c = OPT_RECORD_FORMAT then
    let r := parse_record_format optarg opts.record_format
    (r.1, { args with opts := { opts with record_format := r.2 } })
  else if c = short_option 'h' then
    (true, { args with help := true })
  else if c = OPT_MAX_FPS then
    let r := parse_max_fps d optarg opts.max_fps
    (r.1, { args with opts := { opts with max_fps := r.2 } })
  else if c = short_option 'm' then
    let r := parse_max_size d optarg opts.max_size
    (r.1, { args with opts := { opts with max_size := r.2 } })
  else if c = OPT_LOCK_VIDEO_ORIENTATION then
    let r := parse_lock_video_orientation d optarg opts.lock_video_orientation
    (r.1, { args with opts := { opts with lock_video_orientation := r.2 } })
  else if c = short_option 'n' then
    (true, { args with opts := { opts with control := false } })
  else if c = short_option 'N' then
    (true, { args with opts := { opts with display := false } })
  else if c = short_option 'p' then
    let r := parse_port_range d optarg opts.port_range
    (r.1, { args with opts := { opts with port_range := r.2 } })
  else if c = short_option 'r' then
    (true, { args with opts := { opts with record_filename := some optarg } })
  else if c = short_option 's' then
    (true, { args with opts := { opts with serial := some optarg } })
  else if c = short_option 'S' then
    (true, { args with opts := { opts with turn_screen_off := true } })
  else if c = short_option 't' then
    (true, { args with opts := { opts with show_touches := true } })
  else if c = short_option 'T' ∨ c = OPT_ALWAYS_ON_TOP then
    (true, { args with opts := { opts with always_on_top := true } })
  else if c = short_option 'v' then
    (true, { args with version := true })
  else if c = short_option 'V' then
    let r := parse_log_level optarg opts.log_level
    (r.1, { args with opts := { opts with log_level := r.2 } })
  else if c = short_option 'w' then
    (true, { args with opts := { opts with stay_awake := true } })
  else if c = OPT_RENDER_EXPIRED_FRAMES then
    (true, { args with opts := { opts with render_expired_frames := true } })
  else if c = OPT_WINDOW_TITLE then
    (true, { args with opts := { opts with window_title := some optarg } })
  else if c = OPT_WINDOW_X then
    let r := parse_window_position d optarg opts.window_x
    (r.1, { args with opts := { opts with window_x := r.2 } })
  else if c = OPT_WINDOW_Y then
    let r := parse_window_position d optarg opts.window_y
    (r.1, { args with opts := { opts with window_y := r.2 } })
  else if c = OPT_WINDOW_WIDTH then
    let r := parse_window_dimension d optarg opts.window_width
    (r.1, { args with opts := { opts with window_width := r.2 } })
  else if c = OPT_WINDOW_HEIGHT then
    let r := parse_window_dimension d optarg opts.window_height
    (r.1, { args with opts := { opts with window_height := r.2 } })
  else if c = OPT_WINDOW_BORDERLESS then
    (true, { args with opts := { opts with window_borderless := true } })
  else if c = OPT_PUSH_TARGET then
    (true, { args with opts := { opts with push_target := some optarg } })
  else if c = OPT_PREFER_TEXT then
    (true, { args with opts := { opts with prefer_text := true } })
  else if c = OPT_ROTATION then
    let r := parse_rotation d optarg opts.rotation
    (r.1, { args with opts := { opts with rotation := r.2 } })
  else if c = OPT_RENDER_DRIVER then
    (true, { args with opts := { opts with render_driver := some optarg } })
  else if c = OPT_NO_MIPMAPS then
    (true, { args with opts := { opts with mipmaps := false } })
  else if c = OPT_NO_KEY_REPEAT then
    (true, { args with opts := { opts with forward_key_repeat := false } })
  else if c = OPT_CODEC_OPTIONS then
    (true, { args with opts := { opts with codec_options := some optarg } })
  else if c = OPT_ENCODER_NAME then
    (true, { args with opts := { opts with encoder_name := some optarg } })
  else if c = OPT_FORCE_ADB_FORWARD then
    (true, { args with opts := { opts with force_adb_forward := true } })
  else if c = OPT_DISABLE_SCREENSAVER then
    (true, { args with opts := { opts with disable_screensaver := true } })
  else if c = OPT_SHORTCUT_MOD then
    let r := parse_shortcut_mods d optarg opts.shortcut_mods
    (r.1, { args with opts := { opts with shortcut_mods := r.2 } })
  else if c = OPT_FORWARD_ALL_CLICKS then
    (true, { args with opts := { opts with forward_all_clicks := true } })
  else if c = OPT_LEGACY_PASTE then
    (true, { args with opts := { opts with legacy_paste := true } })
  else if b.V4L2SINK = true ∧ c = OPT_V4L2SINK then
    (true, { args with opts := { opts with v4l2sink_device := some optarg } })
  else
    (false, args)

/-- The `while ((c = getopt_long(...)) != -1)` loop of `scrcpy_parse_args`:
`false` when the function returns false inside the loop. -/
def scrcpy_parse_args_while (d : Deps) (b : Build) :
    scrcpy_cli_args → List (Int × CStr) → Bool × scrcpy_cli_args
  | args, [] => (true, args)
  | args, o :: rest =>
    let r := scrcpy_parse_args_switch d b args o.1 o.2
    if !r.1 then (false, r.2)
    else scrcpy_parse_args_while d b r.2 rest

/-- The statement `if (opts->record_filename && !opts->record_format) ...` of
`scrcpy_parse_args`: `false` when the function returns false there. -/
def scrcpy_parse_args_guess (args : scrcpy_cli_args) : Bool × scrcpy_cli_args :=
  match args.opts.record_filename with
  | some filename =>
    if args.opts.record_format = .SC_RECORD_FORMAT_AUTO then
      let args :=
        { args with opts := { args.opts with record_format := guess_record_format filename } }
      if args.opts.record_format = .SC_RECORD_FORMAT_AUTO then (false, args)
      else (true, args)
    else (true, args)
  | none => (true, args)

/-- The part of `scrcpy_parse_args` after the loop; `remaining` is
`argc - optind`. -/
def scrcpy_parse_args_checks (args : scrcpy_cli_args) (remaining : Nat) :
    Bool × scrcpy_cli_args :=
  if !args.opts.display && args.opts.record_filename.isNone &&
      args.opts.v4l2sink_device.isNone then
    (false, args)
  else if 0 < remaining then (false, args)
  else if decide (args.opts.record_format ≠ .SC_RECORD_FORMAT_AUTO) &&
      args.opts.record_filename.isNone then
    (false, args)
  else
    let r := scrcpy_parse_args_guess args
    if !r.1 then r
    else if !r.2.opts.control && r.2.opts.turn_screen_off then (false, r.2)
    else if !r.2.opts.control && r.2.opts.stay_awake then (false, r.2)
    else (true, r.2)

/-- The function `scrcpy_parse_args`: the returned value and `*args` on exit. -/
def scrcpy_parse_args (d : Deps) (b : Build) (args : scrcpy_cli_args) (g : getopt_run) :
    Bool × scrcpy_cli_args :=
  let r := scrcpy_parse_args_while d b args g.parsed
  if !r.1 then r
  else scrcpy_parse_args_checks r.2 g.remaining

/-! ## Vocabulary for statements about the options -/

/-- The option is `-F` or `--record-format`. -/
def is_record_format_option (c : Int) : Bool :=
  decide (c = short_option 'F') || decide (c = OPT_RECORD_FORMAT)

/-- The argument of the last `-F` / `--record-format` option given, if any. -/
def last_record_format : List (Int × CStr) → Option CStr
  | [] => none
  | o :: rest =>
    match last_record_format rest with
    | some a => some a
    | none => if is_record_format_option o.1 then some o.2 else none

/-- The argument of the last `-r` / `--record` option given, if any. -/
def last_record_filename : List (Int × CStr) → Option CStr
  | [] => none
  | o :: rest =>
    match last_record_filename rest with
    | some a => some a
    | none => if o.1 = short_option 'r' then some o.2 else none

/-- The string `s` ends with `ext`. -/
def ends_with (s ext : CStr) : Prop := ∃ pre, s = pre ++ ext

/-- A decimal parser for unsigned numbers, for the examples. -/
def sample_parse_integer (s : CStr) : Option Int :=
  if s ≠ [] ∧ s.all Char.isDigit = true then
    some (Int.ofNat (s.foldl (fun n x => 10 * n + (x.toNat - 48)) 0))
  else none

/-- Sample collaborators of cli.c. -/
def sample_deps : Deps :=
  { parse_integer := sample_parse_integer
    parse_integer_with_suffix := sample_parse_integer
    parse_integers := fun s _ _ => (sample_parse_integer s).toList
    SC_MAX_SHORTCUT_MODS := 8
    SC_MOD_LCTRL := 1
    SC_MOD_RCTRL := 2
    SC_MOD_LALT := 4
    SC_MOD_RALT := 8
    SC_MOD_LSUPER := 16
    SC_MOD_RSUPER := 32 }

/-- Sample arguments structure: the sample options, no help, no version. -/
def sample_args : scrcpy_cli_args :=
  { opts := sample_options, help := false, version := false }

/-! ## Vocabulary for the calls that the options determine -/

/-- Every `stream_init` of the trace is handed a decoder iff display is
enabled, a recorder iff a record file name is set, and a v4l2 sink iff the sink
is compiled in and a sink device is set. -/
def consumers_ok (b : Build) (options : scrcpy_options) (t : List Call) : Prop :=
  ∀ s dec rec sink, Call.stream_init s dec rec sink ∈ t →
    dec = options.display ∧ rec = options.record_filename.isSome ∧
      sink = (b.V4L2SINK && options.v4l2sink_device.isSome)

/-- The `struct server_params` that scrcpy() builds from the options. -/
def server_params_of (options : scrcpy_options) : server_params :=
  { log_level := options.log_level
    crop := options.crop
    port_range := options.port_range
    max_size := options.max_size
    bit_rate := options.bit_rate
    max_fps := options.max_fps
    lock_video_orientation := options.lock_video_orientation
    control := options.control
    display_id := options.display_id
    show_touches := options.show_touches
    stay_awake := options.stay_awake
    codec_options := options.codec_options
    encoder_name := options.encoder_name
    force_adb_forward := options.force_adb_forward }

/-- The call `c` is one that scrcpy() can make under the options: an argument
that comes from the options has the value of the option, the screen power
message is sent only with `turn_screen_off`, and the calls that forward text,
mouse motion, mouse wheel and dropped files are made only with `control`. -/
def Call.expected (options : scrcpy_options) : Call → Bool
  | .server_start serial params =>
    decide (serial = options.serial) && decide (params = server_params_of options)
  | .SDL_Init video => decide (video = options.display)
  | .SDL_DisableScreenSaver => options.display && options.disable_screensaver
  | .SDL_EnableScreenSaver => options.display && !options.disable_screensaver
  | .video_buffer_init r => decide (r = options.render_expired_frames)
  | .file_handler_init push_target => decide (push_target = options.push_target)
  | .recorder_init filename format _ =>
    decide (filename = options.record_filename) && decide (format = options.record_format)
  | .v4l2sink_init devicename _ => decide (devicename = options.v4l2sink_device)
  | .screen_init_rendering w _ a x y ww wh wb r m =>
    decide (∀ t, options.window_title = some t → w = t) &&
      decide (a = options.always_on_top) && decide (x = options.window_x) &&
      decide (y = options.window_y) && decide (ww = options.window_width) &&
      decide (wh = options.window_height) && decide (wb = options.window_borderless) &&
      decide (r = options.rotation) && decide (m = options.mipmaps)
  | .controller_push_msg msg =>
    options.turn_screen_off &&
      decide (msg = { type := .CONTROL_MSG_TYPE_SET_SCREEN_POWER_MODE
                      set_screen_power_mode_mode := .SCREEN_POWER_MODE_OFF })
  | .screen_switch_fullscreen => options.fullscreen
  | .input_manager_process_text_input _ => options.control
  | .input_manager_process_mouse_motion _ => options.control
  | .input_manager_process_mouse_wheel _ => options.control
  | .file_handler_request action file =>
    options.control &&
      decide (action = if is_apk file then .ACTION_INSTALL_APK else .ACTION_PUSH_FILE)
  | _ => true

/-- Every call of the trace is one that scrcpy() can make under the options. -/
def all_expected (options : scrcpy_options) (t : List Call) : Prop :=
  ∀ c ∈ t, c.expected options = true

/-! ## Vocabulary for the screen power message -/

/-- The control message that scrcpy() builds when `turn_screen_off` is set:
type `CONTROL_MSG_TYPE_SET_SCREEN_POWER_MODE`, mode `SCREEN_POWER_MODE_OFF`. -/
def screen_off_msg : control_msg :=
  { type := .CONTROL_MSG_TYPE_SET_SCREEN_POWER_MODE
    set_screen_power_mode_mode := .SCREEN_POWER_MODE_OFF }

/-- Recognises a `controller_push_msg`, whatever the message, and the entry
into the event loop. -/
def Call.is_push_or_loop : Call → Bool
  | .controller_push_msg _ | .event_loop => true
  | _ => false

/-- No control message was pushed and the event loop was not entered. -/
def quiet (l : locals) : Prop := ¬ made Call.is_push_or_loop l.trace

/-- The options given on the command line include `-S` / `--turn-screen-off`. -/
def turn_screen_off_given (parsed : List (Int × CStr)) : Prop :=
  ∃ o ∈ parsed, o.1 = short_option 'S'

/-! ## Vocabulary for the shortcut modifiers -/

/-- The `SC_MOD_*` constant of a key name, `none` for any other text. -/
def shortcut_key (d : Deps) (key : CStr) : Option Nat :=
  if key = "lctrl".toList then some d.SC_MOD_LCTRL
  else if key = "rctrl".toList then some d.SC_MOD_RCTRL
  else if key = "lalt".toList then some d.SC_MOD_LALT
  else if key = "ralt".toList then some d.SC_MOD_RALT
  else if key = "lsuper".toList then some d.SC_MOD_LSUPER
  else if key = "rsuper".toList then some d.SC_MOD_RSUPER
  else none

/-- The strings of a list, written one after the other with `sep` between
them. -/
def join_with (sep : Char) : List CStr → CStr
  | [] => []
  | [x] => x
  | x :: y :: rest => x ++ sep :: join_with sep (y :: rest)

/-- The bitwise-or of `mod` and the constants of the keys. -/
def keys_mod (d : Deps) (mod : Nat) (keys : List CStr) : Nat :=
  keys.foldl (fun m k => m ||| (shortcut_key d k).getD 0) mod

/-- The argument written as alternatives separated by `','`, each a list of
keys separated by `'+'`. -/
def shortcut_text (alts : List (List CStr)) : CStr :=
  join_with ',' (alts.map (join_with '+'))

/-- The six `SC_MOD_*` constants are not 0. -/
def mods_nonzero (d : Deps) : Prop :=
  d.SC_MOD_LCTRL ≠ 0 ∧ d.SC_MOD_RCTRL ≠ 0 ∧ d.SC_MOD_LALT ≠ 0 ∧ d.SC_MOD_RALT ≠ 0 ∧
    d.SC_MOD_LSUPER ≠ 0 ∧ d.SC_MOD_RSUPER ≠ 0

/-- The keys hold no separator, so that the text determines them. -/
def plain_keys (alts : List (List CStr)) : Prop :=
  ∀ alt ∈ alts, ∀ k ∈ alt, '+' ∉ k ∧ ',' ∉ k

/-! ## Theorems -/

/-! ### Orderings in the clean-up -/

theorem precedes_nil (a c : Call) : precedes a c [] := by
  intro i j h
  simp at h

theorem precedes_cons (a c x : Call) (t : List Call) :
    precedes a c (x :: t) ↔ (x = c → a ≠ c ∧ a ∉ t) ∧ precedes a c t := by
  constructor
  · intro h
    refine ⟨?_, ?_⟩
    · intro hx
      subst hx
      refine ⟨?_, ?_⟩
      · intro hac
        subst hac
        exact Nat.lt_irrefl 0 (h 0 0 (by simp) (by simp))
      · intro hmem
        obtain ⟨k, hk⟩ := List.getElem?_of_mem hmem
        exact Nat.not_lt_zero _ (h (k + 1) 0 (by simpa using hk) (by simp))
    · intro i j hi hj
      have := h (i + 1) (j + 1) (by simpa using hi) (by simpa using hj)
      omega
  · rintro ⟨h1, h2⟩ i j hi hj
    cases i with
    | zero =>
      cases j with
      | zero =>
        simp at hi hj
        exact absurd (hi.symm.trans hj) (h1 hj).1
      | succ j => omega
    | succ i =>
      cases j with
      | zero =>
        simp at hi hj
        exact absurd (List.mem_iff_getElem?.mpr ⟨_, hi⟩) (h1 hj).2
      | succ j =>
        simp at hi hj
        have := h2 i j hi hj
        omega

theorem precedes_append (a c : Call) (s t : List Call) :
    precedes a c (s ++ t) ↔ precedes a c s ∧ precedes a c t ∧ (c ∈ s → a ∉ t) := by
  induction s with
  | nil => simp [precedes_nil]
  | cons x s ih =>
    rw [List.cons_append, precedes_cons, precedes_cons, ih]
    simp only [List.mem_append, List.mem_cons, not_or]
    constructor
    · rintro ⟨h1, h2, h3, h4⟩
      refine ⟨⟨fun hx => ⟨(h1 hx).1, (h1 hx).2.1⟩, h2⟩, h3, ?_⟩
      rintro (hc | hc)
      · exact (h1 hc.symm).2.2
      · exact h4 hc
    · rintro ⟨⟨h1, h2⟩, h3, h4⟩
      refine ⟨fun hx => ⟨(h1 hx).1, (h1 hx).2, h4 (Or.inl hx.symm)⟩, h2, h3, fun hc => h4 (Or.inr hc)⟩

theorem precedes_ite (a c : Call) (p : Prop) [Decidable p] (s : List Call) :
    precedes a c (if p then s else []) ↔ (p → precedes a c s) := by
  by_cases hp : p <;> simp [hp, precedes_nil]

/-- C1: in the clean-up of scrcpy(), for every combination of flags, every stop
call precedes `server_stop`, `server_stop` precedes every join, the destroy of
controller, file handler and fps counter follows the join of the same component,
and `recorder_destroy`, `v4l2sink_destroy`, `video_buffer_destroy` follow
`stream_join`. -/
theorem scrcpy_end_order (b : Build) (l : locals) :
    (precedes .stream_stop .server_stop (scrcpy_end b l) ∧
     precedes .controller_stop .server_stop (scrcpy_end b l) ∧
     precedes .file_handler_stop .server_stop (scrcpy_end b l) ∧
     precedes .fps_counter_interrupt .server_stop (scrcpy_end b l)) ∧
    (precedes .server_stop .stream_join (scrcpy_end b l) ∧
     precedes .server_stop .controller_join (scrcpy_end b l) ∧
     precedes .server_stop .file_handler_join (scrcpy_end b l) ∧
     precedes .server_stop .fps_counter_join (scrcpy_end b l)) ∧
    (precedes .controller_join .controller_destroy (scrcpy_end b l) ∧
     precedes .file_handler_join .file_handler_destroy (scrcpy_end b l) ∧
     precedes .fps_counter_join .fps_counter_destroy (scrcpy_end b l)) ∧
    (precedes .stream_join .recorder_destroy (scrcpy_end b l) ∧
     precedes .stream_join .v4l2sink_destroy (scrcpy_end b l) ∧
     precedes .stream_join .video_buffer_destroy (scrcpy_end b l)) := by
  simp [scrcpy_end, precedes_append, precedes_ite, precedes_cons, precedes_nil]

/-- C2, as stated, fails: in a run with display and control where every
collaborator succeeds, `controller_destroy` (call 28) is made before
`file_handler_join` (call 29). -/
theorem scrcpy_release_before_last_join : ¬ release_after_joins (scrcpy sample_build sample_env sample_options).2 := by
  intro h
  have := h 28 29 .controller_destroy .file_handler_join (by decide) (by decide) rfl rfl
  omega

/-- C2, amended: in the clean-up of scrcpy(), for every combination of flags,
the stop calls precede `server_stop`, `server_stop` precedes every join, no
release call is made before `stream_join` or `controller_join`,
`file_handler_destroy`, `video_buffer_destroy`, `fps_counter_destroy` and
`server_destroy` are not made before `file_handler_join`, and
`fps_counter_destroy` and `server_destroy` are not made before
`fps_counter_join`. -/
theorem scrcpy_end_join_then_release (b : Build) (l : locals) :
    (precedes .stream_stop .server_stop (scrcpy_end b l) ∧
     precedes .controller_stop .server_stop (scrcpy_end b l) ∧
     precedes .file_handler_stop .server_stop (scrcpy_end b l) ∧
     precedes .fps_counter_interrupt .server_stop (scrcpy_end b l)) ∧
    (precedes .server_stop .stream_join (scrcpy_end b l) ∧
     precedes .server_stop .controller_join (scrcpy_end b l) ∧
     precedes .server_stop .file_handler_join (scrcpy_end b l) ∧
     precedes .server_stop .fps_counter_join (scrcpy_end b l)) ∧
    (precedes .stream_join .controller_destroy (scrcpy_end b l) ∧
     precedes .stream_join .recorder_destroy (scrcpy_end b l) ∧
     precedes .stream_join .v4l2sink_destroy (scrcpy_end b l) ∧
     precedes .stream_join .file_handler_destroy (scrcpy_end b l) ∧
     precedes .stream_join .video_buffer_destroy (scrcpy_end b l) ∧
     precedes .stream_join .fps_counter_destroy (scrcpy_end b l) ∧
     precedes .stream_join .server_destroy (scrcpy_end b l)) ∧
    (precedes .controller_join .controller_destroy (scrcpy_end b l) ∧
     precedes .controller_join .recorder_destroy (scrcpy_end b l) ∧
     precedes .controller_join .v4l2sink_destroy (scrcpy_end b l) ∧
     precedes .controller_join .file_handler_destroy (scrcpy_end b l) ∧
     precedes .controller_join .video_buffer_destroy (scrcpy_end b l) ∧
     precedes .controller_join .fps_counter_destroy (scrcpy_end b l) ∧
     precedes .controller_join .server_destroy (scrcpy_end b l)) ∧
    (precedes .file_handler_join .file_handler_destroy (scrcpy_end b l) ∧
     precedes .file_handler_join .video_buffer_destroy (scrcpy_end b l) ∧
     precedes .file_handler_join .fps_counter_destroy (scrcpy_end b l) ∧
     precedes .file_handler_join .server_destroy (scrcpy_end b l)) ∧
    (precedes .fps_counter_join .fps_counter_destroy (scrcpy_end b l) ∧
     precedes .fps_counter_join .server_destroy (scrcpy_end b l)) := by
  simp [scrcpy_end, precedes_append, precedes_ite, precedes_cons, precedes_nil]

/-! ### The flags of scrcpy() and the calls made -/

theorem handle_event_calls (options : scrcpy_options) (e : SDL_Event) (u hf : Bool) :
    ∀ c ∈ (handle_event options e u hf).2.2, c.is_loop = true := by
  unfold handle_event
  split <;> (try split) <;> simp [Call.is_loop]

theorem event_loop_while_calls (options : scrcpy_options) (evs : List loop_input) :
    ∀ (hf : Bool), ∀ c ∈ (event_loop_while options evs hf).2.2, c.is_loop = true := by
  induction evs with
  | nil => intro hf; simp [event_loop_while, Call.is_loop]
  | cons i rest ih =>
    intro hf c
    have h := handle_event_calls options i.event i.screen_update_frame hf
    unfold event_loop_while
    split <;> rename_i heq <;> rw [heq] at h <;> simp only [List.mem_cons, List.mem_append]
    · rintro (rfl | hc)
      · rfl
      · exact h c hc
    · rintro (rfl | hc)
      · rfl
      · exact h c hc
    · rintro ((rfl | hc) | hc)
      · rfl
      · exact h c hc
      · exact ih _ c hc

theorem event_loop_calls (b : Build) (options : scrcpy_options) (evs : List loop_input)
    (hf : Bool) : ∀ c ∈ (event_loop b options evs hf).2.2, c.is_loop = true := by
  intro c
  unfold event_loop
  simp only [List.mem_append]
  rintro (hc | hc)
  · split at hc
    · simp at hc; subst hc; rfl
    · simp at hc
  · exact event_loop_while_calls options evs hf c hc

theorem made_append (k : Call → Bool) (s t : List Call) :
    made k (s ++ t) ↔ made k s ∨ made k t := by
  simp [made, List.mem_append, or_and_right, exists_or]

theorem made_singleton (k : Call → Bool) (c : Call) : made k [c] ↔ k c = true := by
  simp [made]

theorem made_nil (k : Call → Bool) : made k [] ↔ False := by
  simp [made]

theorem made_cons (k : Call → Bool) (c : Call) (t : List Call) :
    made k (c :: t) ↔ k c = true ∨ made k t := by
  simp [made]

theorem untracked_made (k : Call → Bool) (cs : List Call)
    (hk : ∀ c, k c = true → c.is_tracked = true)
    (h : ∀ c ∈ cs, c.is_tracked = false) : ¬ made k cs := by
  rintro ⟨c, hc, hkc⟩
  have := h c hc
  rw [hk c hkc] at this
  exact Bool.noConfusion this

theorem untracked_not_mem (x : Call) (cs : List Call) (hx : x.is_tracked = true)
    (h : ∀ c ∈ cs, c.is_tracked = false) : x ∉ cs := by
  intro hm
  rw [h x hm] at hx
  exact Bool.noConfusion hx

theorem untracked_facts (cs : List Call) (h : ∀ c ∈ cs, c.is_tracked = false) :
    ¬ made Call.is_cleanup cs ∧ ¬ made Call.is_server_start cs ∧
    ¬ made Call.is_video_buffer_init cs ∧ ¬ made Call.is_file_handler_init cs ∧
    ¬ made Call.is_recorder_init cs ∧ ¬ made Call.is_controller_init cs ∧
    Call.fps_counter_init ∉ cs ∧ Call.stream_start ∉ cs ∧ Call.controller_start ∉ cs :=
  ⟨untracked_made _ cs (by intro c hc; simp [Call.is_tracked, hc]) h,
   untracked_made _ cs (by intro c hc; simp [Call.is_tracked, hc]) h,
   untracked_made _ cs (by intro c hc; simp [Call.is_tracked, hc]) h,
   untracked_made _ cs (by intro c hc; simp [Call.is_tracked, hc]) h,
   untracked_made _ cs (by intro c hc; simp [Call.is_tracked, hc]) h,
   untracked_made _ cs (by intro c hc; simp [Call.is_tracked, hc]) h,
   untracked_not_mem _ cs (by simp [Call.is_tracked]) h,
   untracked_not_mem _ cs (by simp [Call.is_tracked]) h,
   untracked_not_mem _ cs (by simp [Call.is_tracked]) h⟩

theorem loop_untracked (c : Call) (h : c.is_loop = true) : c.is_tracked = false := by
  cases c <;> simp [Call.is_loop] at h <;> rfl

theorem sdl_init_untracked (b : Build) (env : Env) (d s : Bool) :
    ∀ c ∈ (sdl_init_and_configure b env d s).2, c.is_tracked = false := by
  unfold sdl_init_and_configure
  cases env.SDL_Init_ok <;> cases b.WIN32 <;> cases d <;> cases s <;>
    simp [Call.is_tracked, Call.is_cleanup, Call.is_server_start, Call.is_video_buffer_init,
      Call.is_file_handler_init, Call.is_recorder_init, Call.is_controller_init]

theorem flow.bind_vars (P : locals → Prop) (f : flow) (k : locals → flow)
    (hf : P f.vars) (hk : ∀ l, P l → P (k l).vars) : P (f.bind k).vars := by
  cases f with
  | next l => exact hk l hf
  | goto_end l => exact hf

theorem tracked_connect (b : Build) (env : Env) (options : scrcpy_options) (l : locals)
    (h : tracked env l) : tracked env (scrcpy_connect b env options l).vars := by
  obtain ⟨a0, a1, a2, a3, a4, a5, a6, a7, a8⟩ := h
  obtain ⟨m0, m1, m2, m3, m4, m5, n1, n2, n3⟩ := untracked_facts _
    (sdl_init_untracked b env options.display options.disable_screensaver)
  unfold scrcpy_connect
  by_cases hs : env.server_start = true
  · simp only [hs, Bool.not_true, Bool.false_eq_true, if_false]
    split
    · simp [flow.vars, tracked, locals.call, locals.calls, made_append, made_cons, made_nil,
        Call.is_cleanup, Call.is_server_start, Call.is_video_buffer_init,
        Call.is_file_handler_init, Call.is_recorder_init, Call.is_controller_init,
        a0, a2, a3, a4, a5, a6, a7, a8, m0, m1, m2, m3, m4, m5, n1, n2, n3, hs]
    · split
      · simp [flow.vars, tracked, locals.call, locals.calls, made_append, made_cons, made_nil,
          Call.is_cleanup, Call.is_server_start, Call.is_video_buffer_init,
          Call.is_file_handler_init, Call.is_recorder_init, Call.is_controller_init,
          a0, a2, a3, a4, a5, a6, a7, a8, m0, m1, m2, m3, m4, m5, n1, n2, n3, hs]
      · split <;>
        simp [flow.vars, tracked, locals.call, locals.calls, made_append, made_cons, made_nil,
          Call.is_cleanup, Call.is_server_start, Call.is_video_buffer_init,
          Call.is_file_handler_init, Call.is_recorder_init, Call.is_controller_init,
          a0, a2, a3, a4, a5, a6, a7, a8, m0, m1, m2, m3, m4, m5, n1, n2, n3, hs]
  · simp [hs, flow.vars, tracked, locals.call, made_append, made_cons, made_nil, Call.is_cleanup,
      Call.is_server_start, Call.is_video_buffer_init, Call.is_file_handler_init,
      Call.is_recorder_init, Call.is_controller_init, a0, a1, a2, a3, a4, a5, a6, a7, a8]

attribute [simp] made_append made_cons made_nil Call.is_cleanup Call.is_server_start
  Call.is_video_buffer_init Call.is_file_handler_init Call.is_recorder_init
  Call.is_controller_init locals.call locals.calls flow.vars

theorem tracked_file_handler (env : Env) (options : scrcpy_options) (l : locals)
    (h : tracked env l) : tracked env (scrcpy_file_handler env options l).vars := by
  obtain ⟨a0, a1, a2, a3, a4, a5, a6, a7, a8⟩ := h
  unfold scrcpy_file_handler
  cases options.control <;> cases hs : env.file_handler_init <;>
    simp [tracked, a0, a1, a2, a3, a4, a5, a6, a7, a8, hs]

theorem tracked_display (env : Env) (options : scrcpy_options) (l : locals)
    (h : tracked env l) : tracked env (scrcpy_display env options l).vars := by
  unfold scrcpy_display
  cases options.display
  · simpa [tracked] using h
  · cases h1 : env.fps_counter_init
    · obtain ⟨a0, a1, a2, a3, a4, a5, a6, a7, a8⟩ := h
      simp [tracked, a0, a1, a2, a3, a4, a5, a6, a7, a8, h1]
    · cases h2 : env.video_buffer_init
      · obtain ⟨a0, a1, a2, a3, a4, a5, a6, a7, a8⟩ := h
        simp [tracked, a0, a1, a2, a3, a4, a5, a6, a7, a8, h1, h2]
      · simp only [Bool.not_true, Bool.false_eq_true, if_false, if_true]
        apply flow.bind_vars (tracked env)
        · apply tracked_file_handler
          obtain ⟨a0, a1, a2, a3, a4, a5, a6, a7, a8⟩ := h
          simp [tracked, a0, a1, a2, a3, a4, a5, a6, a7, a8, h1, h2]
        · intro l' h'
          obtain ⟨a0, a1, a2, a3, a4, a5, a6, a7, a8⟩ := h'
          simp [tracked, a0, a1, a2, a3, a4, a5, a6, a7, a8]

theorem tracked_recorder (env : Env) (options : scrcpy_options) (l : locals)
    (h : tracked env l) : tracked env (scrcpy_recorder env options l).vars := by
  obtain ⟨a0, a1, a2, a3, a4, a5, a6, a7, a8⟩ := h
  unfold scrcpy_recorder
  cases options.record_filename.isSome <;> cases hs : env.recorder_init <;>
    simp [tracked, a0, a1, a2, a3, a4, a5, a6, a7, a8, hs]

theorem tracked_v4l2sink (b : Build) (env : Env) (options : scrcpy_options) (l : locals)
    (h : tracked env l) : tracked env (scrcpy_v4l2sink b env options l).vars := by
  obtain ⟨a0, a1, a2, a3, a4, a5, a6, a7, a8⟩ := h
  unfold scrcpy_v4l2sink
  cases b.V4L2SINK <;> cases options.v4l2sink_device.isSome <;> cases hs : env.v4l2sink_init <;>
    simp [tracked, a0, a1, a2, a3, a4, a5, a6, a7, a8, hs]

theorem tracked_controller (env : Env) (options : scrcpy_options) (l : locals)
    (h : tracked env l) : tracked env (scrcpy_controller env options l).vars := by
  obtain ⟨a0, a1, a2, a3, a4, a5, a6, a7, a8⟩ := h
  unfold scrcpy_controller
  cases options.control <;> cases h1 : env.controller_init <;>
    cases h2 : env.controller_start <;>
    simp [tracked, a0, a1, a2, a3, a4, a5, a6, a7, a8, h1, h2]

theorem tracked_screen (env : Env) (options : scrcpy_options) (l : locals)
    (h : tracked env l) : tracked env (scrcpy_screen env options l).vars := by
  unfold scrcpy_screen
  cases options.display
  · simpa using h
  · simp only [if_true]
    apply flow.bind_vars (tracked env)
    · exact tracked_controller env options l h
    · intro l' h'
      obtain ⟨a0, a1, a2, a3, a4, a5, a6, a7, a8⟩ := h'
      cases env.screen_init_rendering <;> cases options.turn_screen_off <;>
        cases options.fullscreen <;>
        simp [tracked, a0, a1, a2, a3, a4, a5, a6, a7, a8]

theorem tracked_run (b : Build) (env : Env) (options : scrcpy_options) (l : locals)
    (h : tracked env l) : tracked env (scrcpy_run b env options l).vars := by
  obtain ⟨a0, a1, a2, a3, a4, a5, a6, a7, a8⟩ := h
  obtain ⟨m0, m1, m2, m3, m4, m5, n1, n2, n3⟩ := untracked_facts _
    (fun c hc => loop_untracked c
      (event_loop_calls b options env.events l.screen_has_frame c hc))
  unfold scrcpy_run
  simp [tracked, a0, a1, a2, a3, a4, a5, a6, a7, a8, m0, m1, m2, m3, m4, m5, n1, n2, n3]

theorem tracked_stream (env : Env) (l : locals) (h : tracked env l) :
    tracked env (scrcpy_stream env l).vars := by
  obtain ⟨a0, a1, a2, a3, a4, a5, a6, a7, a8⟩ := h
  unfold scrcpy_stream
  cases hs : env.stream_start <;> simp [tracked, a0, a1, a2, a3, a4, a5, a6, a7, a8, hs]

theorem tracked_body (b : Build) (env : Env) (options : scrcpy_options) :
    tracked env (scrcpy_body b env options).vars := by
  unfold scrcpy_body
  apply flow.bind_vars (tracked env) _ _ _ (fun l h => tracked_run b env options l h)
  apply flow.bind_vars (tracked env) _ _ _ (fun l h => tracked_screen env options l h)
  apply flow.bind_vars (tracked env) _ _ _ (fun l h => tracked_stream env l h)
  apply flow.bind_vars (tracked env) _ _ _ (fun l h => tracked_v4l2sink b env options l h)
  apply flow.bind_vars (tracked env) _ _ _ (fun l h => tracked_recorder env options l h)
  apply flow.bind_vars (tracked env) _ _ _ (fun l h => tracked_display env options l h)
  apply tracked_connect
  simp [tracked, scrcpy_locals]

theorem scrcpy_end_cleanup (b : Build) (l : locals) :
    ∀ c ∈ scrcpy_end b l, c.is_cleanup = true := by
  simp [scrcpy_end, or_imp, forall_and]
  intro x _ _ hx
  subst hx
  rfl

theorem count_end (b : Build) (l : locals) (x : Call) (t : List Call)
    (ht : ¬ made Call.is_cleanup t) (hx : x.is_cleanup = true) :
    (t ++ scrcpy_end b l).count x = (scrcpy_end b l).count x := by
  rw [List.count_append, List.count_eq_zero.mpr, Nat.zero_add]
  intro hm
  exact ht ⟨x, hm, hx⟩

theorem count_ite (p : Prop) [Decidable p] (x : Call) (s : List Call) :
    (if p then s else []).count x = if p then s.count x else 0 := by
  split <;> simp

theorem scrcpy_end_counts (b : Build) (l : locals) (t : List Call)
    (ht : ¬ made Call.is_cleanup t) :
    (t ++ scrcpy_end b l).count .server_destroy = 1 ∧
    ((t ++ scrcpy_end b l).count .server_stop = if l.server_started = true then 1 else 0) ∧
    ((t ++ scrcpy_end b l).count .stream_join = if l.stream_started = true then 1 else 0) ∧
    ((t ++ scrcpy_end b l).count .controller_join =
      if l.controller_started = true then 1 else 0) ∧
    ((t ++ scrcpy_end b l).count .controller_destroy =
      if l.controller_initialized = true then 1 else 0) ∧
    ((t ++ scrcpy_end b l).count .file_handler_join =
      if l.file_handler_initialized = true then 1 else 0) ∧
    ((t ++ scrcpy_end b l).count .file_handler_destroy =
      if l.file_handler_initialized = true then 1 else 0) ∧
    ((t ++ scrcpy_end b l).count .video_buffer_destroy =
      if l.video_buffer_initialized = true then 1 else 0) ∧
    ((t ++ scrcpy_end b l).count .fps_counter_join =
      if l.fps_counter_initialized = true then 1 else 0) ∧
    ((t ++ scrcpy_end b l).count .fps_counter_destroy =
      if l.fps_counter_initialized = true then 1 else 0) ∧
    ((t ++ scrcpy_end b l).count .recorder_destroy =
      if l.recorder_initialized = true then 1 else 0) := by
  rw [count_end b l .server_destroy t ht rfl, count_end b l .server_stop t ht rfl,
    count_end b l .stream_join t ht rfl, count_end b l .controller_join t ht rfl,
    count_end b l .controller_destroy t ht rfl, count_end b l .file_handler_join t ht rfl,
    count_end b l .file_handler_destroy t ht rfl, count_end b l .video_buffer_destroy t ht rfl,
    count_end b l .fps_counter_join t ht rfl, count_end b l .fps_counter_destroy t ht rfl,
    count_end b l .recorder_destroy t ht rfl]
  simp [scrcpy_end, count_ite]

theorem made_end (b : Build) (l : locals) (k : Call → Bool) (t : List Call)
    (hk : ∀ c, k c = true → c.is_cleanup = false) :
    made k (t ++ scrcpy_end b l) ↔ made k t := by
  rw [made_append]
  constructor
  · rintro (h | ⟨c, hc, hkc⟩)
    · exact h
    · have := scrcpy_end_cleanup b l c hc
      rw [hk c hkc] at this
      exact Bool.noConfusion this
  · exact Or.inl

theorem mem_end (b : Build) (l : locals) (x : Call) (t : List Call)
    (hx : x.is_cleanup = false) : x ∈ t ++ scrcpy_end b l ↔ x ∈ t := by
  rw [List.mem_append]
  constructor
  · rintro (h | h)
    · exact h
    · have := scrcpy_end_cleanup b l x h
      rw [hx] at this
      exact Bool.noConfusion this
  · exact Or.inl

theorem init_not_cleanup (c : Call) :
    (c.is_server_start = true → c.is_cleanup = false) ∧
    (c.is_controller_init = true → c.is_cleanup = false) ∧
    (c.is_file_handler_init = true → c.is_cleanup = false) ∧
    (c.is_video_buffer_init = true → c.is_cleanup = false) ∧
    (c.is_recorder_init = true → c.is_cleanup = false) := by
  cases c <;> simp

/-- C4: for every outcome of the collaborators, `server_destroy` is called once
iff `server_init` succeeded, and `server_stop`, `stream_join`, `controller_join`,
`controller_destroy`, `file_handler_join`, `file_handler_destroy`,
`video_buffer_destroy`, `fps_counter_join`, `fps_counter_destroy` and
`recorder_destroy` are each called exactly once if the corresponding start or
init call was made and succeeded, and not at all otherwise. -/
theorem scrcpy_releases_what_it_acquired (b : Build) (env : Env) (options : scrcpy_options) :
    ((scrcpy b env options).2.count .server_destroy = if env.server_init = true then 1 else 0) ∧
    ((scrcpy b env options).2.count .server_stop =
      if made Call.is_server_start (scrcpy b env options).2 ∧ env.server_start = true
      then 1 else 0) ∧
    ((scrcpy b env options).2.count .stream_join =
      if Call.stream_start ∈ (scrcpy b env options).2 ∧ env.stream_start = true
      then 1 else 0) ∧
    ((scrcpy b env options).2.count .controller_join =
      if Call.controller_start ∈ (scrcpy b env options).2 ∧ env.controller_start = true
      then 1 else 0) ∧
    ((scrcpy b env options).2.count .controller_destroy =
      if made Call.is_controller_init (scrcpy b env options).2 ∧ env.controller_init = true
      then 1 else 0) ∧
    ((scrcpy b env options).2.count .file_handler_join =
      if made Call.is_file_handler_init (scrcpy b env options).2 ∧ env.file_handler_init = true
      then 1 else 0) ∧
    ((scrcpy b env options).2.count .file_handler_destroy =
      if made Call.is_file_handler_init (scrcpy b env options).2 ∧ env.file_handler_init = true
      then 1 else 0) ∧
    ((scrcpy b env options).2.count .video_buffer_destroy =
      if made Call.is_video_buffer_init (scrcpy b env options).2 ∧ env.video_buffer_init = true
      then 1 else 0) ∧
    ((scrcpy b env options).2.count .fps_counter_join =
      if Call.fps_counter_init ∈ (scrcpy b env options).2 ∧ env.fps_counter_init = true
      then 1 else 0) ∧
    ((scrcpy b env options).2.count .fps_counter_destroy =
      if Call.fps_counter_init ∈ (scrcpy b env options).2 ∧ env.fps_counter_init = true
      then 1 else 0) ∧
    ((scrcpy b env options).2.count .recorder_destroy =
      if made Call.is_recorder_init (scrcpy b env options).2 ∧ env.recorder_init = true
      then 1 else 0) := by
  cases hi : env.server_init
  · simp [scrcpy, hi]
  · obtain ⟨a0, a1, a2, a3, a4, a5, a6, a7, a8⟩ := tracked_body b env options
    simp only [scrcpy, hi, Bool.not_true, Bool.false_eq_true, if_false, if_true]
    have e1 := made_end b (scrcpy_body b env options).vars Call.is_server_start
      (scrcpy_body b env options).vars.trace (fun c hc => (init_not_cleanup c).1 hc)
    have e2 := made_end b (scrcpy_body b env options).vars Call.is_controller_init
      (scrcpy_body b env options).vars.trace (fun c hc => (init_not_cleanup c).2.1 hc)
    have e3 := made_end b (scrcpy_body b env options).vars Call.is_file_handler_init
      (scrcpy_body b env options).vars.trace (fun c hc => (init_not_cleanup c).2.2.1 hc)
    have e4 := made_end b (scrcpy_body b env options).vars Call.is_video_buffer_init
      (scrcpy_body b env options).vars.trace (fun c hc => (init_not_cleanup c).2.2.2.1 hc)
    have e5 := made_end b (scrcpy_body b env options).vars Call.is_recorder_init
      (scrcpy_body b env options).vars.trace (fun c hc => (init_not_cleanup c).2.2.2.2 hc)
    have e6 := mem_end b (scrcpy_body b env options).vars Call.stream_start
      (scrcpy_body b env options).vars.trace rfl
    have e7 := mem_end b (scrcpy_body b env options).vars Call.controller_start
      (scrcpy_body b env options).vars.trace rfl
    have e8 := mem_end b (scrcpy_body b env options).vars Call.fps_counter_init
      (scrcpy_body b env options).vars.trace rfl
    simp only [e1, e2, e3, e4, e5, e6, e7, e8, ← a1, ← a2, ← a3, ← a4, ← a5, ← a6, ← a7, ← a8]
    exact scrcpy_end_counts b _ _ a0

/-! ### Connection failure -/

theorem sdl_init_calls (b : Build) (env : Env) (d s : Bool) :
    Call.stream_start ∉ (sdl_init_and_configure b env d s).2 ∧
    Call.controller_start ∉ (sdl_init_and_configure b env d s).2 ∧
    Call.event_loop ∉ (sdl_init_and_configure b env d s).2 := by
  unfold sdl_init_and_configure
  cases env.SDL_Init_ok <;> cases b.WIN32 <;> cases d <;> cases s <;> simp

theorem scrcpy_connect_fails (b : Build) (env : Env) (options : scrcpy_options) (l : locals)
    (h : env.server_start = false ∨ env.server_connect_to = none ∨
      ∃ vs cs, env.server_connect_to = some (vs, cs) ∧ env.device_read_info vs = none)
    (h1 : Call.stream_start ∉ l.trace) (h2 : Call.controller_start ∉ l.trace)
    (h3 : Call.event_loop ∉ l.trace) :
    ∃ l', scrcpy_connect b env options l = .goto_end l' ∧ l'.ret = l.ret ∧
      Call.stream_start ∉ l'.trace ∧ Call.controller_start ∉ l'.trace ∧
      Call.event_loop ∉ l'.trace := by
  obtain ⟨s1, s2, s3⟩ := sdl_init_calls b env options.display options.disable_screensaver
  unfold scrcpy_connect
  cases hs : env.server_start
  · simp [h1, h2, h3]
  · cases hsdl : (sdl_init_and_configure b env options.display options.disable_screensaver).1
    · simp [h1, h2, h3, s1, s2, s3, hsdl]
    · rcases h with h | h | ⟨vs, cs, hc, hd⟩
      · rw [hs] at h; exact Bool.noConfusion h
      · simp [h1, h2, h3, s1, s2, s3, hsdl, h]
      · simp [h1, h2, h3, s1, s2, s3, hsdl, hc, hd]

theorem flow.bind_goto_end (l : locals) (k : locals → flow) :
    (flow.goto_end l).bind k = .goto_end l := rfl

/-- C3: if `server_start`, `server_connect_to` or `device_read_info` (on the
video socket that `server_connect_to` gave) fails, scrcpy() returns false and
its trace holds no `stream_start`, no `controller_start` and no entry into
`event_loop`. -/
theorem scrcpy_connection_failure (b : Build) (env : Env) (options : scrcpy_options)
    (h : env.server_start = false ∨ env.server_connect_to = none ∨
      ∃ vs cs, env.server_connect_to = some (vs, cs) ∧ env.device_read_info vs = none) :
    (scrcpy b env options).1 = false ∧
    Call.stream_start ∉ (scrcpy b env options).2 ∧
    Call.controller_start ∉ (scrcpy b env options).2 ∧
    Call.event_loop ∉ (scrcpy b env options).2 := by
  cases hi : env.server_init
  · simp [scrcpy, hi]
  · obtain ⟨l', hl, hr, h1, h2, h3⟩ := scrcpy_connect_fails b env options (scrcpy_locals env) h
      (by simp [scrcpy_locals]) (by simp [scrcpy_locals]) (by simp [scrcpy_locals])
    have hb : scrcpy_body b env options = .goto_end l' := by
      unfold scrcpy_body
      rw [hl]
      rfl
    simp only [scrcpy, hi, Bool.not_true, Bool.false_eq_true, if_false, hb, flow.vars,
      mem_end b l' .stream_start _ rfl, mem_end b l' .controller_start _ rfl,
      mem_end b l' .event_loop _ rfl]
    exact ⟨by rw [hr]; rfl, h1, h2, h3⟩

/-- C3 at a concrete input: `server_connect_to` gives the sockets 3 and 4 and
the device header cannot be read. -/
theorem scrcpy_connection_failure_witness :
    ((sample_env.server_start = false ∨ sample_env.server_connect_to = none ∨
      ∃ vs cs, sample_env.server_connect_to = some (vs, cs) ∧
        (fun _ : socket_t => (none : Option (CStr × size))) vs = none)) ∧
    (scrcpy sample_build { sample_env with device_read_info := fun _ => none }
        sample_options).1 = false ∧
    Call.stream_start ∉
      (scrcpy sample_build { sample_env with device_read_info := fun _ => none }
        sample_options).2 ∧
    Call.controller_start ∉
      (scrcpy sample_build { sample_env with device_read_info := fun _ => none }
        sample_options).2 ∧
    Call.event_loop ∉
      (scrcpy sample_build { sample_env with device_read_info := fun _ => none }
        sample_options).2 :=
  ⟨Or.inr (Or.inr ⟨3, 4, rfl, rfl⟩),
    scrcpy_connection_failure sample_build
      { sample_env with device_read_info := fun _ => none } sample_options
      (Or.inr (Or.inr ⟨3, 4, rfl, rfl⟩))⟩

/-! ### The header is read before streaming -/

theorem precedes_of_not_mem (a c : Call) (t : List Call) (h : a ∉ t ∨ c ∉ t) :
    precedes a c t := by
  intro i j hi hj
  rcases h with h | h
  · exact absurd (List.mem_iff_getElem?.mpr ⟨_, hi⟩) h
  · exact absurd (List.mem_iff_getElem?.mpr ⟨_, hj⟩) h

theorem after_header_calls (env : Env) (l : locals) (cs : List Call)
    (hc : ∀ c ∈ cs, c.uses_header = false)
    (hd : ∀ s, Call.device_read_info s ∉ cs) (h : after_header env l) :
    after_header env (l.calls cs) := by
  obtain ⟨hh, hm, p, a⟩ := h
  refine ⟨hh, ?_, ?_, ?_⟩
  · simp [hm]
  · simp only [locals.calls, precedes_append]
    exact ⟨p, precedes_of_not_mem _ _ _ (Or.inl (hd _)), fun _ => hd _⟩
  · intro c hcm
    simp only [locals.calls, List.mem_append] at hcm
    rcases hcm with hcm | hcm
    · exact a c hcm
    · have := hc c hcm
      cases c <;> first | rfl | exact Bool.noConfusion this

theorem after_header_call (env : Env) (l : locals) (c : Call)
    (hc : c.header_ok l.video_socket l.frame_size = true)
    (hd : ∀ s, c ≠ Call.device_read_info s) (h : after_header env l) :
    after_header env (l.call c) := by
  obtain ⟨hh, hm, p, a⟩ := h
  refine ⟨hh, ?_, ?_, ?_⟩
  · exact List.mem_append_left _ hm
  · simp only [locals.call, precedes_append]
    refine ⟨p, precedes_of_not_mem _ _ _ (Or.inl ?_), fun _ => ?_⟩ <;>
    · intro hm'
      exact hd _ (List.mem_singleton.mp hm').symm
  · intro x hx
    simp only [locals.call, List.mem_append, List.mem_singleton] at hx
    rcases hx with hx | hx
    · exact a x hx
    · subst hx; exact hc

theorem after_header_recorder (env : Env) (options : scrcpy_options) (l : locals)
    (h : after_header env l) : after_header env (scrcpy_recorder env options l).vars := by
  unfold scrcpy_recorder
  cases options.record_filename.isSome <;> cases env.recorder_init <;>
    first
    | exact h
    | exact after_header_call env l _ (by simp [Call.header_ok]) (by simp) h

theorem after_header_file_handler (env : Env) (options : scrcpy_options) (l : locals)
    (h : after_header env l) : after_header env (scrcpy_file_handler env options l).vars := by
  unfold scrcpy_file_handler
  cases options.control <;> cases env.file_handler_init <;>
    first
    | exact h
    | exact after_header_call env l _ rfl (by simp) h

theorem after_header_display (env : Env) (options : scrcpy_options) (l : locals)
    (h : after_header env l) : after_header env (scrcpy_display env options l).vars := by
  have h1 : after_header env (l.call .fps_counter_init) :=
    after_header_call env l _ rfl (by simp) h
  have h2 : after_header env
      ((l.call .fps_counter_init).call (.video_buffer_init options.render_expired_frames)) :=
    after_header_call env _ _ rfl (by simp) h1
  unfold scrcpy_display
  cases options.display
  · exact h
  · cases env.fps_counter_init
    · exact h1
    · cases env.video_buffer_init
      · exact h2
      · apply flow.bind_vars (after_header env)
        · exact after_header_file_handler env options _ h2
        · intro l' h'
          exact after_header_call env l' .decoder_init rfl (by simp) h'

theorem after_header_v4l2sink (b : Build) (env : Env) (options : scrcpy_options) (l : locals)
    (h : after_header env l) : after_header env (scrcpy_v4l2sink b env options l).vars := by
  unfold scrcpy_v4l2sink
  cases b.V4L2SINK <;> cases options.v4l2sink_device.isSome <;> cases env.v4l2sink_init <;>
    first
    | exact h
    | exact after_header_call env l _ (by simp [Call.header_ok]) (by simp) h

theorem after_header_stream (env : Env) (l : locals)
    (h : after_header env l) : after_header env (scrcpy_stream env l).vars := by
  have h1 : after_header env (l.call .av_log_set_callback) :=
    after_header_call env l _ rfl (by simp) h
  have h2 : after_header env
      ((l.call .av_log_set_callback).call (.stream_init l.video_socket l.dec l.rec_ l.sink)) :=
    after_header_call env _ _ (by simp [Call.header_ok]) (by simp) h1
  have h3 := after_header_call env _ .stream_start rfl (by simp) h2
  unfold scrcpy_stream
  cases env.stream_start <;> exact h3

theorem after_header_controller (env : Env) (options : scrcpy_options) (l : locals)
    (h : after_header env l) : after_header env (scrcpy_controller env options l).vars := by
  have h1 : after_header env (l.call (.controller_init l.control_socket)) :=
    after_header_call env l _ rfl (by simp) h
  have h2 := after_header_call env _ .controller_start rfl (by simp) h1
  unfold scrcpy_controller
  cases options.control <;> cases env.controller_init <;> cases env.controller_start <;>
    first
    | exact h
    | exact h1
    | exact h2

theorem after_header_ite (env : Env) (l : locals) (p : Bool) (c : Call)
    (hc : c.header_ok l.video_socket l.frame_size = true)
    (hd : ∀ s, c ≠ Call.device_read_info s) (h : after_header env l) :
    after_header env (if p = true then l.call c else l) := by
  cases p
  · exact h
  · exact after_header_call env l c hc hd h

theorem after_header_screen (env : Env) (options : scrcpy_options) (l : locals)
    (h : after_header env l) : after_header env (scrcpy_screen env options l).vars := by
  unfold scrcpy_screen
  cases options.display
  · exact h
  · apply flow.bind_vars (after_header env)
    · exact after_header_controller env options l h
    · intro l' h'
      have h1 := after_header_call env l'
        (.screen_init_rendering
          (match options.window_title with
            | some t => t
            | none => l'.device_name) l'.frame_size options.always_on_top
          options.window_x options.window_y options.window_width options.window_height
          options.window_borderless options.rotation options.mipmaps)
        (by simp [Call.header_ok]) (by simp) h'
      cases env.screen_init_rendering
      · exact h1
      · exact after_header_ite env _ options.fullscreen .screen_switch_fullscreen rfl (by simp)
          (after_header_ite env _ options.turn_screen_off _ rfl (by simp) h1)

theorem loop_uses_no_header (c : Call) (h : c.is_loop = true) :
    c.uses_header = false ∧ ∀ s, c ≠ Call.device_read_info s := by
  cases c <;> simp [Call.is_loop] at h <;> simp [Call.uses_header]

theorem after_header_run (b : Build) (env : Env) (options : scrcpy_options) (l : locals)
    (h : after_header env l) : after_header env (scrcpy_run b env options l).vars := by
  have hl := event_loop_calls b options env.events l.screen_has_frame
  have h1 : after_header env ((l.call .input_manager_init).call .event_loop) :=
    after_header_call env _ _ rfl (by simp) (after_header_call env _ _ rfl (by simp) h)
  have h2 := after_header_calls env _ (event_loop b options env.events l.screen_has_frame).2.2
    (fun c hc => (loop_uses_no_header c (hl c hc)).1)
    (fun s hm => (loop_uses_no_header _ (hl _ hm)).2 s rfl) h1
  exact after_header_call env _ .screen_destroy rfl (by simp) h2

theorem sdl_init_no_header (b : Build) (env : Env) (d s : Bool) :
    ∀ c ∈ (sdl_init_and_configure b env d s).2, c.uses_header = false := by
  unfold sdl_init_and_configure
  cases env.SDL_Init_ok <;> cases b.WIN32 <;> cases d <;> cases s <;> simp [Call.uses_header]

theorem scrcpy_connect_header (b : Build) (env : Env) (options : scrcpy_options) (l : locals)
    (h : ∀ c ∈ l.trace, c.uses_header = false) :
    (∃ l', scrcpy_connect b env options l = .goto_end l' ∧
      ∀ c ∈ l'.trace, c.uses_header = false) ∨
    (∃ l', scrcpy_connect b env options l = .next l' ∧ after_header env l') := by
  have hs := sdl_init_no_header b env options.display options.disable_screensaver
  unfold scrcpy_connect
  simp only [locals.call, locals.calls]
  cases env.server_start
  · left
    refine ⟨_, rfl, ?_⟩
    simp only [locals.call, List.mem_append, List.mem_singleton]
    rintro c (hc | rfl)
    · exact h c hc
    · rfl
  · cases (sdl_init_and_configure b env options.display options.disable_screensaver).1
    · left
      refine ⟨_, rfl, ?_⟩
      simp only [locals.call, locals.calls, List.mem_append, List.mem_singleton]
      rintro c ((hc | rfl) | hc)
      · exact h c hc
      · rfl
      · exact hs c hc
    · cases hc : env.server_connect_to with
      | none =>
        left
        refine ⟨_, rfl, ?_⟩
        simp only [locals.call, locals.calls, List.mem_append, List.mem_singleton]
        rintro c (((hc | rfl) | hc) | rfl)
        · exact h c hc
        · rfl
        · exact hs c hc
        · rfl
      | some p =>
        obtain ⟨vs, cs⟩ := p
        cases hr : env.device_read_info vs with
        | none =>
          left
          simp only [Bool.not_true, Bool.false_eq_true, if_false, hr]
          refine ⟨_, rfl, ?_⟩
          simp only [locals.call, locals.calls, List.mem_append, List.mem_singleton]
          rintro c ((((hc | rfl) | hc) | rfl) | rfl)
          · exact h c hc
          · rfl
          · exact hs c hc
          · rfl
          · rfl
        | some q =>
          obtain ⟨name, sz⟩ := q
          right
          simp only [Bool.not_true, Bool.false_eq_true, if_false, hr]
          refine ⟨_, rfl, ⟨cs, name, hc, hr⟩, ?_, ?_, ?_⟩
          · simp
          · apply precedes_of_not_mem
            right
            simp only [locals.call, locals.calls, List.mem_append, List.mem_singleton]
            rintro ((((hc | hc) | hc) | hc) | hc)
            · exact absurd (h _ hc) (by simp [Call.uses_header])
            · cases hc
            · exact absurd (hs _ hc) (by simp [Call.uses_header])
            · cases hc
            · cases hc
          · simp only [locals.call, locals.calls, List.mem_append, List.mem_singleton]
            rintro c ((((hc | rfl) | hc) | rfl) | rfl)
            · have := h c hc
              cases c <;> first | rfl | exact Bool.noConfusion this
            · rfl
            · have := hs c hc
              cases c <;> first | rfl | exact Bool.noConfusion this
            · rfl
            · rfl

theorem cleanup_uses_no_header (c : Call) (h : c.is_cleanup = true) :
    c.uses_header = false ∧ ∀ s, c ≠ Call.device_read_info s := by
  cases c <;> simp at h <;> simp [Call.uses_header]

theorem header_ok_of_not_uses (vs : socket_t) (sz : size) (c : Call)
    (h : c.uses_header = false) : c.header_ok vs sz = true := by
  cases c <;> first | rfl | exact Bool.noConfusion h

/-- Either no call of the trace of scrcpy() uses the header, or the header was
read on the video socket before `stream_start` and every call is handed the
socket and the frame size that were read. -/
theorem scrcpy_trace_header (b : Build) (env : Env) (options : scrcpy_options) :
    (∀ c ∈ (scrcpy b env options).2, c.uses_header = false) ∨
    ∃ vs sz, header_read env vs sz ∧ Call.device_read_info vs ∈ (scrcpy b env options).2 ∧
      precedes (.device_read_info vs) .stream_start (scrcpy b env options).2 ∧
      ∀ c ∈ (scrcpy b env options).2, c.header_ok vs sz = true := by
  cases hi : env.server_init
  · left
    simp [scrcpy, hi, Call.uses_header]
  · simp only [scrcpy, hi, Bool.not_true, Bool.false_eq_true, if_false]
    have hend := scrcpy_end_cleanup b
    rcases scrcpy_connect_header b env options (scrcpy_locals env)
      (by simp [scrcpy_locals, Call.uses_header]) with ⟨l', hl, h⟩ | ⟨l', hl, h⟩
    · left
      have hb : scrcpy_body b env options = .goto_end l' := by
        unfold scrcpy_body
        rw [hl]
        rfl
      rw [hb]
      intro c hc
      rcases List.mem_append.mp hc with hc | hc
      · exact h c hc
      · exact (cleanup_uses_no_header c (hend _ c hc)).1
    · right
      have hb : after_header env (scrcpy_body b env options).vars := by
        unfold scrcpy_body
        rw [hl]
        apply flow.bind_vars (after_header env) _ _ _ (fun l h => after_header_run b env options l h)
        apply flow.bind_vars (after_header env) _ _ _ (fun l h => after_header_screen env options l h)
        apply flow.bind_vars (after_header env) _ _ _ (fun l h => after_header_stream env l h)
        apply flow.bind_vars (after_header env) _ _ _
          (fun l h => after_header_v4l2sink b env options l h)
        apply flow.bind_vars (after_header env) _ _ _
          (fun l h => after_header_recorder env options l h)
        exact after_header_display env options l' h
      obtain ⟨hh, hm, p, a⟩ := hb
      refine ⟨_, _, hh, List.mem_append_left _ hm, ?_, ?_⟩
      · rw [precedes_append]
        refine ⟨p, precedes_of_not_mem _ _ _ (Or.inl ?_), fun _ => ?_⟩ <;>
        · intro hm'
          exact (cleanup_uses_no_header _ (hend _ _ hm')).2 _ rfl
      · intro c hc
        rcases List.mem_append.mp hc with hc | hc
        · exact a c hc
        · exact header_ok_of_not_uses _ _ c (cleanup_uses_no_header c (hend _ c hc)).1

/-- C7: if the trace of scrcpy() holds `stream_start`, then `device_read_info`
succeeded on the video socket that `server_connect_to` gave, it was called
before `stream_start`, and `stream_init` was handed that socket; and the frame
size handed to `recorder_init`, `v4l2sink_init` and `screen_init_rendering` is
the one that `device_read_info` read on that socket. -/
theorem scrcpy_header_before_stream (b : Build) (env : Env) (options : scrcpy_options) :
    (Call.stream_start ∈ (scrcpy b env options).2 →
      ∃ vs cs name sz, env.server_connect_to = some (vs, cs) ∧
        env.device_read_info vs = some (name, sz) ∧
        Call.device_read_info vs ∈ (scrcpy b env options).2 ∧
        precedes (.device_read_info vs) .stream_start (scrcpy b env options).2 ∧
        ∀ s d r k, Call.stream_init s d r k ∈ (scrcpy b env options).2 → s = vs) ∧
    (∀ f fmt z, Call.recorder_init f fmt z ∈ (scrcpy b env options).2 →
      ∃ vs cs name, env.server_connect_to = some (vs, cs) ∧
        env.device_read_info vs = some (name, z)) ∧
    (∀ d z, Call.v4l2sink_init d z ∈ (scrcpy b env options).2 →
      ∃ vs cs name, env.server_connect_to = some (vs, cs) ∧
        env.device_read_info vs = some (name, z)) ∧
    (∀ w z a x y ww wh wb r m,
      Call.screen_init_rendering w z a x y ww wh wb r m ∈ (scrcpy b env options).2 →
      ∃ vs cs name, env.server_connect_to = some (vs, cs) ∧
        env.device_read_info vs = some (name, z)) := by
  rcases scrcpy_trace_header b env options with h | ⟨vs, sz, ⟨cs, name, hc, hr⟩, hm, p, a⟩
  · refine ⟨fun hm => ?_, fun f fmt z hm => ?_, fun d z hm => ?_,
      fun w z a x y ww wh wb r m hm => ?_⟩ <;>
    exact absurd (h _ hm) (by simp [Call.uses_header])
  · refine ⟨fun _ => ⟨vs, cs, name, sz, hc, hr, hm, p, fun s d r k hs => ?_⟩,
      fun f fmt z hz => ⟨vs, cs, name, hc, ?_⟩, fun d z hz => ⟨vs, cs, name, hc, ?_⟩,
      fun w z a' x y ww wh wb r m hz => ⟨vs, cs, name, hc, ?_⟩⟩
    · simpa [Call.header_ok] using a _ hs
    · have := a _ hz
      simp only [Call.header_ok, decide_eq_true_eq] at this
      rw [this]; exact hr
    · have := a _ hz
      simp only [Call.header_ok, decide_eq_true_eq] at this
      rw [this]; exact hr
    · have := a _ hz
      simp only [Call.header_ok, decide_eq_true_eq] at this
      rw [this]; exact hr

/-- C7 at a concrete input: in the sample run `stream_start` is called, after
the header was read on socket 3. -/
theorem scrcpy_header_before_stream_witness :
    Call.stream_start ∈ (scrcpy sample_build sample_env sample_options).2 ∧
    ∃ vs cs name sz, sample_env.server_connect_to = some (vs, cs) ∧
      sample_env.device_read_info vs = some (name, sz) ∧
      Call.device_read_info vs ∈ (scrcpy sample_build sample_env sample_options).2 ∧
      precedes (.device_read_info vs) .stream_start
        (scrcpy sample_build sample_env sample_options).2 ∧
      ∀ s d r k, Call.stream_init s d r k ∈
        (scrcpy sample_build sample_env sample_options).2 → s = vs :=
  ⟨by decide,
    (scrcpy_header_before_stream sample_build sample_env sample_options).1 (by decide)⟩

/-! ### The event loop -/

theorem handle_event_result (options : scrcpy_options) (e : SDL_Event) (u hf : Bool) :
    (handle_event options e u hf).1 =
      match e.type with
      | .EVENT_STREAM_STOPPED => .EVENT_RESULT_STOPPED_BY_EOS
      | .SDL_QUIT => .EVENT_RESULT_STOPPED_BY_USER
      | _ => .EVENT_RESULT_CONTINUE := by
  unfold handle_event
  cases e.type <;> simp <;> split <;> rfl

theorem handle_event_no_wait (options : scrcpy_options) (e : SDL_Event) (u hf : Bool) :
    Call.SDL_WaitEvent ∉ (handle_event options e u hf).2.2 := by
  unfold handle_event
  split <;> (try split) <;> simp

theorem event_loop_while_cons (options : scrcpy_options) (i : loop_input)
    (rest : List loop_input) (hf : Bool) :
    event_loop_while options (i :: rest) hf =
      match (handle_event options i.event i.screen_update_frame hf).1 with
      | .EVENT_RESULT_STOPPED_BY_USER =>
        (true, (handle_event options i.event i.screen_update_frame hf).2.1,
          .SDL_WaitEvent :: (handle_event options i.event i.screen_update_frame hf).2.2)
      | .EVENT_RESULT_STOPPED_BY_EOS =>
        (false, (handle_event options i.event i.screen_update_frame hf).2.1,
          .SDL_WaitEvent :: (handle_event options i.event i.screen_update_frame hf).2.2)
      | .EVENT_RESULT_CONTINUE =>
        ((event_loop_while options rest
            (handle_event options i.event i.screen_update_frame hf).2.1).1,
          (event_loop_while options rest
            (handle_event options i.event i.screen_update_frame hf).2.1).2.1,
          .SDL_WaitEvent :: (handle_event options i.event i.screen_update_frame hf).2.2 ++
            (event_loop_while options rest
              (handle_event options i.event i.screen_update_frame hf).2.1).2.2) := by
  rw [event_loop_while]
  generalize handle_event options i.event i.screen_update_frame hf = h
  obtain ⟨r, hf', cs⟩ := h
  cases r <;> rfl

theorem event_loop_while_stop (options : scrcpy_options) (i : loop_input)
    (post : List loop_input) (hi : i.event.type.stops = true) :
    ∀ (pre : List loop_input) (hf : Bool), (∀ p ∈ pre, p.event.type.stops = false) →
      event_loop_while options (pre ++ i :: post) hf = event_loop_while options (pre ++ [i]) hf ∧
      (event_loop_while options (pre ++ i :: post) hf).1 =
        decide (i.event.type = .SDL_QUIT) ∧
      (event_loop_while options (pre ++ i :: post) hf).2.2.count .SDL_WaitEvent =
        pre.length + 1 := by
  intro pre
  induction pre with
  | nil =>
    intro hf _
    have hr := handle_event_result options i.event i.screen_update_frame hf
    have hc := handle_event_no_wait options i.event i.screen_update_frame hf
    simp only [List.nil_append, event_loop_while_cons]
    cases ht : i.event.type <;> simp [ht, event_type.stops] at hi <;> rw [ht] at hr <;>
      simp only at hr <;> rw [hr] <;> simp [List.count_eq_zero.mpr hc]
  | cons p pre ih =>
    intro hf hp
    have hr := handle_event_result options p.event p.screen_update_frame hf
    have hc := handle_event_no_wait options p.event p.screen_update_frame hf
    have hps : p.event.type.stops = false := hp p (List.mem_cons_self _ _)
    have hcont : (handle_event options p.event p.screen_update_frame hf).1 =
        .EVENT_RESULT_CONTINUE := by
      rw [hr]
      cases ht : p.event.type <;> simp [ht, event_type.stops] at hps <;> rfl
    obtain ⟨e1, e2, e3⟩ := ih (handle_event options p.event p.screen_update_frame hf).2.1
      (fun q hq => hp q (List.mem_cons_of_mem _ hq))
    simp only [List.cons_append, event_loop_while_cons, hcont]
    refine ⟨?_, e2, ?_⟩
    · rw [e1]
    · simp [List.count_eq_zero.mpr hc, e3]

theorem event_loop_while_no_stop (options : scrcpy_options) :
    ∀ (evs : List loop_input) (hf : Bool), (∀ p ∈ evs, p.event.type.stops = false) →
      (event_loop_while options evs hf).1 = false ∧
      (event_loop_while options evs hf).2.2.count .SDL_WaitEvent = evs.length + 1 := by
  intro evs
  induction evs with
  | nil => intro hf _; simp [event_loop_while]
  | cons p pre ih =>
    intro hf hp
    have hr := handle_event_result options p.event p.screen_update_frame hf
    have hc := handle_event_no_wait options p.event p.screen_update_frame hf
    have hps : p.event.type.stops = false := hp p (List.mem_cons_self _ _)
    have hcont : (handle_event options p.event p.screen_update_frame hf).1 =
        .EVENT_RESULT_CONTINUE := by
      rw [hr]
      cases ht : p.event.type <;> simp [ht, event_type.stops] at hps <;> rfl
    obtain ⟨e2, e3⟩ := ih (handle_event options p.event p.screen_update_frame hf).2.1
      (fun q hq => hp q (List.mem_cons_of_mem _ hq))
    simp only [event_loop_while_cons, hcont]
    exact ⟨e2, by simp [List.count_eq_zero.mpr hc, e3]⟩

theorem before_loop_call (env : Env) (l : locals) (c : Call) (hc : c ≠ .event_loop)
    (h : before_loop env l) : before_loop env (l.call c) := by
  obtain ⟨h1, h2, h3⟩ := h
  refine ⟨?_, h2, h3⟩
  simp only [locals.call, List.mem_append, List.mem_singleton, not_or]
  exact ⟨h1, fun h => hc h.symm⟩

theorem before_loop_ite (env : Env) (l : locals) (p : Bool) (c : Call) (hc : c ≠ .event_loop)
    (h : before_loop env l) : before_loop env (if p = true then l.call c else l) := by
  cases p
  · exact h
  · exact before_loop_call env l c hc h

theorem before_loop_connect (b : Build) (env : Env) (options : scrcpy_options) (l : locals)
    (h : before_loop env l) : before_loop env (scrcpy_connect b env options l).vars := by
  obtain ⟨h1, h2, h3⟩ := h
  obtain ⟨-, -, s3⟩ := sdl_init_calls b env options.display options.disable_screensaver
  unfold scrcpy_connect
  simp only [locals.call, locals.calls]
  cases env.server_start
  · exact ⟨by simp [h1], h2, h3⟩
  · cases (sdl_init_and_configure b env options.display options.disable_screensaver).1
    · exact ⟨by simp [h1, s3], h2, h3⟩
    · cases env.server_connect_to with
      | none => exact ⟨by simp [h1, s3], h2, h3⟩
      | some p =>
        obtain ⟨vs, cs⟩ := p
        cases hr : env.device_read_info vs with
        | none =>
          simp only [Bool.not_true, Bool.false_eq_true, if_false, hr]
          exact ⟨by simp [h1, s3], h2, h3⟩
        | some q =>
          simp only [Bool.not_true, Bool.false_eq_true, if_false, hr]
          exact ⟨by simp [h1, s3], h2, h3⟩

theorem before_loop_file_handler (env : Env) (options : scrcpy_options) (l : locals)
    (h : before_loop env l) : before_loop env (scrcpy_file_handler env options l).vars := by
  unfold scrcpy_file_handler
  cases options.control <;> cases env.file_handler_init <;>
    first
    | exact h
    | exact before_loop_call env l _ (by simp) h

theorem before_loop_display (env : Env) (options : scrcpy_options) (l : locals)
    (h : before_loop env l) : before_loop env (scrcpy_display env options l).vars := by
  have h1 : before_loop env (l.call .fps_counter_init) :=
    before_loop_call env l _ (by simp) h
  have h2 : before_loop env
      ((l.call .fps_counter_init).call (.video_buffer_init options.render_expired_frames)) :=
    before_loop_call env _ _ (by simp) h1
  unfold scrcpy_display
  cases options.display
  · exact h
  · cases env.fps_counter_init
    · exact h1
    · cases env.video_buffer_init
      · exact h2
      · apply flow.bind_vars (before_loop env)
        · exact before_loop_file_handler env options _ h2
        · intro l' h'
          exact before_loop_call env l' .decoder_init (by simp) h'

theorem before_loop_recorder (env : Env) (options : scrcpy_options) (l : locals)
    (h : before_loop env l) : before_loop env (scrcpy_recorder env options l).vars := by
  unfold scrcpy_recorder
  cases options.record_filename.isSome <;> cases env.recorder_init <;>
    first
    | exact h
    | exact before_loop_call env l _ (by simp) h

theorem before_loop_v4l2sink (b : Build) (env : Env) (options : scrcpy_options) (l : locals)
    (h : before_loop env l) : before_loop env (scrcpy_v4l2sink b env options l).vars := by
  unfold scrcpy_v4l2sink
  cases b.V4L2SINK <;> cases options.v4l2sink_device.isSome <;> cases env.v4l2sink_init <;>
    first
    | exact h
    | exact before_loop_call env l _ (by simp) h

theorem before_loop_stream (env : Env) (l : locals)
    (h : before_loop env l) : before_loop env (scrcpy_stream env l).vars := by
  have h1 : before_loop env (l.call .av_log_set_callback) :=
    before_loop_call env l _ (by simp) h
  have h2 : before_loop env
      ((l.call .av_log_set_callback).call (.stream_init l.video_socket l.dec l.rec_ l.sink)) :=
    before_loop_call env _ _ (by simp) h1
  have h3 := before_loop_call env _ .stream_start (by simp) h2
  unfold scrcpy_stream
  cases env.stream_start <;> exact h3

theorem before_loop_controller (env : Env) (options : scrcpy_options) (l : locals)
    (h : before_loop env l) : before_loop env (scrcpy_controller env options l).vars := by
  have h1 : before_loop env (l.call (.controller_init l.control_socket)) :=
    before_loop_call env l _ (by simp) h
  have h2 := before_loop_call env _ .controller_start (by simp) h1
  unfold scrcpy_controller
  cases options.control <;> cases env.controller_init <;> cases env.controller_start <;>
    first
    | exact h
    | exact h1
    | exact h2

theorem before_loop_screen (env : Env) (options : scrcpy_options) (l : locals)
    (h : before_loop env l) : before_loop env (scrcpy_screen env options l).vars := by
  unfold scrcpy_screen
  cases options.display
  · exact h
  · apply flow.bind_vars (before_loop env)
    · exact before_loop_controller env options l h
    · intro l' h'
      have h1 := before_loop_call env l'
        (.screen_init_rendering
          (match options.window_title with
            | some t => t
            | none => l'.device_name) l'.frame_size options.always_on_top
          options.window_x options.window_y options.window_width options.window_height
          options.window_borderless options.rotation options.mipmaps)
        (by simp) h'
      cases env.screen_init_rendering
      · exact h1
      · exact before_loop_ite env _ options.fullscreen .screen_switch_fullscreen (by simp)
          (before_loop_ite env _ options.turn_screen_off _ (by simp) h1)

/-- When scrcpy() enters the event loop, it returns what `event_loop` returns. -/
theorem scrcpy_returns_event_loop (b : Build) (env : Env) (options : scrcpy_options) :
    Call.event_loop ∈ (scrcpy b env options).2 →
      (scrcpy b env options).1 = (event_loop b options env.events env.screen_has_frame).1 := by
  cases hi : env.server_init
  · simp [scrcpy, hi]
  · simp only [scrcpy, hi, Bool.not_true, Bool.false_eq_true, if_false]
    have hpre : before_loop env (((((((scrcpy_connect b env options (scrcpy_locals env)).bind
        (scrcpy_display env options)).bind
        (scrcpy_recorder env options)).bind
        (scrcpy_v4l2sink b env options)).bind
        (scrcpy_stream env)).bind
        (scrcpy_screen env options))).vars := by
      apply flow.bind_vars (before_loop env) _ _ _ (fun l h => before_loop_screen env options l h)
      apply flow.bind_vars (before_loop env) _ _ _ (fun l h => before_loop_stream env l h)
      apply flow.bind_vars (before_loop env) _ _ _
        (fun l h => before_loop_v4l2sink b env options l h)
      apply flow.bind_vars (before_loop env) _ _ _
        (fun l h => before_loop_recorder env options l h)
      apply flow.bind_vars (before_loop env) _ _ _
        (fun l h => before_loop_display env options l h)
      apply before_loop_connect
      exact ⟨by simp [scrcpy_locals], rfl, rfl⟩
    unfold scrcpy_body
    generalize (((((((scrcpy_connect b env options (scrcpy_locals env)).bind
        (scrcpy_display env options)).bind
        (scrcpy_recorder env options)).bind
        (scrcpy_v4l2sink b env options)).bind
        (scrcpy_stream env)).bind
        (scrcpy_screen env options))) = f at hpre ⊢
    cases f with
    | goto_end l =>
      intro hm
      rw [flow.bind_goto_end, flow.vars, mem_end b l .event_loop _ rfl] at hm
      exact absurd hm hpre.1
    | next l =>
      intro _
      obtain ⟨-, -, h3⟩ := hpre
      simp only [flow.vars] at h3
      simp only [flow.bind, scrcpy_run, flow.vars, locals.call, locals.calls, h3]

/-- C8: `handle_event` returns `EVENT_RESULT_CONTINUE` for every event type
other than `EVENT_STREAM_STOPPED` and `SDL_QUIT`; `event_loop` stops at the
first event of one of these two types (the events after it change nothing and
`SDL_WaitEvent` is called once per event up to it), returning false for
`EVENT_STREAM_STOPPED` and true for `SDL_QUIT`; it returns false when the
events run out first; and scrcpy(), when it enters the loop, returns what
`event_loop` returns. -/
theorem event_loop_stops_at_first_stop (b : Build) (options : scrcpy_options) :
    (∀ e u hf, e.type.stops = false →
      (handle_event options e u hf).1 = .EVENT_RESULT_CONTINUE) ∧
    (∀ pre i post hf, (∀ p ∈ pre, p.event.type.stops = false) → i.event.type.stops = true →
      event_loop b options (pre ++ i :: post) hf = event_loop b options (pre ++ [i]) hf ∧
      (event_loop b options (pre ++ i :: post) hf).2.2.count .SDL_WaitEvent = pre.length + 1 ∧
      (i.event.type = .EVENT_STREAM_STOPPED →
        (event_loop b options (pre ++ i :: post) hf).1 = false) ∧
      (i.event.type = .SDL_QUIT →
        (event_loop b options (pre ++ i :: post) hf).1 = true)) ∧
    (∀ evs hf, (∀ p ∈ evs, p.event.type.stops = false) →
      (event_loop b options evs hf).1 = false) ∧
    (∀ env, Call.event_loop ∈ (scrcpy b env options).2 →
      (scrcpy b env options).1 = (event_loop b options env.events env.screen_has_frame).1) := by
  refine ⟨?_, ?_, ?_, fun env => scrcpy_returns_event_loop b env options⟩
  · intro e u hf he
    rw [handle_event_result]
    cases ht : e.type <;> simp [ht, event_type.stops] at he <;> rfl
  · intro pre i post hf hpre hi
    obtain ⟨e1, e2, e3⟩ := event_loop_while_stop options i post hi pre hf hpre
    refine ⟨?_, ?_, ?_, ?_⟩
    · simp only [event_loop, e1]
    · simp only [event_loop, List.count_append, e3]
      split <;> simp
    · intro ht
      simp only [event_loop, e2, ht]
      rfl
    · intro ht
      simp only [event_loop, e2, ht]
      rfl
  · intro evs hf h
    simp only [event_loop]
    exact (event_loop_while_no_stop options evs hf h).1

/-- C8 at a concrete input: a key press, then `SDL_QUIT`, then a further key
press that is not handled. -/
theorem event_loop_stops_at_first_stop_witness :
    event_loop sample_build sample_options
        ([⟨⟨.SDL_KEYDOWN, [], 0⟩, false⟩] ++ ⟨⟨.SDL_QUIT, [], 0⟩, false⟩ ::
          [⟨⟨.SDL_KEYUP, [], 0⟩, false⟩]) false =
      event_loop sample_build sample_options
        ([⟨⟨.SDL_KEYDOWN, [], 0⟩, false⟩] ++ [⟨⟨.SDL_QUIT, [], 0⟩, false⟩]) false ∧
    (event_loop sample_build sample_options
        ([⟨⟨.SDL_KEYDOWN, [], 0⟩, false⟩] ++ ⟨⟨.SDL_QUIT, [], 0⟩, false⟩ ::
          [⟨⟨.SDL_KEYUP, [], 0⟩, false⟩]) false).1 = true :=
  have h := (event_loop_stops_at_first_stop sample_build sample_options).2.1
    [⟨⟨.SDL_KEYDOWN, [], 0⟩, false⟩] ⟨⟨.SDL_QUIT, [], 0⟩, false⟩
    [⟨⟨.SDL_KEYUP, [], 0⟩, false⟩] false (by decide) (by decide)
  ⟨h.1, h.2.2.2 rfl⟩

/-! ### The stream demuxer -/

theorem stream_run_append (s : stream) (ps qs : List EncodedPacket) :
    stream_run s (ps ++ qs) =
      ((stream_run (stream_run s ps).1 qs).1,
        (stream_run s ps).2 ++ (stream_run (stream_run s ps).1 qs).2) := by
  induction ps generalizing s with
  | nil => simp [stream_run]
  | cons p ps ih => simp [stream_run, ih, List.append_assoc]

theorem stream_run_configs (s : stream) (cs : List EncodedPacket)
    (hc : ∀ c ∈ cs, c.is_config = true) :
    stream_run s cs =
      (if cs = [] then s
        else { has_pending := true,
               pending := s.pending ++ (cs.map EncodedPacket.payload).flatten }, []) := by
  induction cs generalizing s with
  | nil => simp [stream_run]
  | cons c cs ih =>
    have h1 : c.is_config = true := hc c (List.mem_cons_self _ _)
    have h2 : ∀ x ∈ cs, x.is_config = true := fun x hx => hc x (List.mem_cons_of_mem _ hx)
    simp only [stream_run, stream_push_packet, h1, if_true, ih _ h2]
    by_cases hcs : cs = []
    · simp [hcs]
    · simp [hcs, List.append_assoc]

theorem stream_run_one (s : stream) (hs : s.consistent) (cs : List EncodedPacket)
    (d : EncodedPacket) (hc : ∀ c ∈ cs, c.is_config = true) (hd : d.is_config = false) :
    ∃ s', stream_run s (cs ++ [d]) =
        (s', [{ payload := s.pending ++ (merged cs d).payload, pts := d.pts,
                is_config := false }]) ∧
      s'.pending = [] ∧ s'.consistent := by
  rw [stream_run_append, stream_run_configs s cs hc]
  by_cases hcs : cs = []
  · subst hcs
    cases hp : s.has_pending
    · have := hs hp
      refine ⟨s, ?_, this, hs⟩
      obtain ⟨pl, pts, cfg⟩ := d
      simp only at hd
      subst hd
      simp [stream_run, stream_push_packet, hp, merged, this]
    · refine ⟨⟨false, []⟩, ?_, rfl, fun _ => rfl⟩
      simp [stream_run, stream_push_packet, hp, hd, merged]
  · refine ⟨⟨false, []⟩, ?_, rfl, fun _ => rfl⟩
    simp [stream_run, stream_push_packet, hd, merged, hcs, List.append_assoc]

theorem stream_run_runs (runs : List (List EncodedPacket × EncodedPacket))
    (hr : ∀ r ∈ runs, (∀ c ∈ r.1, c.is_config = true) ∧ r.2.is_config = false) :
    ∀ (s : stream), s.consistent → s.pending = [] →
      ∃ s', stream_run s (runs.map fun r => r.1 ++ [r.2]).flatten =
          (s', runs.map fun r => merged r.1 r.2) ∧ s'.pending = [] ∧ s'.consistent := by
  induction runs with
  | nil => intro s hs hp; exact ⟨s, rfl, hp, hs⟩
  | cons r runs ih =>
    intro s hs hp
    obtain ⟨h1, h2⟩ := hr r (List.mem_cons_self _ _)
    obtain ⟨s1, e1, p1, c1⟩ := stream_run_one s hs r.1 r.2 h1 h2
    obtain ⟨s2, e2, p2, c2⟩ := ih (fun x hx => hr x (List.mem_cons_of_mem _ hx)) s1 c1 p1
    refine ⟨s2, ?_, p2, c2⟩
    simp only [List.map_cons, List.flatten_cons, stream_run_append, e1, e2, hp,
      List.nil_append, List.singleton_append]
    rfl

theorem sequence_decomposes (ps : List EncodedPacket) :
    ∃ runs tail, (∀ r ∈ runs, (∀ c ∈ r.1, c.is_config = true) ∧ r.2.is_config = false) ∧
      (∀ c ∈ tail, c.is_config = true) ∧ ps = sequence_of runs tail := by
  induction ps with
  | nil => exact ⟨[], [], by simp, by simp, rfl⟩
  | cons p ps ih =>
    obtain ⟨runs, tail, h1, h2, h3⟩ := ih
    cases hp : p.is_config
    · refine ⟨([], p) :: runs, tail, ?_, h2, ?_⟩
      · intro r hr
        rcases List.mem_cons.mp hr with rfl | hr
        · exact ⟨by simp, hp⟩
        · exact h1 r hr
      · simp [sequence_of, h3]
    · cases runs with
      | nil =>
        refine ⟨[], p :: tail, by simp, ?_, ?_⟩
        · intro c hc
          rcases List.mem_cons.mp hc with rfl | hc
          · exact hp
          · exact h2 c hc
        · simp [sequence_of, h3]
      | cons r runs =>
        refine ⟨(p :: r.1, r.2) :: runs, tail, ?_, h2, ?_⟩
        · intro x hx
          rcases List.mem_cons.mp hx with rfl | hx
          · refine ⟨?_, (h1 r (List.mem_cons_self _ _)).2⟩
            intro c hc
            rcases List.mem_cons.mp hc with rfl | hc
            · exact hp
            · exact (h1 r (List.mem_cons_self _ _)).1 c hc
          · exact h1 x (List.mem_cons_of_mem _ hx)
        · simp [sequence_of, h3]

/-- C5: every packet sequence is a succession of runs (config packets, then one
non-config packet) followed by config packets only; on such a sequence the
demuxer, started with nothing pending, dispatches exactly one unit per run, in
order, whose payload is the concatenation of the payloads of the run in arrival
order and whose timestamp is that of the non-config packet, and it dispatches
nothing for the trailing config packets; no dispatched unit is a config packet. -/
theorem stream_merges_config_runs :
    (∀ ps : List EncodedPacket, ∃ runs tail,
      (∀ r ∈ runs, (∀ c ∈ r.1, c.is_config = true) ∧ r.2.is_config = false) ∧
      (∀ c ∈ tail, c.is_config = true) ∧ ps = sequence_of runs tail) ∧
    (∀ (runs : List (List EncodedPacket × EncodedPacket)) (tail : List EncodedPacket),
      (∀ r ∈ runs, (∀ c ∈ r.1, c.is_config = true) ∧ r.2.is_config = false) →
      (∀ c ∈ tail, c.is_config = true) →
      (stream_run stream.init (sequence_of runs tail)).2 =
        runs.map (fun r => merged r.1 r.2)) ∧
    (∀ ps : List EncodedPacket, ∀ u ∈ (stream_run stream.init ps).2, u.is_config = false) := by
  have key : ∀ (runs : List (List EncodedPacket × EncodedPacket)) (tail : List EncodedPacket),
      (∀ r ∈ runs, (∀ c ∈ r.1, c.is_config = true) ∧ r.2.is_config = false) →
      (∀ c ∈ tail, c.is_config = true) →
      (stream_run stream.init (sequence_of runs tail)).2 =
        runs.map (fun r => merged r.1 r.2) := by
    intro runs tail hr ht
    obtain ⟨s', e, -, -⟩ := stream_run_runs runs hr stream.init (fun _ => rfl) rfl
    simp only [sequence_of, stream_run_append, e, stream_run_configs s' tail ht,
      List.append_nil]
  refine ⟨sequence_decomposes, key, ?_⟩
  intro ps u hu
  obtain ⟨runs, tail, hr, ht, rfl⟩ := sequence_decomposes ps
  rw [key runs tail hr ht] at hu
  obtain ⟨r, -, rfl⟩ := List.mem_map.mp hu
  rfl

/-- C5 at a concrete input: [config A][config B][data C] gives exactly one unit
with payload A ++ B ++ C and the timestamp of C. -/
theorem stream_merges_config_runs_witness :
    (stream_run stream.init (sequence_of
      [([⟨[1, 2], 10, true⟩, ⟨[3], 20, true⟩], ⟨[4, 5], 30, false⟩)] [])).2 =
      [⟨[1, 2, 3, 4, 5], 30, false⟩] :=
  stream_merges_config_runs.2.1
    [([⟨[1, 2], 10, true⟩, ⟨[3], 20, true⟩], ⟨[4, 5], 30, false⟩)] []
    (by decide) (by decide)

/-! ### The record format -/

theorem drop_eq_iff_ends_with (s ext : CStr) (h : ext.length ≤ s.length) :
    s.drop (s.length - ext.length) = ext ↔ ends_with s ext := by
  constructor
  · intro hd
    refine ⟨s.take (s.length - ext.length), ?_⟩
    conv_lhs => rw [← List.take_append_drop (s.length - ext.length) s]
    rw [hd]
  · rintro ⟨pre, rfl⟩
    simp

theorem ends_with_length (s ext : CStr) (h : ends_with s ext) : ext.length ≤ s.length := by
  obtain ⟨pre, rfl⟩ := h
  simp

/-- What `guess_record_format` returns, in terms of the end of the file name. -/
theorem guess_record_format_eq (filename : CStr) :
    (guess_record_format filename = .SC_RECORD_FORMAT_MP4 ↔
      ends_with filename ['.', 'm', 'p', '4']) ∧
    (guess_record_format filename = .SC_RECORD_FORMAT_MKV ↔
      ends_with filename ['.', 'm', 'k', 'v']) ∧
    (guess_record_format filename = .SC_RECORD_FORMAT_AUTO ↔
      ¬ ends_with filename ['.', 'm', 'p', '4'] ∧ ¬ ends_with filename ['.', 'm', 'k', 'v']) := by
  unfold guess_record_format
  by_cases hl : filename.length < 4
  · have h1 : ¬ ends_with filename ['.', 'm', 'p', '4'] := fun h => by
      have := ends_with_length _ _ h
      simp at this
      omega
    have h2 : ¬ ends_with filename ['.', 'm', 'k', 'v'] := fun h => by
      have := ends_with_length _ _ h
      simp at this
      omega
    simp [hl, h1, h2]
  · have e1 := drop_eq_iff_ends_with filename ['.', 'm', 'p', '4'] (by simp; omega)
    have e2 := drop_eq_iff_ends_with filename ['.', 'm', 'k', 'v'] (by simp; omega)
    simp only [List.length_cons, List.length_nil] at e1 e2
    simp only [hl, if_false]
    by_cases h1 : filename.drop (filename.length - 4) = ['.', 'm', 'p', '4']
    · have h2 : filename.drop (filename.length - 4) ≠ ['.', 'm', 'k', 'v'] := by
        rw [h1]; decide
      simp [h1, ← e1, ← e2]
    · by_cases h2 : filename.drop (filename.length - 4) = ['.', 'm', 'k', 'v']
      · simp [h2, ← e1, ← e2]
      · simp [h1, h2, ← e1, ← e2]

theorem ite_prop {α : Type} (P : α → Prop) (c : Prop) [Decidable c] (a b : α)
    (ha : c → P a) (hb : ¬ c → P b) : P (if c then a else b) := by
  by_cases h : c
  · rw [if_pos h]; exact ha h
  · rw [if_neg h]; exact hb h

/-- An option other than `-r`, `-F`, `--record-format`, `-N` and `--v4l2sink`
leaves the record file name, the record format, the display flag and the sink
device as they are. -/
theorem scrcpy_parse_args_switch_other (d : Deps) (b : Build) (args : scrcpy_cli_args)
    (c : Int) (optarg : CStr) (hr : c ≠ short_option 'r') (hF : c ≠ short_option 'F')
    (hO : c ≠ OPT_RECORD_FORMAT) (hN : c ≠ short_option 'N') (hV : c ≠ OPT_V4L2SINK) :
    (scrcpy_parse_args_switch d b args c optarg).2.opts.record_filename =
      args.opts.record_filename ∧
    (scrcpy_parse_args_switch d b args c optarg).2.opts.record_format =
      args.opts.record_format ∧
    (scrcpy_parse_args_switch d b args c optarg).2.opts.display = args.opts.display ∧
    (scrcpy_parse_args_switch d b args c optarg).2.opts.v4l2sink_device =
      args.opts.v4l2sink_device := by
  unfold scrcpy_parse_args_switch
  repeat' refine ite_prop (fun r : Bool × scrcpy_cli_args =>
    r.2.opts.record_filename = args.opts.record_filename ∧
    r.2.opts.record_format = args.opts.record_format ∧
    r.2.opts.display = args.opts.display ∧
    r.2.opts.v4l2sink_device = args.opts.v4l2sink_device) _ _ _ (fun h => ?_) (fun h => ?_)
  all_goals first
    | exact ⟨rfl, rfl, rfl, rfl⟩
    | exact absurd h hr
    | exact absurd h hN
    | exact absurd h.2 hV
    | exact absurd h (not_or.mpr ⟨hF, hO⟩)

/-- What one turn of the option loop does to the fields that decide the
consumers and the record format. -/
theorem scrcpy_parse_args_switch_fields (d : Deps) (b : Build) (args : scrcpy_cli_args)
    (c : Int) (optarg : CStr) :
    ((scrcpy_parse_args_switch d b args c optarg).2.opts.record_filename =
      if c = short_option 'r' then some optarg else args.opts.record_filename) ∧
    ((scrcpy_parse_args_switch d b args c optarg).2.opts.record_format =
      if is_record_format_option c = true then
        (parse_record_format optarg args.opts.record_format).2
      else args.opts.record_format) ∧
    (is_record_format_option c = true →
      (scrcpy_parse_args_switch d b args c optarg).1 =
        (parse_record_format optarg args.opts.record_format).1) ∧
    ((scrcpy_parse_args_switch d b args c optarg).2.opts.display =
      if c = short_option 'N' then false else args.opts.display) ∧
    ((scrcpy_parse_args_switch d b args c optarg).2.opts.v4l2sink_device =
      if b.V4L2SINK = true ∧ c = OPT_V4L2SINK then some optarg
      else args.opts.v4l2sink_device) := by
  by_cases hr : c = short_option 'r'
  · subst hr
    simp [scrcpy_parse_args_switch, is_record_format_option, short_option, OPT_CROP,
      OPT_DISPLAY_ID, OPT_RECORD_FORMAT, OPT_MAX_FPS, OPT_LOCK_VIDEO_ORIENTATION, OPT_V4L2SINK]
  by_cases hF : c = short_option 'F'
  · subst hF
    simp [scrcpy_parse_args_switch, is_record_format_option, short_option, OPT_CROP,
      OPT_DISPLAY_ID, OPT_RECORD_FORMAT, OPT_MAX_FPS, OPT_LOCK_VIDEO_ORIENTATION, OPT_V4L2SINK]
  by_cases hO : c = OPT_RECORD_FORMAT
  · subst hO
    simp [scrcpy_parse_args_switch, is_record_format_option, short_option, OPT_CROP,
      OPT_DISPLAY_ID, OPT_RECORD_FORMAT, OPT_MAX_FPS, OPT_LOCK_VIDEO_ORIENTATION, OPT_V4L2SINK]
  by_cases hN : c = short_option 'N'
  · subst hN
    simp [scrcpy_parse_args_switch, is_record_format_option, short_option, OPT_CROP,
      OPT_DISPLAY_ID, OPT_RECORD_FORMAT, OPT_MAX_FPS, OPT_LOCK_VIDEO_ORIENTATION, OPT_V4L2SINK]
  by_cases hV : c = OPT_V4L2SINK
  · subst hV
    cases hb : b.V4L2SINK <;>
    simp [scrcpy_parse_args_switch, is_record_format_option, short_option,
      OPT_RENDER_EXPIRED_FRAMES,
      OPT_WINDOW_TITLE, OPT_PUSH_TARGET, OPT_ALWAYS_ON_TOP, OPT_CROP, OPT_RECORD_FORMAT,
      OPT_PREFER_TEXT, OPT_WINDOW_X, OPT_WINDOW_Y, OPT_WINDOW_WIDTH, OPT_WINDOW_HEIGHT,
      OPT_WINDOW_BORDERLESS, OPT_MAX_FPS, OPT_LOCK_VIDEO_ORIENTATION, OPT_DISPLAY_ID,
      OPT_ROTATION, OPT_RENDER_DRIVER, OPT_NO_MIPMAPS, OPT_CODEC_OPTIONS,
      OPT_FORCE_ADB_FORWARD, OPT_DISABLE_SCREENSAVER, OPT_SHORTCUT_MOD, OPT_NO_KEY_REPEAT,
      OPT_FORWARD_ALL_CLICKS, OPT_LEGACY_PASTE, OPT_ENCODER_NAME, OPT_V4L2SINK, hb]
  have hfmt : is_record_format_option c = false := by
    simp [is_record_format_option, hF, hO]
  obtain ⟨h1, h2, h3, h4⟩ := scrcpy_parse_args_switch_other d b args c optarg hr hF hO hN hV
  simp [hr, hN, hV, hfmt, h1, h2, h3, h4]

theorem parse_record_format_ok (optarg : CStr) (format : sc_record_format)
    (h : (parse_record_format optarg format).1 = true) :
    (optarg = ['m', 'p', '4'] ∧
      (parse_record_format optarg format).2 = .SC_RECORD_FORMAT_MP4) ∨
    (optarg = ['m', 'k', 'v'] ∧
      (parse_record_format optarg format).2 = .SC_RECORD_FORMAT_MKV) := by
  unfold parse_record_format at h ⊢
  by_cases h1 : optarg = ['m', 'p', '4']
  · simp [h1]
  · by_cases h2 : optarg = ['m', 'k', 'v']
    · simp [h2]
    · simp [h1, h2] at h

theorem scrcpy_parse_args_while_cons (d : Deps) (b : Build) (args a' : scrcpy_cli_args)
    (o : Int × CStr) (rest : List (Int × CStr))
    (h : scrcpy_parse_args_while d b args (o :: rest) = (true, a')) :
    (scrcpy_parse_args_switch d b args o.1 o.2).1 = true ∧
    scrcpy_parse_args_while d b (scrcpy_parse_args_switch d b args o.1 o.2).2 rest =
      (true, a') := by
  rw [scrcpy_parse_args_while] at h
  cases hr : (scrcpy_parse_args_switch d b args o.1 o.2).1
  · simp [hr] at h
  · simpa [hr] using h

/-- What the option loop, when it runs to its end, has done to the fields that
decide the consumers and the record format. -/
theorem scrcpy_parse_args_while_fields (d : Deps) (b : Build) (parsed : List (Int × CStr)) :
    ∀ (args a' : scrcpy_cli_args), scrcpy_parse_args_while d b args parsed = (true, a') →
      (a'.opts.record_filename =
        match last_record_filename parsed with
        | some f => some f
        | none => args.opts.record_filename) ∧
      (match last_record_format parsed with
        | some a =>
          (a = ['m', 'p', '4'] ∧ a'.opts.record_format = .SC_RECORD_FORMAT_MP4) ∨
          (a = ['m', 'k', 'v'] ∧ a'.opts.record_format = .SC_RECORD_FORMAT_MKV)
        | none => a'.opts.record_format = args.opts.record_format) ∧
      (a'.opts.display = true →
        args.opts.display = true ∧ ∀ o ∈ parsed, o.1 ≠ short_option 'N') ∧
      (b.V4L2SINK = false → a'.opts.v4l2sink_device = args.opts.v4l2sink_device) := by
  induction parsed with
  | nil =>
    intro args a' h
    simp only [scrcpy_parse_args_while, Prod.mk.injEq, true_and] at h
    subst h
    simp [last_record_filename, last_record_format]
  | cons o rest ih =>
    intro args a' h
    obtain ⟨hs, hw⟩ := scrcpy_parse_args_while_cons d b args a' o rest h
    obtain ⟨i1, i2, i3, i4⟩ := ih _ a' hw
    obtain ⟨f1, f2, f3, f4, f5⟩ := scrcpy_parse_args_switch_fields d b args o.1 o.2
    refine ⟨?_, ?_, ?_, ?_⟩
    · rw [i1, f1]
      simp only [last_record_filename]
      cases last_record_filename rest <;> simp only []
      split <;> rfl
    · simp only [last_record_format]
      cases hl : last_record_format rest with
      | some a => simpa [hl] using i2
      | none =>
        rw [hl] at i2
        simp only at i2
        cases hopt : is_record_format_option o.1
        · simp only [Bool.false_eq_true, if_false]
          rw [i2, f2, hopt]
          simp
        · simp only [if_true]
          rw [i2, f2, hopt]
          simp only [if_true]
          exact parse_record_format_ok _ _ ((f3 hopt) ▸ hs)
    · intro hd
      obtain ⟨j1, j2⟩ := i3 hd
      rw [f4] at j1
      by_cases hN : o.1 = short_option 'N'
      · simp [hN] at j1
      · rw [if_neg hN] at j1
        refine ⟨j1, ?_⟩
        intro x hx
        rcases List.mem_cons.mp hx with rfl | hx
        · exact hN
        · exact j2 x hx
    · intro hb
      rw [i4 hb, f5]
      simp [hb]

theorem scrcpy_parse_args_guess_fields (args : scrcpy_cli_args) :
    (scrcpy_parse_args_guess args).2.opts.record_filename = args.opts.record_filename ∧
    (scrcpy_parse_args_guess args).2.opts.display = args.opts.display ∧
    (scrcpy_parse_args_guess args).2.opts.v4l2sink_device = args.opts.v4l2sink_device ∧
    ((scrcpy_parse_args_guess args).2.opts.record_format =
      match args.opts.record_filename with
      | some filename =>
        if args.opts.record_format = .SC_RECORD_FORMAT_AUTO then guess_record_format filename
        else args.opts.record_format
      | none => args.opts.record_format) ∧
    ((scrcpy_parse_args_guess args).1 = true →
      ∀ filename, args.opts.record_filename = some filename →
        (scrcpy_parse_args_guess args).2.opts.record_format ≠ .SC_RECORD_FORMAT_AUTO) := by
  unfold scrcpy_parse_args_guess
  cases hf : args.opts.record_filename with
  | none => simp [hf]
  | some filename =>
    by_cases ha : args.opts.record_format = .SC_RECORD_FORMAT_AUTO
    · by_cases hg : guess_record_format filename = .SC_RECORD_FORMAT_AUTO
      · simp [hf, ha, hg]
      · simp [hf, ha, hg]
    · simp [hf, ha]

theorem scrcpy_parse_args_checks_ok (args : scrcpy_cli_args) (remaining : Nat)
    (h : (scrcpy_parse_args_checks args remaining).1 = true) :
    (scrcpy_parse_args_checks args remaining).2 = (scrcpy_parse_args_guess args).2 ∧
    (scrcpy_parse_args_guess args).1 = true ∧
    (args.opts.display = true ∨ args.opts.record_filename ≠ none ∨
      args.opts.v4l2sink_device ≠ none) ∧
    (args.opts.record_filename = none → args.opts.record_format = .SC_RECORD_FORMAT_AUTO) := by
  unfold scrcpy_parse_args_checks at h ⊢
  by_cases h1 : (!args.opts.display && args.opts.record_filename.isNone &&
      args.opts.v4l2sink_device.isNone) = true
  · rw [if_pos h1] at h; exact absurd h (by simp)
  rw [if_neg h1] at h ⊢
  by_cases h2 : 0 < remaining
  · rw [if_pos h2] at h; exact absurd h (by simp)
  rw [if_neg h2] at h ⊢
  by_cases h3 : (decide (args.opts.record_format ≠ .SC_RECORD_FORMAT_AUTO) &&
      args.opts.record_filename.isNone) = true
  · rw [if_pos h3] at h; exact absurd h (by simp)
  rw [if_neg h3] at h ⊢
  dsimp only at h ⊢
  cases h4 : (scrcpy_parse_args_guess args).1
  · rw [h4] at h; simp only [Bool.not_false, if_true] at h; exact absurd (h4 ▸ h) (by simp)
  rw [h4] at h
  simp only [Bool.not_true, Bool.false_eq_true, if_false] at h ⊢
  by_cases h5 : (!(scrcpy_parse_args_guess args).2.opts.control &&
      (scrcpy_parse_args_guess args).2.opts.turn_screen_off) = true
  · rw [if_pos h5] at h; exact absurd h (by simp)
  rw [if_neg h5] at h ⊢
  by_cases h6 : (!(scrcpy_parse_args_guess args).2.opts.control &&
      (scrcpy_parse_args_guess args).2.opts.stay_awake) = true
  · rw [if_pos h6] at h; exact absurd h (by simp)
  rw [if_neg h6] at h ⊢
  refine ⟨rfl, trivial, ?_, ?_⟩
  · simp only [Bool.and_eq_true, Bool.not_eq_true', Option.isNone_iff_eq_none, not_and] at h1
    by_cases hd : args.opts.display = true
    · exact Or.inl hd
    · by_cases hf : args.opts.record_filename = none
      · exact Or.inr (Or.inr (h1 ⟨by simpa using hd, hf⟩))
      · exact Or.inr (Or.inl hf)
  · intro hf
    simp only [Bool.and_eq_true, decide_eq_true_eq, Option.isNone_iff_eq_none, not_and] at h3
    by_contra hne
    exact h3 hne hf

/-- When `scrcpy_parse_args` returns true, the option loop ran to its end and
the checks after it passed. -/
theorem scrcpy_parse_args_ok (d : Deps) (b : Build) (args : scrcpy_cli_args) (g : getopt_run)
    (h : (scrcpy_parse_args d b args g).1 = true) :
    ∃ a, scrcpy_parse_args_while d b args g.parsed = (true, a) ∧
      (scrcpy_parse_args_checks a g.remaining).1 = true ∧
      scrcpy_parse_args d b args g = scrcpy_parse_args_checks a g.remaining := by
  have key : scrcpy_parse_args d b args g =
      if (!(scrcpy_parse_args_while d b args g.parsed).1) = true then
        scrcpy_parse_args_while d b args g.parsed
      else scrcpy_parse_args_checks (scrcpy_parse_args_while d b args g.parsed).2
        g.remaining := rfl
  cases hw : (scrcpy_parse_args_while d b args g.parsed).1
  · rw [key, hw] at h
    simp only [Bool.not_false, if_true] at h
    exact absurd (hw ▸ h) (by simp)
  · rw [hw] at key
    simp only [Bool.not_true, Bool.false_eq_true, if_false] at key
    exact ⟨_, Prod.ext hw rfl, key ▸ h, key⟩

/-- C10: starting from options without a record format, when
`scrcpy_parse_args` succeeds with a record file name, the record format is the
one named by the last `--record-format` (or `-F`) option if there is one (mp4 or
mkv), and otherwise MP4 if the file name ends with ".mp4" and MKV if it ends
with ".mkv"; and parsing fails when no format option is given and the file name
given with `-r` is shorter than 4 characters or ends with neither extension. -/
theorem scrcpy_parse_args_record_format (d : Deps) (b : Build) (args : scrcpy_cli_args)
    (g : getopt_run) (f : CStr)
    (hdef : args.opts.record_format = .SC_RECORD_FORMAT_AUTO) :
    ((scrcpy_parse_args d b args g).1 = true →
      (scrcpy_parse_args d b args g).2.opts.record_filename = some f →
      match last_record_format g.parsed with
      | some a =>
        (a = ['m', 'p', '4'] ∧
          (scrcpy_parse_args d b args g).2.opts.record_format = .SC_RECORD_FORMAT_MP4) ∨
        (a = ['m', 'k', 'v'] ∧
          (scrcpy_parse_args d b args g).2.opts.record_format = .SC_RECORD_FORMAT_MKV)
      | none =>
        (ends_with f ['.', 'm', 'p', '4'] ∧
          (scrcpy_parse_args d b args g).2.opts.record_format = .SC_RECORD_FORMAT_MP4) ∨
        (ends_with f ['.', 'm', 'k', 'v'] ∧
          (scrcpy_parse_args d b args g).2.opts.record_format = .SC_RECORD_FORMAT_MKV)) ∧
    (last_record_format g.parsed = none → last_record_filename g.parsed = some f →
      (f.length < 4 ∨
        (¬ ends_with f ['.', 'm', 'p', '4'] ∧ ¬ ends_with f ['.', 'm', 'k', 'v'])) →
      (scrcpy_parse_args d b args g).1 = false) := by
  have part1 : ∀ f', (scrcpy_parse_args d b args g).1 = true →
      (scrcpy_parse_args d b args g).2.opts.record_filename = some f' →
      match last_record_format g.parsed with
      | some a =>
        (a = ['m', 'p', '4'] ∧
          (scrcpy_parse_args d b args g).2.opts.record_format = .SC_RECORD_FORMAT_MP4) ∨
        (a = ['m', 'k', 'v'] ∧
          (scrcpy_parse_args d b args g).2.opts.record_format = .SC_RECORD_FORMAT_MKV)
      | none =>
        (ends_with f' ['.', 'm', 'p', '4'] ∧
          (scrcpy_parse_args d b args g).2.opts.record_format = .SC_RECORD_FORMAT_MP4) ∨
        (ends_with f' ['.', 'm', 'k', 'v'] ∧
          (scrcpy_parse_args d b args g).2.opts.record_format = .SC_RECORD_FORMAT_MKV) := by
    intro f' hok hf
    obtain ⟨a, hw, hc, he⟩ := scrcpy_parse_args_ok d b args g hok
    obtain ⟨c1, c2, -, -⟩ := scrcpy_parse_args_checks_ok a g.remaining hc
    obtain ⟨g1, -, -, g4, g5⟩ := scrcpy_parse_args_guess_fields a
    obtain ⟨-, w2, -, -⟩ := scrcpy_parse_args_while_fields d b g.parsed args a hw
    rw [he, c1] at hf ⊢
    rw [g1] at hf
    have g5' := g5 c2 f' hf
    rw [hf] at g4
    simp only at g4
    cases hl : last_record_format g.parsed with
    | some x =>
      rw [hl] at w2
      simp only at w2 ⊢
      have hne : a.opts.record_format ≠ .SC_RECORD_FORMAT_AUTO := by
        rcases w2 with ⟨-, h⟩ | ⟨-, h⟩ <;> rw [h] <;> decide
      rw [if_neg hne] at g4
      rw [g4]
      exact w2
    | none =>
      rw [hl] at w2
      simp only at w2 ⊢
      rw [w2, hdef, if_pos rfl] at g4
      rw [g4] at g5' ⊢
      obtain ⟨e1, e2, -⟩ := guess_record_format_eq f'
      cases hg : guess_record_format f' with
      | SC_RECORD_FORMAT_AUTO => exact absurd hg g5'
      | SC_RECORD_FORMAT_MP4 => exact Or.inl ⟨e1.mp hg, rfl⟩
      | SC_RECORD_FORMAT_MKV => exact Or.inr ⟨e2.mp hg, rfl⟩
  refine ⟨part1 f, ?_⟩
  intro hl hfn hbad
  cases hok : (scrcpy_parse_args d b args g).1
  · rfl
  · exfalso
    obtain ⟨a, hw, hc, he⟩ := scrcpy_parse_args_ok d b args g hok
    obtain ⟨c1, -, -, -⟩ := scrcpy_parse_args_checks_ok a g.remaining hc
    obtain ⟨g1, -, -, -, -⟩ := scrcpy_parse_args_guess_fields a
    obtain ⟨w1, -, -, -⟩ := scrcpy_parse_args_while_fields d b g.parsed args a hw
    rw [hfn] at w1
    simp only at w1
    have hf : (scrcpy_parse_args d b args g).2.opts.record_filename = some f := by
      rw [he, c1, g1, w1]
    have := part1 f hok hf
    rw [hl] at this
    simp only at this
    have hends : ends_with f ['.', 'm', 'p', '4'] ∨ ends_with f ['.', 'm', 'k', 'v'] := by
      rcases this with ⟨h, -⟩ | ⟨h, -⟩
      · exact Or.inl h
      · exact Or.inr h
    rcases hbad with hlen | ⟨n1, n2⟩
    · rcases hends with h | h <;>
      · have := ends_with_length _ _ h
        simp only [List.length_cons, List.length_nil] at this
        omega
    · rcases hends with h | h
      · exact n1 h
      · exact n2 h

/-- C10 at a concrete input: `-r .mp4` alone gives the MP4 format. -/
theorem scrcpy_parse_args_record_format_witness :
    sample_args.opts.record_format = .SC_RECORD_FORMAT_AUTO ∧
    ((ends_with ['.', 'm', 'p', '4'] ['.', 'm', 'p', '4'] ∧
      (scrcpy_parse_args sample_deps sample_build sample_args
        ⟨[(short_option 'r', ['.', 'm', 'p', '4'])], 0⟩).2.opts.record_format =
        .SC_RECORD_FORMAT_MP4) ∨
     (ends_with ['.', 'm', 'p', '4'] ['.', 'm', 'k', 'v'] ∧
      (scrcpy_parse_args sample_deps sample_build sample_args
        ⟨[(short_option 'r', ['.', 'm', 'p', '4'])], 0⟩).2.opts.record_format =
        .SC_RECORD_FORMAT_MKV)) :=
  ⟨rfl, (scrcpy_parse_args_record_format sample_deps sample_build sample_args
    ⟨[(short_option 'r', ['.', 'm', 'p', '4'])], 0⟩ ['.', 'm', 'p', '4'] rfl).1
    (by decide) (by decide)⟩

/-! ### The consumers of the stream -/

theorem consumers_ok_append (b : Build) (options : scrcpy_options) (t cs : List Call)
    (hc : ∀ s dec rec sink, Call.stream_init s dec rec sink ∉ cs)
    (h : consumers_ok b options t) : consumers_ok b options (t ++ cs) := by
  intro s dec rec sink hm
  rcases List.mem_append.mp hm with hm | hm
  · exact h s dec rec sink hm
  · exact absurd hm (hc s dec rec sink)

theorem consumers_ok_call (b : Build) (options : scrcpy_options) (l : locals) (c : Call)
    (hc : ∀ s dec rec sink, c ≠ Call.stream_init s dec rec sink)
    (h : consumers_ok b options l.trace) : consumers_ok b options (l.call c).trace :=
  consumers_ok_append b options l.trace [c]
    (fun s dec rec sink hm => hc s dec rec sink (List.mem_singleton.mp hm).symm) h

theorem consumers_ok_ite (b : Build) (options : scrcpy_options) (l : locals) (p : Bool)
    (c : Call) (hc : ∀ s dec rec sink, c ≠ Call.stream_init s dec rec sink)
    (h : consumers_ok b options l.trace) :
    consumers_ok b options (if p = true then l.call c else l).trace := by
  cases p
  · exact h
  · exact consumers_ok_call b options l c hc h

theorem consumers_connect (b : Build) (env : Env) (options : scrcpy_options) (l : locals)
    (h : consumers_ok b options l.trace) :
    consumers_ok b options (scrcpy_connect b env options l).vars.trace := by
  have hs : ∀ s dec rec sink, Call.stream_init s dec rec sink ∉
      (sdl_init_and_configure b env options.display options.disable_screensaver).2 :=
    fun s dec rec sink hm =>
      absurd (sdl_init_no_header b env options.display options.disable_screensaver _ hm)
        (by simp [Call.uses_header])
  have h1 := consumers_ok_call b options l (.server_start options.serial
    { log_level := options.log_level
      crop := options.crop
      port_range := options.port_range
      max_size := options.max_size
      bit_rate := options.bit_rate
      max_fps := options.max_fps
      lock_video_orientation := options.lock_video_orientation
      control := options.control
      display_id := options.display_id
      show_touches := options.show_touches
      stay_awake := options.stay_awake
      codec_options := options.codec_options
      encoder_name := options.encoder_name
      force_adb_forward := options.force_adb_forward }) (by simp) h
  have h2 := consumers_ok_append b options _ _ hs h1
  have h3 := consumers_ok_append b options _ [.server_connect_to] (by simp) h2
  unfold scrcpy_connect
  simp only [locals.call, locals.calls] at h1 h2 h3 ⊢
  cases env.server_start
  · exact h1
  · cases (sdl_init_and_configure b env options.display options.disable_screensaver).1
    · exact h2
    · cases env.server_connect_to with
      | none => exact h3
      | some p =>
        obtain ⟨vs, cs⟩ := p
        have h4 := consumers_ok_append b options _ [.device_read_info vs] (by simp) h3
        cases hr : env.device_read_info vs with
        | none =>
          simp only [Bool.not_true, Bool.false_eq_true, if_false, hr]
          exact h4
        | some q =>
          simp only [Bool.not_true, Bool.false_eq_true, if_false, hr]
          exact h4

theorem consumers_file_handler (b : Build) (env : Env) (options : scrcpy_options)
    (l : locals) (h : consumers_ok b options l.trace) :
    consumers_ok b options (scrcpy_file_handler env options l).vars.trace ∧
    ∀ l', scrcpy_file_handler env options l = .next l' → l'.dec = l.dec := by
  unfold scrcpy_file_handler
  cases options.control <;> cases env.file_handler_init
  · exact ⟨h, fun l' e => by cases e; rfl⟩
  · exact ⟨h, fun l' e => by cases e; rfl⟩
  · exact ⟨consumers_ok_call b options l _ (by simp) h, fun l' e => by cases e⟩
  · exact ⟨consumers_ok_call b options l _ (by simp) h, fun l' e => by cases e; rfl⟩

theorem flow.bind_next_eq (f : flow) (k : locals → flow) (l' : locals)
    (h : f.bind k = .next l') : ∃ l1, f = .next l1 ∧ k l1 = .next l' := by
  cases f with
  | next l1 => exact ⟨l1, rfl, h⟩
  | goto_end l1 => cases h

theorem consumers_display (b : Build) (env : Env) (options : scrcpy_options) (l : locals)
    (h : consumers_ok b options l.trace) :
    consumers_ok b options (scrcpy_display env options l).vars.trace ∧
    ∀ l', scrcpy_display env options l = .next l' → l'.dec = options.display := by
  have h1 : consumers_ok b options ({ l with dec := false }.call .fps_counter_init).trace :=
    consumers_ok_call b options _ _ (by simp) h
  have h2 : consumers_ok b options
      (({ l with dec := false }.call .fps_counter_init).call
        (.video_buffer_init options.render_expired_frames)).trace :=
    consumers_ok_call b options _ _ (by simp) h1
  unfold scrcpy_display
  cases hd : options.display
  · exact ⟨h, fun l' e => by cases e; rfl⟩
  · cases env.fps_counter_init
    · exact ⟨h1, fun l' e => by cases e⟩
    · cases env.video_buffer_init
      · exact ⟨h2, fun l' e => by cases e⟩
      · simp only [Bool.not_true, Bool.false_eq_true, if_false, if_true]
        refine ⟨?_, ?_⟩
        · apply flow.bind_vars (fun l => consumers_ok b options l.trace)
          · apply (consumers_file_handler b env options _ _).1
            exact h2
          · exact fun l1 f1 => consumers_ok_call b options l1 .decoder_init (by simp) f1
        · intro l' e
          obtain ⟨l1, -, e2⟩ := flow.bind_next_eq _ _ _ e
          cases e2
          rfl

theorem consumers_recorder (b : Build) (env : Env) (options : scrcpy_options) (l : locals)
    (h : consumers_ok b options l.trace) :
    consumers_ok b options (scrcpy_recorder env options l).vars.trace ∧
    ∀ l', scrcpy_recorder env options l = .next l' →
      l'.dec = l.dec ∧ l'.rec_ = options.record_filename.isSome := by
  unfold scrcpy_recorder
  cases hr : options.record_filename.isSome <;> cases env.recorder_init
  · exact ⟨h, fun l' e => by cases e; exact ⟨rfl, rfl⟩⟩
  · exact ⟨h, fun l' e => by cases e; exact ⟨rfl, rfl⟩⟩
  · exact ⟨consumers_ok_call b options l _ (by simp) h, fun l' e => by cases e⟩
  · exact ⟨consumers_ok_call b options l _ (by simp) h,
      fun l' e => by cases e; exact ⟨rfl, rfl⟩⟩

theorem consumers_v4l2sink (b : Build) (env : Env) (options : scrcpy_options) (l : locals)
    (h : consumers_ok b options l.trace) :
    consumers_ok b options (scrcpy_v4l2sink b env options l).vars.trace ∧
    ∀ l', scrcpy_v4l2sink b env options l = .next l' →
      l'.dec = l.dec ∧ l'.rec_ = l.rec_ ∧
        l'.sink = (b.V4L2SINK && options.v4l2sink_device.isSome) := by
  unfold scrcpy_v4l2sink
  cases hb : b.V4L2SINK <;> cases hr : options.v4l2sink_device.isSome <;>
    cases env.v4l2sink_init
  all_goals refine ⟨?_, fun l' e => ?_⟩
  all_goals first
    | exact h
    | exact consumers_ok_call b options l _ (by simp) h
    | (cases e; exact ⟨rfl, rfl, rfl⟩)
    | cases e

theorem consumers_stream (b : Build) (env : Env) (options : scrcpy_options) (l : locals)
    (h : consumers_ok b options l.trace) (hd : l.dec = options.display)
    (hr : l.rec_ = options.record_filename.isSome)
    (hk : l.sink = (b.V4L2SINK && options.v4l2sink_device.isSome)) :
    consumers_ok b options (scrcpy_stream env l).vars.trace := by
  have h1 : consumers_ok b options (l.call .av_log_set_callback).trace :=
    consumers_ok_call b options l _ (by simp) h
  have h2 : consumers_ok b options
      ((l.call .av_log_set_callback).call
        (.stream_init l.video_socket l.dec l.rec_ l.sink)).trace := by
    intro s dec rec sink hm
    rcases List.mem_append.mp hm with hm | hm
    · exact h1 s dec rec sink hm
    · have := List.mem_singleton.mp hm
      simp only [Call.stream_init.injEq] at this
      obtain ⟨-, e1, e2, e3⟩ := this
      exact ⟨e1.trans hd, e2.trans hr, e3.trans hk⟩
  have h3 := consumers_ok_call b options _ .stream_start (by simp) h2
  unfold scrcpy_stream
  cases env.stream_start <;> exact h3

theorem consumers_controller (b : Build) (env : Env) (options : scrcpy_options) (l : locals)
    (h : consumers_ok b options l.trace) :
    consumers_ok b options (scrcpy_controller env options l).vars.trace := by
  have h1 : consumers_ok b options (l.call (.controller_init l.control_socket)).trace :=
    consumers_ok_call b options l _ (by simp) h
  have h2 := consumers_ok_call b options _ .controller_start (by simp) h1
  unfold scrcpy_controller
  cases options.control <;> cases env.controller_init <;> cases env.controller_start <;>
    first
    | exact h
    | exact h1
    | exact h2

theorem consumers_screen (b : Build) (env : Env) (options : scrcpy_options) (l : locals)
    (h : consumers_ok b options l.trace) :
    consumers_ok b options (scrcpy_screen env options l).vars.trace := by
  unfold scrcpy_screen
  cases options.display
  · exact h
  · apply flow.bind_vars (fun l => consumers_ok b options l.trace)
    · exact consumers_controller b env options l h
    · intro l' h'
      have h1 := consumers_ok_call b options l'
        (.screen_init_rendering
          (match options.window_title with
            | some t => t
            | none => l'.device_name) l'.frame_size options.always_on_top
          options.window_x options.window_y options.window_width options.window_height
          options.window_borderless options.rotation options.mipmaps)
        (by simp) h'
      cases env.screen_init_rendering
      · exact h1
      · exact consumers_ok_ite b options _ options.fullscreen .screen_switch_fullscreen
          (by simp) (consumers_ok_ite b options _ options.turn_screen_off _ (by simp) h1)

theorem consumers_run (b : Build) (env : Env) (options : scrcpy_options) (l : locals)
    (h : consumers_ok b options l.trace) :
    consumers_ok b options (scrcpy_run b env options l).vars.trace := by
  have hl := event_loop_calls b options env.events l.screen_has_frame
  have h1 : consumers_ok b options ((l.call .input_manager_init).call .event_loop).trace :=
    consumers_ok_call b options _ _ (by simp)
      (consumers_ok_call b options _ _ (by simp) h)
  have h2 := consumers_ok_append b options _
    (event_loop b options env.events l.screen_has_frame).2.2
    (fun s dec rec sink hm => absurd (loop_uses_no_header _ (hl _ hm)).1
      (by simp [Call.uses_header])) h1
  exact consumers_ok_append b options _ [.screen_destroy] (by simp) h2

/-- Every `stream_init` that scrcpy() calls is handed the consumers that the
options ask for. -/
theorem scrcpy_consumers (b : Build) (env : Env) (options : scrcpy_options) :
    consumers_ok b options (scrcpy b env options).2 := by
  cases hi : env.server_init
  · intro s dec rec sink hm
    simp [scrcpy, hi] at hm
  · simp only [scrcpy, hi, Bool.not_true, Bool.false_eq_true, if_false]
    apply consumers_ok_append
    · intro s dec rec sink hm
      exact absurd (cleanup_uses_no_header _ (scrcpy_end_cleanup b _ _ hm)).1
        (by simp [Call.uses_header])
    have h0 : consumers_ok b options (scrcpy_locals env).trace := by
      intro s dec rec sink hm
      simp [scrcpy_locals] at hm
    have h1 := consumers_connect b env options _ h0
    unfold scrcpy_body
    generalize scrcpy_connect b env options (scrcpy_locals env) = f1 at h1 ⊢
    cases f1 with
    | goto_end l1 => exact h1
    | next l1 =>
      obtain ⟨h2, d2⟩ := consumers_display b env options l1 h1
      simp only [flow.bind]
      generalize scrcpy_display env options l1 = f2 at h2 d2 ⊢
      cases f2 with
      | goto_end l2 => exact h2
      | next l2 =>
        obtain ⟨h3, d3⟩ := consumers_recorder b env options l2 h2
        simp only [flow.bind]
        generalize scrcpy_recorder env options l2 = f3 at h3 d3 ⊢
        cases f3 with
        | goto_end l3 => exact h3
        | next l3 =>
          obtain ⟨h4, d4⟩ := consumers_v4l2sink b env options l3 h3
          simp only [flow.bind]
          generalize scrcpy_v4l2sink b env options l3 = f4 at h4 d4 ⊢
          cases f4 with
          | goto_end l4 => exact h4
          | next l4 =>
            simp only [flow.bind]
            obtain ⟨e1, e2, e3⟩ := d4 l4 rfl
            obtain ⟨e4, e5⟩ := d3 l3 rfl
            have e6 := d2 l2 rfl
            have h5 := consumers_stream b env options l4 h4
              (by rw [e1, e4, e6]) (by rw [e2, e5]) e3
            apply flow.bind_vars (fun l => consumers_ok b options l.trace) _ _ _
              (fun l h => consumers_run b env options l h)
            apply flow.bind_vars (fun l => consumers_ok b options l.trace) _ _ _
              (fun l h => consumers_screen b env options l h)
            exact h5

/-- C9: `scrcpy_parse_args` returns false when `-N` is given and, after the
options, neither a record file name nor a sink device is set; and for the
options of a successful parse (the sink device being unset at the start when the
v4l2 sink is not compiled in), every `stream_init` of scrcpy() is handed at
least one consumer: the decoder iff display is enabled, the recorder iff a
record file name is set, the v4l2 sink iff a sink device is set. -/
theorem scrcpy_parse_args_keeps_a_consumer (d : Deps) (b : Build) (args : scrcpy_cli_args)
    (g : getopt_run) :
    ((∃ o ∈ g.parsed, o.1 = short_option 'N') →
      (scrcpy_parse_args_while d b args g.parsed).2.opts.record_filename = none →
      (scrcpy_parse_args_while d b args g.parsed).2.opts.v4l2sink_device = none →
      (scrcpy_parse_args d b args g).1 = false) ∧
    ((scrcpy_parse_args d b args g).1 = true →
      (b.V4L2SINK = true ∨ args.opts.v4l2sink_device = none) →
      ∀ env s dec rec sink,
        Call.stream_init s dec rec sink ∈
          (scrcpy b env (scrcpy_parse_args d b args g).2.opts).2 →
        (dec = true ∨ rec = true ∨ sink = true) ∧
        (dec = true ↔ (scrcpy_parse_args d b args g).2.opts.display = true) ∧
        (rec = true ↔ (scrcpy_parse_args d b args g).2.opts.record_filename ≠ none) ∧
        (sink = true ↔ (scrcpy_parse_args d b args g).2.opts.v4l2sink_device ≠ none)) := by
  constructor
  · rintro ⟨o, ho, hN⟩ hf hv
    cases hok : (scrcpy_parse_args d b args g).1
    · rfl
    · exfalso
      obtain ⟨a, hw, hc, -⟩ := scrcpy_parse_args_ok d b args g hok
      obtain ⟨-, -, c3, -⟩ := scrcpy_parse_args_checks_ok a g.remaining hc
      obtain ⟨-, -, w3, -⟩ := scrcpy_parse_args_while_fields d b g.parsed args a hw
      rw [hw] at hf hv
      rcases c3 with h | h | h
      · exact (w3 h).2 o ho hN
      · exact h hf
      · exact h hv
  · intro hok hsink env s dec rec sink hm
    obtain ⟨a, hw, hc, he⟩ := scrcpy_parse_args_ok d b args g hok
    obtain ⟨c1, -, c3, -⟩ := scrcpy_parse_args_checks_ok a g.remaining hc
    obtain ⟨g1, g2, g3, -, -⟩ := scrcpy_parse_args_guess_fields a
    obtain ⟨-, -, -, w4⟩ := scrcpy_parse_args_while_fields d b g.parsed args a hw
    obtain ⟨e1, e2, e3⟩ := scrcpy_consumers b env _ s dec rec sink hm
    rw [he, c1] at e1 e2 e3 ⊢
    rw [g1, g2, g3]
    rw [g2] at e1
    rw [g1] at e2
    rw [g3] at e3
    have hs : sink = a.opts.v4l2sink_device.isSome := by
      rcases hsink with hb | hn
      · rw [e3, hb]; rfl
      · cases hb : b.V4L2SINK
        · rw [e3, hb, w4 hb, hn]; rfl
        · rw [e3, hb]; rfl
    subst e1 e2 hs
    refine ⟨?_, Iff.rfl, ?_, ?_⟩
    · rcases c3 with h | h | h
      · exact Or.inl h
      · exact Or.inr (Or.inl (by
          cases hx : a.opts.record_filename with
          | none => exact absurd hx h
          | some x => rfl))
      · exact Or.inr (Or.inr (by
          cases hx : a.opts.v4l2sink_device with
          | none => exact absurd hx h
          | some x => rfl))
    · cases a.opts.record_filename <;> simp
    · cases a.opts.v4l2sink_device <;> simp

/-- C9 at a concrete input: `-N -r a.mkv` is accepted, and `stream_init` is
handed the recorder only. -/
theorem scrcpy_parse_args_keeps_a_consumer_witness :
    (scrcpy_parse_args sample_deps sample_build sample_args
      ⟨[(short_option 'N', []), (short_option 'r', ['a', '.', 'm', 'k', 'v'])], 0⟩).1 = true ∧
    (sample_build.V4L2SINK = true ∨ sample_args.opts.v4l2sink_device = none) ∧
    Call.stream_init 3 false true false ∈
      (scrcpy sample_build sample_env (scrcpy_parse_args sample_deps sample_build sample_args
        ⟨[(short_option 'N', []), (short_option 'r', ['a', '.', 'm', 'k', 'v'])], 0⟩).2.opts).2 ∧
    (false = true ∨ true = true ∨ false = true) :=
  ⟨by decide, Or.inl rfl, by decide,
    ((scrcpy_parse_args_keeps_a_consumer sample_deps sample_build sample_args
      ⟨[(short_option 'N', []), (short_option 'r', ['a', '.', 'm', 'k', 'v'])], 0⟩).2
      (by decide) (Or.inl rfl) sample_env 3 false true false (by decide)).1⟩

/-! ### The arguments that come from the options -/

theorem all_expected_append (options : scrcpy_options) (t cs : List Call)
    (hc : all_expected options cs) (h : all_expected options t) :
    all_expected options (t ++ cs) := by
  intro c hm
  rcases List.mem_append.mp hm with hm | hm
  · exact h c hm
  · exact hc c hm

theorem all_expected_call (options : scrcpy_options) (l : locals) (c : Call)
    (hc : c.expected options = true) (h : all_expected options l.trace) :
    all_expected options (l.call c).trace :=
  all_expected_append options l.trace [c]
    (fun x hx => by rw [List.mem_singleton.mp hx]; exact hc) h

theorem handle_event_expected (options : scrcpy_options) (e : SDL_Event) (u hf : Bool) :
    all_expected options (handle_event options e u hf).2.2 := by
  unfold all_expected handle_event
  split <;> (try split) <;> simp_all [Call.expected]

theorem event_loop_while_expected (options : scrcpy_options) (evs : List loop_input) :
    ∀ hf, all_expected options (event_loop_while options evs hf).2.2 := by
  induction evs with
  | nil =>
    intro hf c hc
    simp only [event_loop_while, List.mem_singleton] at hc
    subst hc
    rfl
  | cons i rest ih =>
    intro hf
    have h := handle_event_expected options i.event i.screen_update_frame hf
    rw [event_loop_while_cons]
    cases (handle_event options i.event i.screen_update_frame hf).1
    · exact all_expected_append options [.SDL_WaitEvent] _
        (all_expected_append options _ _ (ih _) h)
        (fun x hx => by rw [List.mem_singleton.mp hx]; rfl)
    · exact all_expected_append options [.SDL_WaitEvent] _ h
        (fun x hx => by rw [List.mem_singleton.mp hx]; rfl)
    · exact all_expected_append options [.SDL_WaitEvent] _ h
        (fun x hx => by rw [List.mem_singleton.mp hx]; rfl)

theorem event_loop_expected (b : Build) (options : scrcpy_options) (evs : List loop_input)
    (hf : Bool) : all_expected options (event_loop b options evs hf).2.2 := by
  unfold event_loop
  apply all_expected_append _ _ _ (event_loop_while_expected options evs hf)
  intro c hc
  split at hc
  · rw [List.mem_singleton.mp hc]; rfl
  · cases hc

theorem sdl_init_expected (b : Build) (env : Env) (options : scrcpy_options) :
    all_expected options
      (sdl_init_and_configure b env options.display options.disable_screensaver).2 := by
  unfold all_expected sdl_init_and_configure
  cases env.SDL_Init_ok <;> cases b.WIN32 <;> cases hd : options.display <;>
    cases hs : options.disable_screensaver <;> simp [Call.expected, hd, hs]

theorem cleanup_expected (options : scrcpy_options) (c : Call) (h : c.is_cleanup = true) :
    c.expected options = true := by
  cases c <;> first | rfl | exact absurd h (by simp)

theorem expected_connect (b : Build) (env : Env) (options : scrcpy_options) (l : locals)
    (h : all_expected options l.trace) :
    all_expected options (scrcpy_connect b env options l).vars.trace := by
  have h1 := all_expected_call options l (.server_start options.serial
    (server_params_of options)) (by simp [Call.expected]) h
  have h2 := all_expected_append options _ _ (sdl_init_expected b env options) h1
  have h3 := all_expected_append options _ [.server_connect_to]
    (fun x hx => by rw [List.mem_singleton.mp hx]; rfl) h2
  unfold scrcpy_connect
  simp only [locals.call, locals.calls, server_params_of] at h1 h2 h3 ⊢
  cases env.server_start
  · exact h1
  · cases (sdl_init_and_configure b env options.display options.disable_screensaver).1
    · exact h2
    · cases env.server_connect_to with
      | none => exact h3
      | some p =>
        obtain ⟨vs, cs⟩ := p
        have h4 := all_expected_append options _ [.device_read_info vs]
          (fun x hx => by rw [List.mem_singleton.mp hx]; rfl) h3
        cases hr : env.device_read_info vs with
        | none =>
          simp only [Bool.not_true, Bool.false_eq_true, if_false, hr]
          exact h4
        | some q =>
          simp only [Bool.not_true, Bool.false_eq_true, if_false, hr]
          exact h4

theorem expected_file_handler (env : Env) (options : scrcpy_options)
    (l : locals) (h : all_expected options l.trace) :
    all_expected options (scrcpy_file_handler env options l).vars.trace := by
  unfold scrcpy_file_handler
  cases options.control <;> cases env.file_handler_init <;>
    first
    | exact h
    | exact all_expected_call options l _ (by simp [Call.expected]) h

theorem expected_display (env : Env) (options : scrcpy_options) (l : locals)
    (h : all_expected options l.trace) :
    all_expected options (scrcpy_display env options l).vars.trace := by
  have h1 : all_expected options (l.call .fps_counter_init).trace :=
    all_expected_call options _ _ rfl h
  have h2 : all_expected options
      ((l.call .fps_counter_init).call
        (.video_buffer_init options.render_expired_frames)).trace :=
    all_expected_call options _ _ (by simp [Call.expected]) h1
  unfold scrcpy_display
  cases options.display
  · exact h
  · cases env.fps_counter_init
    · exact h1
    · cases env.video_buffer_init
      · exact h2
      · apply flow.bind_vars (fun l => all_expected options l.trace)
        · exact expected_file_handler env options _ h2
        · intro l' h'
          exact all_expected_call options l' .decoder_init rfl h'

theorem expected_recorder (env : Env) (options : scrcpy_options) (l : locals)
    (h : all_expected options l.trace) :
    all_expected options (scrcpy_recorder env options l).vars.trace := by
  unfold scrcpy_recorder
  cases options.record_filename.isSome <;> cases env.recorder_init <;>
    first
    | exact h
    | exact all_expected_call options l _ (by simp [Call.expected]) h

theorem expected_v4l2sink (b : Build) (env : Env) (options : scrcpy_options) (l : locals)
    (h : all_expected options l.trace) :
    all_expected options (scrcpy_v4l2sink b env options l).vars.trace := by
  unfold scrcpy_v4l2sink
  cases b.V4L2SINK <;> cases options.v4l2sink_device.isSome <;> cases env.v4l2sink_init <;>
    first
    | exact h
    | exact all_expected_call options l _ (by simp [Call.expected]) h

theorem expected_stream (env : Env) (options : scrcpy_options) (l : locals)
    (h : all_expected options l.trace) :
    all_expected options (scrcpy_stream env l).vars.trace := by
  have h1 : all_expected options (l.call .av_log_set_callback).trace :=
    all_expected_call options l _ rfl h
  have h2 : all_expected options
      ((l.call .av_log_set_callback).call
        (.stream_init l.video_socket l.dec l.rec_ l.sink)).trace :=
    all_expected_call options _ _ rfl h1
  have h3 := all_expected_call options _ .stream_start rfl h2
  unfold scrcpy_stream
  cases env.stream_start <;> exact h3

theorem expected_controller (env : Env) (options : scrcpy_options) (l : locals)
    (h : all_expected options l.trace) :
    all_expected options (scrcpy_controller env options l).vars.trace := by
  have h1 : all_expected options (l.call (.controller_init l.control_socket)).trace :=
    all_expected_call options l _ rfl h
  have h2 := all_expected_call options _ .controller_start rfl h1
  unfold scrcpy_controller
  cases options.control <;> cases env.controller_init <;> cases env.controller_start <;>
    first
    | exact h
    | exact h1
    | exact h2

theorem expected_screen (env : Env) (options : scrcpy_options) (l : locals)
    (h : all_expected options l.trace) :
    all_expected options (scrcpy_screen env options l).vars.trace := by
  unfold scrcpy_screen
  cases options.display
  · exact h
  · apply flow.bind_vars (fun l => all_expected options l.trace)
    · exact expected_controller env options l h
    · intro l' h'
      have h1 := all_expected_call options l'
        (.screen_init_rendering
          (match options.window_title with
            | some t => t
            | none => l'.device_name) l'.frame_size options.always_on_top
          options.window_x options.window_y options.window_width options.window_height
          options.window_borderless options.rotation options.mipmaps)
        (by simp only [Call.expected]; cases options.window_title <;> simp) h'
      cases env.screen_init_rendering
      · exact h1
      · cases ht : options.turn_screen_off <;> cases hfs : options.fullscreen
        · exact h1
        · exact all_expected_call options _ .screen_switch_fullscreen
            (by simp [Call.expected, hfs]) h1
        · exact all_expected_call options _ _ (by simp [Call.expected, ht]) h1
        · exact all_expected_call options _ .screen_switch_fullscreen
            (by simp [Call.expected, hfs])
            (all_expected_call options _ _ (by simp [Call.expected, ht]) h1)

theorem expected_run (b : Build) (env : Env) (options : scrcpy_options) (l : locals)
    (h : all_expected options l.trace) :
    all_expected options (scrcpy_run b env options l).vars.trace := by
  have h1 : all_expected options ((l.call .input_manager_init).call .event_loop).trace :=
    all_expected_call options _ _ rfl (all_expected_call options _ _ rfl h)
  have h2 := all_expected_append options _ _
    (event_loop_expected b options env.events l.screen_has_frame) h1
  exact all_expected_append options _ [.screen_destroy]
    (fun x hx => by rw [List.mem_singleton.mp hx]; rfl) h2

/-- Every call that scrcpy() makes is one it can make under the options: the
arguments that come from the options have the values of the options. -/
theorem scrcpy_calls_expected (b : Build) (env : Env) (options : scrcpy_options) :
    all_expected options (scrcpy b env options).2 := by
  cases hi : env.server_init
  · intro c hc
    simp only [scrcpy, hi, Bool.not_false, if_true, List.mem_singleton] at hc
    subst hc
    rfl
  · simp only [scrcpy, hi, Bool.not_true, Bool.false_eq_true, if_false]
    apply all_expected_append
    · intro c hc
      exact cleanup_expected options c (scrcpy_end_cleanup b _ c hc)
    unfold scrcpy_body
    apply flow.bind_vars (fun l => all_expected options l.trace) _ _ _
      (fun l h => expected_run b env options l h)
    apply flow.bind_vars (fun l => all_expected options l.trace) _ _ _
      (fun l h => expected_screen env options l h)
    apply flow.bind_vars (fun l => all_expected options l.trace) _ _ _
      (fun l h => expected_stream env options l h)
    apply flow.bind_vars (fun l => all_expected options l.trace) _ _ _
      (fun l h => expected_v4l2sink b env options l h)
    apply flow.bind_vars (fun l => all_expected options l.trace) _ _ _
      (fun l h => expected_recorder env options l h)
    apply flow.bind_vars (fun l => all_expected options l.trace) _ _ _
      (fun l h => expected_display env options l h)
    apply expected_connect
    intro c hc
    simp only [scrcpy_locals, List.mem_singleton] at hc
    subst hc
    rfl

/-! ### The frame buffer -/

theorem video_buffer_pushes_default (frames : List Frame) :
    ∀ vb : video_buffer, vb.render_expired_frames = false →
      (video_buffer_pushes vb frames).render_expired_frames = false ∧
      (video_buffer_pushes vb frames).received = vb.received + frames.length ∧
      (video_buffer_pushes vb frames).rendered = vb.rendered ∧
      (video_buffer_pushes vb frames).ready =
        match frames.getLast? with
        | some f => [f]
        | none => vb.ready := by
  induction frames with
  | nil => intro vb h; exact ⟨h, rfl, rfl, rfl⟩
  | cons f fs ih =>
    intro vb h
    obtain ⟨h1, h2, h3, h4⟩ := ih (video_buffer_push vb f) h
    simp only [video_buffer_pushes, List.foldl_cons] at h1 h2 h3 h4 ⊢
    refine ⟨h1, ?_, h3, ?_⟩
    · rw [h2]
      simp [video_buffer_push]
      omega
    · rw [h4]
      cases fs with
      | nil => simp [video_buffer_push, h]
      | cons g gs =>
        rw [List.getLast?_cons_cons, List.getLast?_eq_getLast _ (List.cons_ne_nil g gs)]

/-- C6: under the default policy, after a non-empty sequence of pushes with no
consume in between, one consume returns the last pushed frame, a second consume
returns nothing, `received` has grown by the number of pushes (it equals that
number for a buffer fresh from `video_buffer_init false`), and `rendered` has
grown by one; and the policy flag that scrcpy() hands to `video_buffer_init` is
the option `render_expired_frames`. -/
theorem video_buffer_drop_latest (vb : video_buffer) (frames : List Frame)
    (hvb : vb.render_expired_frames = false) (hne : frames ≠ []) :
    (video_buffer_consume (video_buffer_pushes vb frames)).1 = some (frames.getLast hne) ∧
    (video_buffer_consume (video_buffer_consume (video_buffer_pushes vb frames)).2).1 = none ∧
    (video_buffer_pushes vb frames).received = vb.received + frames.length ∧
    (video_buffer_consume (video_buffer_pushes vb frames)).2.received =
      vb.received + frames.length ∧
    (video_buffer_consume (video_buffer_pushes vb frames)).2.rendered = vb.rendered + 1 ∧
    (video_buffer_pushes (video_buffer_init false) frames).received = frames.length ∧
    (∀ b env options r, Call.video_buffer_init r ∈ (scrcpy b env options).2 →
      r = options.render_expired_frames) := by
  obtain ⟨-, h2, h3, h4⟩ := video_buffer_pushes_default frames vb hvb
  obtain ⟨-, h2', -, -⟩ := video_buffer_pushes_default frames (video_buffer_init false) rfl
  rw [List.getLast?_eq_getLast _ hne] at h4
  have h0 : (video_buffer_init false).received = 0 := rfl
  rw [h0, Nat.zero_add] at h2'
  simp only [video_buffer_consume, h4, h2, h3, h2', true_and]
  intro b env options r hm
  have := scrcpy_calls_expected b env options _ hm
  simpa [Call.expected] using this

/-- C6 at a concrete input: pushing F1, F2, F3 and consuming once returns F3,
with received = 3. -/
theorem video_buffer_drop_latest_witness :
    (video_buffer_consume (video_buffer_pushes (video_buffer_init false) [1, 2, 3])).1 =
      some 3 ∧
    (video_buffer_consume
      (video_buffer_consume (video_buffer_pushes (video_buffer_init false) [1, 2, 3])).2).1 =
      none ∧
    (video_buffer_pushes (video_buffer_init false) [1, 2, 3]).received = 3 :=
  have h := video_buffer_drop_latest (video_buffer_init false) [1, 2, 3] rfl (by decide)
  ⟨h.1, h.2.1, h.2.2.2.2.2.1⟩

/-! ### The argument parsers of cli.c -/

theorem to_int8_of_range (v : Int) (h1 : -128 ≤ v) (h2 : v ≤ 127) : to_int8 v = v := by
  unfold to_int8; omega

theorem to_int16_of_range (v : Int) (h1 : -32768 ≤ v) (h2 : v ≤ 32767) : to_int16 v = v := by
  unfold to_int16; omega

/-- The result of `parse_integer_arg` without suffix, by cases on what
`parse_integer` gives. -/
theorem parse_integer_arg_none (d : Deps) (s : CStr) (min max : Int)
    (h : d.parse_integer s = none) : parse_integer_arg d s false min max = none := by
  simp [parse_integer_arg, h]

theorem parse_integer_arg_in (d : Deps) (s : CStr) (min max v : Int)
    (h : d.parse_integer s = some v) (h1 : min ≤ v) (h2 : v ≤ max) :
    parse_integer_arg d s false min max = some v := by
  have : ¬ (v < min ∨ max < v) := by omega
  simp [parse_integer_arg, h, this]

theorem parse_integer_arg_out (d : Deps) (s : CStr) (min max v : Int)
    (h : d.parse_integer s = some v) (h1 : v < min ∨ max < v) :
    parse_integer_arg d s false min max = none := by
  simp [parse_integer_arg, h, h1]

/-- C16: `parse_lock_video_orientation` returns true iff `parse_integer`
succeeds with a value among -1, 0, 1, 2, 3; it then stores exactly that value;
otherwise it returns false and the destination keeps its value. -/
theorem parse_lock_video_orientation_spec (d : Deps) (s : CStr) (dest : Int) :
    ((parse_lock_video_orientation d s dest).1 = true ↔
      ∃ value, d.parse_integer s = some value ∧ value ∈ ([-1, 0, 1, 2, 3] : List Int)) ∧
    (∀ value, d.parse_integer s = some value → value ∈ ([-1, 0, 1, 2, 3] : List Int) →
      parse_lock_video_orientation d s dest = (true, value)) ∧
    ((parse_lock_video_orientation d s dest).1 = false →
      (parse_lock_video_orientation d s dest).2 = dest) := by
  have mem : ∀ v : Int, v ∈ ([-1, 0, 1, 2, 3] : List Int) ↔ -1 ≤ v ∧ v ≤ 3 := by
    intro v
    simp only [List.mem_cons, List.mem_singleton, List.not_mem_nil, or_false]
    omega
  unfold parse_lock_video_orientation
  rcases h : d.parse_integer s with _ | v
  · rw [parse_integer_arg_none d s _ _ h]
    refine ⟨⟨fun hf => ?_, ?_⟩, ?_, fun _ => rfl⟩
    · cases hf
    · rintro ⟨x, hx, -⟩
      cases hx
    · intro x hx
      cases hx
  · by_cases hr : -1 ≤ v ∧ v ≤ 3
    · rw [parse_integer_arg_in d s _ _ v h hr.1 hr.2]
      dsimp only
      rw [to_int8_of_range v (by omega) (by omega)]
      refine ⟨⟨fun _ => ⟨v, rfl, (mem v).mpr hr⟩, fun _ => rfl⟩, ?_, ?_⟩
      · intro x hx _
        cases hx
        rfl
      · intro hf
        cases hf
    · rw [parse_integer_arg_out d s _ _ v h (by omega)]
      refine ⟨⟨fun hf => ?_, ?_⟩, ?_, fun _ => rfl⟩
      · cases hf
      · rintro ⟨x, hx, hm⟩
        cases hx
        exact absurd ((mem v).mp hm) hr
      · intro x hx hm
        cases hx
        exact absurd ((mem v).mp hm) hr

/-- C16 at a concrete input: "2" is accepted and stored. -/
theorem parse_lock_video_orientation_spec_witness :
    parse_lock_video_orientation sample_deps ['2'] (-1) = (true, 2) :=
  (parse_lock_video_orientation_spec sample_deps ['2'] (-1)).2.1 2 (by decide) (by decide)

/-- C17: `parse_window_position` yields `SC_WINDOW_POSITION_UNDEFINED`, which
is -0x8000, for exactly the argument "auto"; every other accepted argument is an
integer of [-0x7FFF, 0x7FFF], stored unchanged and different from the sentinel;
an integer outside of the range, or no integer, is rejected and the
destination keeps its value. -/
theorem parse_window_position_spec (d : Deps) (s : CStr) (dest : Int) :
    SC_WINDOW_POSITION_UNDEFINED = -0x8000 ∧
    (parse_window_position d s dest = (true, SC_WINDOW_POSITION_UNDEFINED) ↔
      s = ['a', 'u', 't', 'o']) ∧
    (s ≠ ['a', 'u', 't', 'o'] → (parse_window_position d s dest).1 = true →
      ∃ value, d.parse_integer s = some value ∧ -0x7FFF ≤ value ∧ value ≤ 0x7FFF ∧
        (parse_window_position d s dest).2 = value ∧
        value ≠ SC_WINDOW_POSITION_UNDEFINED) ∧
    (s ≠ ['a', 'u', 't', 'o'] → ∀ value, d.parse_integer s = some value →
      -0x7FFF ≤ value → value ≤ 0x7FFF → parse_window_position d s dest = (true, value)) ∧
    (s ≠ ['a', 'u', 't', 'o'] → ∀ value, d.parse_integer s = some value →
      value < -0x7FFF ∨ 0x7FFF < value → parse_window_position d s dest = (false, dest)) ∧
    (s ≠ ['a', 'u', 't', 'o'] → d.parse_integer s = none →
      parse_window_position d s dest = (false, dest)) := by
  refine ⟨rfl, ?_⟩
  unfold parse_window_position
  by_cases hs : s = ['a', 'u', 't', 'o']
  · rw [if_pos hs]
    exact ⟨⟨fun _ => hs, fun _ => rfl⟩, fun h => absurd hs h, fun h => absurd hs h,
      fun h => absurd hs h, fun h => absurd hs h⟩
  · rw [if_neg hs]
    rcases h : d.parse_integer s with _ | v
    · rw [parse_integer_arg_none d s _ _ h]
      refine ⟨⟨fun hf => ?_, fun e => absurd e hs⟩, fun _ hf => ?_, fun _ x hx => ?_,
        fun _ x hx => ?_, fun _ _ => rfl⟩
      · cases hf
      · cases hf
      · cases hx
      · cases hx
    · by_cases hr : -0x7FFF ≤ v ∧ v ≤ 0x7FFF
      · rw [parse_integer_arg_in d s _ _ v h hr.1 hr.2]
        dsimp only
        rw [to_int16_of_range v (by omega) (by omega)]
        have ne : v ≠ SC_WINDOW_POSITION_UNDEFINED := by
          unfold SC_WINDOW_POSITION_UNDEFINED
          omega
        refine ⟨⟨fun e => ?_, fun e => absurd e hs⟩, fun _ _ => ⟨v, rfl, hr.1, hr.2, rfl, ne⟩,
          fun _ x hx _ _ => ?_, fun _ x hx hx2 => ?_, fun _ hn => ?_⟩
        · exact absurd (congrArg Prod.snd e) ne
        · cases hx
          rfl
        · cases hx
          omega
        · cases hn
      · rw [parse_integer_arg_out d s _ _ v h (by omega)]
        refine ⟨⟨fun hf => ?_, fun e => absurd e hs⟩, fun _ hf => ?_, fun _ x hx h1 h2 => ?_,
          fun _ x hx _ => rfl, fun _ hn => ?_⟩
        · cases hf
        · cases hf
        · cases hx
          exact absurd ⟨h1, h2⟩ hr
        · cases hn

/-- C17 at a concrete input: "100" is accepted and stored in place of the
sentinel. -/
theorem parse_window_position_spec_witness :
    parse_window_position sample_deps ['1', '0', '0'] SC_WINDOW_POSITION_UNDEFINED =
      (true, 100) :=
  (parse_window_position_spec sample_deps ['1', '0', '0'] SC_WINDOW_POSITION_UNDEFINED).2.2.2.1
    (by decide) 100 (by decide) (by decide) (by decide)

theorem to_uint16_of_range (v : Int) (h1 : 0 ≤ v) (h2 : v ≤ 65535) : to_uint16 v = v := by
  unfold to_uint16; omega

/-- The values that `parse_integers_arg` hands on: all of them when there is one
at least and each is within the bounds, none otherwise. -/
theorem parse_integers_arg_eq (d : Deps) (s : CStr) (n : Nat) (min max : Int) :
    parse_integers_arg d s n min max =
      if d.parse_integers s ':' n ≠ [] ∧ ∀ v ∈ d.parse_integers s ':' n, min ≤ v ∧ v ≤ max
      then d.parse_integers s ':' n else [] := by
  unfold parse_integers_arg
  generalize d.parse_integers s ':' n = l
  cases l with
  | nil => simp
  | cons a t =>
    simp only [List.length_cons, Nat.add_one_ne_zero, if_false, ne_eq, reduceCtorEq,
      not_false_eq_true, true_and]
    by_cases h : ∀ v ∈ a :: t, min ≤ v ∧ v ≤ max
    · rw [if_pos h, if_pos]
      rw [List.all_eq_true]
      intro v hv
      have := h v hv
      simp only [Bool.not_eq_true', Bool.or_eq_false_iff, decide_eq_false_iff_not, not_lt]
      omega
    · rw [if_neg h, if_neg]
      intro hall
      apply h
      intro v hv
      have := List.all_eq_true.mp hall v hv
      simp only [Bool.not_eq_true', Bool.or_eq_false_iff, decide_eq_false_iff_not, not_lt] at this
      omega

/-- C11: for the list `l` of at most 2 integers that `parse_integers` extracts,
`parse_port_range` fails iff `l` is empty or holds a value outside of
[0, 65535], and then `port_range` keeps its value; for one value `a` the range
is `a..a`; for two values the range runs from the smaller to the larger one, so
`first ≤ last` on every success; an argument that gives the same values in
reverse order gives the same result. -/
theorem parse_port_range_spec (d : Deps) (s : CStr) (port_range : sc_port_range)
    (hlen : (d.parse_integers s ':' 2).length ≤ 2) :
    ((parse_port_range d s port_range).1 = false ↔
      d.parse_integers s ':' 2 = [] ∨ ∃ v ∈ d.parse_integers s ':' 2, v < 0 ∨ 65535 < v) ∧
    ((parse_port_range d s port_range).1 = false →
      (parse_port_range d s port_range).2 = port_range) ∧
    (∀ a, d.parse_integers s ':' 2 = [a] → 0 ≤ a → a ≤ 65535 →
      parse_port_range d s port_range = (true, { first := a, last := a })) ∧
    (∀ a b, d.parse_integers s ':' 2 = [a, b] → 0 ≤ a → a ≤ 65535 → 0 ≤ b → b ≤ 65535 →
      parse_port_range d s port_range = (true, { first := min a b, last := max a b })) ∧
    ((parse_port_range d s port_range).1 = true →
      (parse_port_range d s port_range).2.first ≤ (parse_port_range d s port_range).2.last) ∧
    (∀ s', d.parse_integers s' ':' 2 = (d.parse_integers s ':' 2).reverse →
      parse_port_range d s' port_range = parse_port_range d s port_range) := by
  have key : ∀ l : List Int, l.length ≤ 2 → ∀ s1, d.parse_integers s1 ':' 2 = l →
      parse_port_range d s1 port_range =
        match l with
        | [] => (false, port_range)
        | [a] => if 0 ≤ a ∧ a ≤ 65535 then (true, { first := a, last := a })
                 else (false, port_range)
        | a :: b :: _ =>
          if 0 ≤ a ∧ a ≤ 65535 ∧ 0 ≤ b ∧ b ≤ 65535
          then (true, { first := min a b, last := max a b })
          else (false, port_range) := by
    intro l hl s1 e
    unfold parse_port_range
    rw [parse_integers_arg_eq, e]
    match l, hl with
    | [], _ => simp
    | [a], _ =>
      by_cases h : 0 ≤ a ∧ a ≤ 65535
      · simp [h, to_uint16_of_range a h.1 h.2]
      · simp [h]
    | [a, b], _ =>
      by_cases h : 0 ≤ a ∧ a ≤ 65535 ∧ 0 ≤ b ∧ b ≤ 65535
      · obtain ⟨h1, h2, h3, h4⟩ := h
        simp only [ne_eq, reduceCtorEq, not_false_eq_true, List.mem_cons, List.mem_singleton,
          forall_eq_or_imp, forall_eq, List.not_mem_nil, false_implies, implies_true, and_true,
          h1, h2, h3, h4, and_self, if_true, to_uint16_of_range a h1 h2, to_uint16_of_range b h3 h4]
        by_cases hab : a < b
        · simp [hab, min_eq_left (le_of_lt hab), max_eq_right (le_of_lt hab)]
        · have hba : b ≤ a := by omega
          simp [hab, min_eq_right hba, max_eq_left hba]
      · have h' : ¬ ((0 ≤ a ∧ a ≤ 65535) ∧ 0 ≤ b ∧ b ≤ 65535) := by
          intro hh; exact h ⟨hh.1.1, hh.1.2, hh.2.1, hh.2.2⟩
        simp [h, h']
    | _ :: _ :: _ :: _, hl => simp at hl
  generalize hl : d.parse_integers s ':' 2 = l at hlen ⊢
  have k := key l hlen s hl
  match l, hlen, hl, k with
  | [], _, hl, k =>
    rw [k]
    refine ⟨by simp, fun _ => by trivial, by simp, by simp, by simp, ?_⟩
    intro s' e'
    rw [key [] (by simp) s' (by simpa using e')]
  | [a], _, hl, k =>
    rw [k]
    by_cases h : 0 ≤ a ∧ a ≤ 65535
    · simp only [h, and_self, if_true]
      refine ⟨?_, by simp, ?_, by simp, by simp, ?_⟩
      · simp; omega
      · intro x hx _ _; cases hx; rfl
      · intro s' e'
        rw [key [a] (by simp) s' (by simpa using e')]
        simp [h]
    · simp only [h, if_false]
      refine ⟨?_, fun _ => by trivial, ?_, by simp, by simp, ?_⟩
      · simp; omega
      · intro x hx h1 h2; cases hx; exact absurd ⟨h1, h2⟩ h
      · intro s' e'
        rw [key [a] (by simp) s' (by simpa using e')]
        simp [h]
  | [a, b], _, hl, k =>
    rw [k]
    by_cases h : 0 ≤ a ∧ a ≤ 65535 ∧ 0 ≤ b ∧ b ≤ 65535
    · simp only [h, and_self, if_true]
      refine ⟨?_, by simp, by simp, ?_, ?_, ?_⟩
      · simp; omega
      · intro x y hx _ _ _ _
        simp only [List.cons.injEq, and_true] at hx
        obtain ⟨rfl, rfl⟩ := hx
        rfl
      · intro _; exact min_le_max
      · intro s' e'
        rw [key [b, a] (by simp) s' (by simpa using e')]
        have h' : 0 ≤ b ∧ b ≤ 65535 ∧ 0 ≤ a ∧ a ≤ 65535 := ⟨h.2.2.1, h.2.2.2, h.1, h.2.1⟩
        simp only [h', and_self, if_true, min_comm b a, max_comm b a]
    · simp only [h, if_false]
      refine ⟨?_, fun _ => by trivial, by simp, ?_, by simp, ?_⟩
      · simp; omega
      · intro x y hx h1 h2 h3 h4
        simp only [List.cons.injEq, and_true] at hx
        obtain ⟨rfl, rfl⟩ := hx
        exact absurd ⟨h1, h2, h3, h4⟩ h
      · intro s' e'
        rw [key [b, a] (by simp) s' (by simpa using e')]
        have h' : ¬ (0 ≤ b ∧ b ≤ 65535 ∧ 0 ≤ a ∧ a ≤ 65535) := by
          intro hh; exact h ⟨hh.2.2.1, hh.2.2.2, hh.1, hh.2.1⟩
        simp only [h', if_false]
  | _ :: _ :: _ :: _, hlen, _, _ => simp at hlen

/-- C11 at a concrete input: the values 27199 and 27183 give the range
27183..27199. -/
theorem parse_port_range_spec_witness :
    (({ sample_deps with parse_integers := fun _ _ _ => [27199, 27183] } : Deps).parse_integers
        "27199:27183".toList ':' 2).length ≤ 2 ∧
    parse_port_range { sample_deps with parse_integers := fun _ _ _ => [27199, 27183] }
        "27199:27183".toList { first := 0, last := 0 } =
      (true, { first := 27183, last := 27199 }) :=
  ⟨by decide,
   (parse_port_range_spec { sample_deps with parse_integers := fun _ _ _ => [27199, 27183] }
      "27199:27183".toList { first := 0, last := 0 } (by decide)).2.2.2.1 27199 27183 rfl
      (by decide) (by decide) (by decide) (by decide)⟩

/-! ### Events without control, dropped files -/

/-- The function `is_apk` accepts exactly the names that end with ".apk". -/
theorem is_apk_iff (file : CStr) :
    is_apk file = true ↔ ends_with file ['.', 'a', 'p', 'k'] := by
  constructor
  · intro h
    unfold is_apk at h
    split at h
    · cases h
    · rename_i i _
      refine ⟨file.take (file.length - 1 - i), ?_⟩
      have e : file.drop (file.length - 1 - i) = ['.', 'a', 'p', 'k'] := by
        simpa using h
      conv_lhs => rw [← List.take_append_drop (file.length - 1 - i) file]
      rw [e]
  · rintro ⟨pre, rfl⟩
    unfold is_apk
    have e : (pre ++ ['.', 'a', 'p', 'k']).reverse.indexOf? '.' = some 3 := by
      simp [List.indexOf?, List.findIdx?_cons]
    rw [e]
    simp

theorem is_apk_no_dot (file : CStr) (h : '.' ∉ file) : is_apk file = false := by
  cases hb : is_apk file with
  | false => rfl
  | true =>
    obtain ⟨pre, rfl⟩ := (is_apk_iff file).mp hb
    exact absurd (by simp) h

/-- C14: on an `SDL_DROPFILE` event with control enabled `handle_event` makes
exactly one call, a `file_handler_request` for the dropped path, with the action
`ACTION_INSTALL_APK` when the name ends with ".apk" and `ACTION_PUSH_FILE` when
it does not (so for every name without a dot); `is_apk` accepts exactly the
names that end with ".apk"; with control disabled it makes no call. -/
theorem handle_event_drop_file (options : scrcpy_options) (e : SDL_Event) (u hf : Bool)
    (ht : e.type = .SDL_DROPFILE) :
    (options.control = true → ends_with e.drop_file ['.', 'a', 'p', 'k'] →
      (handle_event options e u hf).2.2 =
        [.file_handler_request .ACTION_INSTALL_APK e.drop_file]) ∧
    (options.control = true → ¬ ends_with e.drop_file ['.', 'a', 'p', 'k'] →
      (handle_event options e u hf).2.2 =
        [.file_handler_request .ACTION_PUSH_FILE e.drop_file]) ∧
    (options.control = true → '.' ∉ e.drop_file →
      (handle_event options e u hf).2.2 =
        [.file_handler_request .ACTION_PUSH_FILE e.drop_file]) ∧
    (is_apk e.drop_file = true ↔ ends_with e.drop_file ['.', 'a', 'p', 'k']) ∧
    (options.control = false → (handle_event options e u hf).2.2 = []) := by
  have key : (handle_event options e u hf).2.2 =
      if !options.control then []
      else [.file_handler_request
        (if is_apk e.drop_file then .ACTION_INSTALL_APK else .ACTION_PUSH_FILE) e.drop_file] := by
    unfold handle_event
    rw [ht]
    dsimp only
    cases options.control <;> rfl
  rw [key]
  refine ⟨fun hc he => ?_, fun hc he => ?_, fun hc hd => ?_, is_apk_iff _, fun hc => ?_⟩
  · rw [hc, (is_apk_iff _).mpr he]
    rfl
  · have : is_apk e.drop_file = false := by
      cases hb : is_apk e.drop_file with
      | false => rfl
      | true => exact absurd ((is_apk_iff _).mp hb) he
    rw [hc, this]
    rfl
  · rw [hc, is_apk_no_dot _ hd]
    rfl
  · rw [hc]
    rfl

/-- C14 at concrete inputs: "app.apk" is installed, "app.APK" is pushed. -/
theorem handle_event_drop_file_witness :
    (⟨.SDL_DROPFILE, "app.apk".toList, 0⟩ : SDL_Event).type = .SDL_DROPFILE ∧
    (handle_event sample_options ⟨.SDL_DROPFILE, "app.apk".toList, 0⟩ false true).2.2 =
      [.file_handler_request .ACTION_INSTALL_APK "app.apk".toList] ∧
    (handle_event sample_options ⟨.SDL_DROPFILE, "app.APK".toList, 0⟩ false true).2.2 =
      [.file_handler_request .ACTION_PUSH_FILE "app.APK".toList] :=
  ⟨rfl,
   (handle_event_drop_file sample_options ⟨.SDL_DROPFILE, "app.apk".toList, 0⟩ false true
      rfl).1 rfl ⟨"app".toList, rfl⟩,
   by decide⟩

/-- C13: with control disabled `handle_event` makes no text-input, mouse-motion,
mouse-wheel or file-handler call, and hands key and mouse-button events on to
the input manager; but it hands every finger event (`SDL_FINGERMOTION`,
`SDL_FINGERDOWN`, `SDL_FINGERUP`) on to the input manager as well: that case
has no test of `options->control`. -/
theorem handle_event_without_control (options : scrcpy_options) (e : SDL_Event)
    (u hf : Bool) (hc : options.control = false) :
    (e.type = .SDL_FINGERMOTION ∨ e.type = .SDL_FINGERDOWN ∨ e.type = .SDL_FINGERUP →
      (handle_event options e u hf).2.2 = [.input_manager_process_touch e]) ∧
    (e.type = .SDL_KEYDOWN ∨ e.type = .SDL_KEYUP →
      (handle_event options e u hf).2.2 = [.input_manager_process_key e]) ∧
    (e.type = .SDL_MOUSEBUTTONDOWN ∨ e.type = .SDL_MOUSEBUTTONUP →
      (handle_event options e u hf).2.2 = [.input_manager_process_mouse_button e]) ∧
    (e.type = .SDL_TEXTINPUT ∨ e.type = .SDL_MOUSEMOTION ∨ e.type = .SDL_MOUSEWHEEL ∨
        e.type = .SDL_DROPFILE → (handle_event options e u hf).2.2 = []) ∧
    (∀ c ∈ (handle_event options e u hf).2.2, ∀ e' action file,
      c ≠ .input_manager_process_text_input e' ∧ c ≠ .input_manager_process_mouse_motion e' ∧
      c ≠ .input_manager_process_mouse_wheel e' ∧ c ≠ .file_handler_request action file) := by
  refine ⟨?_, ?_, ?_, ?_, ?_⟩
  · rintro (h | h | h) <;> (unfold handle_event; rw [h])
  · rintro (h | h) <;> (unfold handle_event; rw [h])
  · rintro (h | h) <;> (unfold handle_event; rw [h])
  · rintro (h | h | h | h) <;> (unfold handle_event; rw [h, hc]; rfl)
  · unfold handle_event
    rw [hc]
    simp only [Bool.not_false, if_true]
    split <;> (try split) <;> first
      | (simp; done)
      | (rintro c hc1 e' action file
         simp only [List.mem_append, List.mem_singleton] at hc1
         rcases hc1 with hc1 | rfl
         · split at hc1
           · simp only [List.mem_singleton] at hc1
             subst hc1
             simp
           · cases hc1
         · simp)

/-- C13 at a concrete input: with control disabled an `SDL_FINGERDOWN` event is
handed on to `input_manager_process_touch`. -/
theorem handle_event_without_control_witness :
    ({ sample_options with control := false } : scrcpy_options).control = false ∧
    (handle_event { sample_options with control := false } ⟨.SDL_FINGERDOWN, [], 0⟩
        false true).2.2 = [.input_manager_process_touch ⟨.SDL_FINGERDOWN, [], 0⟩] :=
  ⟨rfl,
   (handle_event_without_control { sample_options with control := false }
      ⟨.SDL_FINGERDOWN, [], 0⟩ false true rfl).1 (Or.inr (Or.inl rfl))⟩

/-! ### The screen power message -/

theorem quiet_call (l : locals) (c : Call) (hc : c.is_push_or_loop = false)
    (h : quiet l) : quiet (l.call c) := by
  unfold quiet at h ⊢
  simp only [locals.call, made_append, made_singleton, not_or]
  exact ⟨h, by simp [hc]⟩

theorem sdl_init_quiet (b : Build) (env : Env) (d s : Bool) :
    ¬ made Call.is_push_or_loop (sdl_init_and_configure b env d s).2 := by
  unfold sdl_init_and_configure
  cases env.SDL_Init_ok <;> cases b.WIN32 <;> cases d <;> cases s <;>
    simp [Call.is_push_or_loop]

theorem quiet_connect (b : Build) (env : Env) (options : scrcpy_options) (l : locals)
    (h : quiet l) : quiet (scrcpy_connect b env options l).vars := by
  have s3 := sdl_init_quiet b env options.display options.disable_screensaver
  unfold quiet at h ⊢
  unfold scrcpy_connect
  simp only [locals.call, locals.calls]
  cases env.server_start
  · simp [h, Call.is_push_or_loop]
  · cases (sdl_init_and_configure b env options.display options.disable_screensaver).1
    · simp [h, s3, Call.is_push_or_loop]
    · cases env.server_connect_to with
      | none => simp [h, s3, Call.is_push_or_loop]
      | some p =>
        obtain ⟨vs, cs⟩ := p
        cases hr : env.device_read_info vs with
        | none =>
          simp only [Bool.not_true, Bool.false_eq_true, if_false, hr]
          simp [h, s3, Call.is_push_or_loop]
        | some q =>
          simp only [Bool.not_true, Bool.false_eq_true, if_false, hr]
          simp [h, s3, Call.is_push_or_loop]

theorem quiet_file_handler (env : Env) (options : scrcpy_options) (l : locals)
    (h : quiet l) : quiet (scrcpy_file_handler env options l).vars := by
  unfold scrcpy_file_handler
  cases options.control <;> cases env.file_handler_init <;>
    first
    | exact h
    | exact quiet_call l _ rfl h

theorem quiet_display (env : Env) (options : scrcpy_options) (l : locals)
    (h : quiet l) : quiet (scrcpy_display env options l).vars := by
  have h1 : quiet (l.call .fps_counter_init) := quiet_call l _ rfl h
  have h2 : quiet
      ((l.call .fps_counter_init).call (.video_buffer_init options.render_expired_frames)) :=
    quiet_call _ _ rfl h1
  unfold scrcpy_display
  cases options.display
  · exact h
  · cases env.fps_counter_init
    · exact h1
    · cases env.video_buffer_init
      · exact h2
      · apply flow.bind_vars quiet
        · exact quiet_file_handler env options _ h2
        · intro l' h'
          exact quiet_call l' .decoder_init rfl h'

theorem quiet_recorder (env : Env) (options : scrcpy_options) (l : locals)
    (h : quiet l) : quiet (scrcpy_recorder env options l).vars := by
  unfold scrcpy_recorder
  cases options.record_filename.isSome <;> cases env.recorder_init <;>
    first
    | exact h
    | exact quiet_call l _ rfl h

theorem quiet_v4l2sink (b : Build) (env : Env) (options : scrcpy_options) (l : locals)
    (h : quiet l) : quiet (scrcpy_v4l2sink b env options l).vars := by
  unfold scrcpy_v4l2sink
  cases b.V4L2SINK <;> cases options.v4l2sink_device.isSome <;> cases env.v4l2sink_init <;>
    first
    | exact h
    | exact quiet_call l _ rfl h

theorem quiet_stream (env : Env) (l : locals)
    (h : quiet l) : quiet (scrcpy_stream env l).vars := by
  have h1 : quiet (l.call .av_log_set_callback) := quiet_call l _ rfl h
  have h2 : quiet
      ((l.call .av_log_set_callback).call (.stream_init l.video_socket l.dec l.rec_ l.sink)) :=
    quiet_call _ _ rfl h1
  have h3 := quiet_call _ .stream_start rfl h2
  unfold scrcpy_stream
  cases env.stream_start <;> exact h3

theorem quiet_controller (env : Env) (options : scrcpy_options) (l : locals)
    (h : quiet l) : quiet (scrcpy_controller env options l).vars := by
  have h1 : quiet (l.call (.controller_init l.control_socket)) := quiet_call l _ rfl h
  have h2 := quiet_call _ .controller_start rfl h1
  unfold scrcpy_controller
  cases options.control <;> cases env.controller_init <;> cases env.controller_start <;>
    first
    | exact h
    | exact h1
    | exact h2

theorem quiet_count (l : locals) (h : quiet l) :
    Call.event_loop ∉ l.trace ∧ ∀ m, Call.controller_push_msg m ∉ l.trace := by
  unfold quiet made at h
  refine ⟨fun hm => h ⟨_, hm, rfl⟩, fun m hm => h ⟨_, hm, rfl⟩⟩

/-- The second display block of scrcpy(), entered with no control message
pushed: when it runs to its end, the screen power message has been pushed once
if display and `turn_screen_off` are set and no message otherwise, and the
event loop has not been entered. -/
theorem scrcpy_screen_power (env : Env) (options : scrcpy_options) (l l' : locals)
    (h : quiet l) (e : scrcpy_screen env options l = .next l') :
    Call.event_loop ∉ l'.trace ∧
    (∀ m, Call.controller_push_msg m ∈ l'.trace →
      m = screen_off_msg ∧ options.display = true ∧ options.turn_screen_off = true) ∧
    l'.trace.count (.controller_push_msg screen_off_msg) =
      if options.display = true ∧ options.turn_screen_off = true then 1 else 0 := by
  unfold scrcpy_screen at e
  cases hd : options.display
  · rw [hd] at e
    simp only [Bool.false_eq_true, if_false, flow.next.injEq] at e
    subst e
    obtain ⟨q1, q2⟩ := quiet_count l h
    refine ⟨q1, fun m hm => absurd hm (q2 m), ?_⟩
    simp only [Bool.false_eq_true, false_and, if_false]
    exact List.count_eq_zero.mpr (q2 _)
  · rw [hd] at e
    simp only [if_true] at e
    obtain ⟨l1, e1, e2⟩ := flow.bind_next_eq _ _ _ e
    have hq : quiet l1 := by
      have := quiet_controller env options l h
      rw [e1] at this
      exact this
    obtain ⟨q1, q2⟩ := quiet_count l1 hq
    cases hs : env.screen_init_rendering
    · rw [hs] at e2
      simp at e2
    · rw [hs] at e2
      simp only [Bool.not_true, Bool.false_eq_true, if_false, flow.next.injEq] at e2
      subst e2
      cases ht : options.turn_screen_off <;> cases hfs : options.fullscreen <;>
        simp [q1, q2, screen_off_msg, List.count_eq_zero.mpr (q2 _)]

/-- When scrcpy() enters the event loop, its trace is the trace `l.trace` of the
start-up, in which the screen power message occurs once if display and
`turn_screen_off` are set and no control message occurs otherwise, followed by
`input_manager_init`, the entry into the loop, the calls of the loop,
`screen_destroy` and the clean-up. -/
theorem scrcpy_trace_power (b : Build) (env : Env) (options : scrcpy_options)
    (hl : Call.event_loop ∈ (scrcpy b env options).2) :
    ∃ l l' : locals,
      (scrcpy b env options).2 =
        l.trace ++ [.input_manager_init, .event_loop] ++
          (event_loop b options env.events l.screen_has_frame).2.2 ++ [.screen_destroy] ++
          scrcpy_end b l' ∧
      Call.event_loop ∉ l.trace ∧
      (∀ m, Call.controller_push_msg m ∈ l.trace →
        m = screen_off_msg ∧ options.display = true ∧ options.turn_screen_off = true) ∧
      l.trace.count (.controller_push_msg screen_off_msg) =
        if options.display = true ∧ options.turn_screen_off = true then 1 else 0 := by
  cases hi : env.server_init
  · simp [scrcpy, hi] at hl
  · simp only [scrcpy, hi, Bool.not_true, Bool.false_eq_true, if_false] at hl ⊢
    have hq : quiet ((((((scrcpy_connect b env options (scrcpy_locals env)).bind
        (scrcpy_display env options)).bind
        (scrcpy_recorder env options)).bind
        (scrcpy_v4l2sink b env options)).bind
        (scrcpy_stream env))).vars := by
      apply flow.bind_vars quiet _ _ _ (fun l h => quiet_stream env l h)
      apply flow.bind_vars quiet _ _ _ (fun l h => quiet_v4l2sink b env options l h)
      apply flow.bind_vars quiet _ _ _ (fun l h => quiet_recorder env options l h)
      apply flow.bind_vars quiet _ _ _ (fun l h => quiet_display env options l h)
      apply quiet_connect
      simp [quiet, scrcpy_locals, Call.is_push_or_loop]
    unfold scrcpy_body at hl ⊢
    generalize ((((((scrcpy_connect b env options (scrcpy_locals env)).bind
        (scrcpy_display env options)).bind
        (scrcpy_recorder env options)).bind
        (scrcpy_v4l2sink b env options)).bind
        (scrcpy_stream env))) = f at hq hl ⊢
    cases f with
    | goto_end l0 =>
      rw [flow.bind_goto_end, flow.bind_goto_end, flow.vars,
        mem_end b l0 .event_loop _ rfl] at hl
      exact absurd hl (quiet_count l0 hq).1
    | next l0 =>
      simp only [flow.vars] at hq
      have hb := quiet_controller env options l0 hq
      cases hs : scrcpy_screen env options l0 with
      | goto_end l1 =>
        have h0 : Call.event_loop ∉ l1.trace := by
          have key : ∀ l2, quiet l2 → Call.event_loop ∉ (scrcpy_screen env options l2).vars.trace := by
            intro l2 h2
            unfold scrcpy_screen
            cases options.display
            · exact (quiet_count l2 h2).1
            · simp only [if_true]
              have h3 := quiet_controller env options l2 h2
              generalize scrcpy_controller env options l2 = fc at h3 ⊢
              cases fc with
              | goto_end l3 => exact (quiet_count l3 h3).1
              | next l3 =>
                have q1 := (quiet_count l3 h3).1
                simp only [flow.bind]
                cases env.screen_init_rendering <;> cases options.turn_screen_off <;>
                  cases options.fullscreen <;> simp [q1]
          have := key l0 hq
          rw [hs] at this
          exact this
        simp only [flow.bind, hs, flow.vars] at hl
        rw [mem_end b l1 .event_loop _ rfl] at hl
        exact absurd hl h0
      | next l1 =>
        obtain ⟨p1, p2, p3⟩ := scrcpy_screen_power env options l0 l1 hq hs
        refine ⟨l1, (scrcpy_run b env options l1).vars, ?_, p1, p2, p3⟩
        simp only [flow.bind, hs]
        congr 1
        simp only [scrcpy_run, flow.vars, locals.call, locals.calls,
          List.append_assoc, List.singleton_append, List.cons_append, List.nil_append]

/-- One turn of the option loop sets `turn_screen_off` for `-S` and leaves it
as it is for every other option. -/
theorem scrcpy_parse_args_switch_screen_off (d : Deps) (b : Build) (args : scrcpy_cli_args)
    (c : Int) (optarg : CStr) :
    (scrcpy_parse_args_switch d b args c optarg).2.opts.turn_screen_off =
      if c = short_option 'S' then true else args.opts.turn_screen_off := by
  by_cases hS : c = short_option 'S'
  · subst hS
    simp [scrcpy_parse_args_switch, short_option, OPT_CROP, OPT_DISPLAY_ID, OPT_RECORD_FORMAT,
      OPT_MAX_FPS, OPT_LOCK_VIDEO_ORIENTATION]
  · rw [if_neg hS]
    unfold scrcpy_parse_args_switch
    repeat' refine ite_prop (fun r : Bool × scrcpy_cli_args =>
      r.2.opts.turn_screen_off = args.opts.turn_screen_off) _ _ _ (fun h => ?_) (fun h => ?_)
    all_goals first
      | rfl
      | exact absurd h hS

/-- The option loop, when it runs to its end, leaves `turn_screen_off` set iff
it was set before or `-S` is among the options. -/
theorem scrcpy_parse_args_while_screen_off (d : Deps) (b : Build)
    (parsed : List (Int × CStr)) :
    ∀ (args a' : scrcpy_cli_args), scrcpy_parse_args_while d b args parsed = (true, a') →
      (a'.opts.turn_screen_off = true ↔
        args.opts.turn_screen_off = true ∨ turn_screen_off_given parsed) := by
  induction parsed with
  | nil =>
    intro args a' h
    simp only [scrcpy_parse_args_while, Prod.mk.injEq, true_and] at h
    subst h
    simp [turn_screen_off_given]
  | cons o rest ih =>
    intro args a' h
    obtain ⟨-, hw⟩ := scrcpy_parse_args_while_cons d b args a' o rest h
    rw [ih _ a' hw, scrcpy_parse_args_switch_screen_off]
    unfold turn_screen_off_given
    by_cases ho : o.1 = short_option 'S'
    · simp [ho]
    · simp [ho]

theorem scrcpy_parse_args_guess_screen_off (args : scrcpy_cli_args) :
    (scrcpy_parse_args_guess args).2.opts.turn_screen_off = args.opts.turn_screen_off ∧
    (scrcpy_parse_args_guess args).2.opts.control = args.opts.control := by
  unfold scrcpy_parse_args_guess
  cases hf : args.opts.record_filename with
  | none => simp [hf]
  | some filename =>
    by_cases ha : args.opts.record_format = .SC_RECORD_FORMAT_AUTO
    · by_cases hg : guess_record_format filename = .SC_RECORD_FORMAT_AUTO
      · simp [hf, ha, hg]
      · simp [hf, ha, hg]
    · simp [hf, ha]

/-- The checks after the option loop reject `turn_screen_off` without control. -/
theorem scrcpy_parse_args_checks_control (args : scrcpy_cli_args) (remaining : Nat)
    (h : (scrcpy_parse_args_checks args remaining).1 = true)
    (ht : args.opts.turn_screen_off = true) : args.opts.control = true := by
  obtain ⟨g1, g2⟩ := scrcpy_parse_args_guess_screen_off args
  unfold scrcpy_parse_args_checks at h
  by_cases h1 : (!args.opts.display && args.opts.record_filename.isNone &&
      args.opts.v4l2sink_device.isNone) = true
  · rw [if_pos h1] at h; exact absurd h (by simp)
  rw [if_neg h1] at h
  by_cases h2 : 0 < remaining
  · rw [if_pos h2] at h; exact absurd h (by simp)
  rw [if_neg h2] at h
  by_cases h3 : (decide (args.opts.record_format ≠ .SC_RECORD_FORMAT_AUTO) &&
      args.opts.record_filename.isNone) = true
  · rw [if_pos h3] at h; exact absurd h (by simp)
  rw [if_neg h3] at h
  dsimp only at h
  cases h4 : (scrcpy_parse_args_guess args).1
  · rw [h4] at h; simp only [Bool.not_false, if_true] at h; exact absurd (h4 ▸ h) (by simp)
  rw [h4] at h
  simp only [Bool.not_true, Bool.false_eq_true, if_false] at h
  by_cases h5 : (!(scrcpy_parse_args_guess args).2.opts.control &&
      (scrcpy_parse_args_guess args).2.opts.turn_screen_off) = true
  · rw [if_pos h5] at h; exact absurd h (by simp)
  rw [g1, g2, ht] at h5
  simpa using h5

/-- What an accepted command line says about `turn_screen_off`: it is set iff
it was set before or `-S` is given, and then control is enabled. -/
theorem scrcpy_parse_args_screen_off (d : Deps) (b : Build) (args : scrcpy_cli_args)
    (g : getopt_run) (h : (scrcpy_parse_args d b args g).1 = true) :
    ((scrcpy_parse_args d b args g).2.opts.turn_screen_off = true ↔
      args.opts.turn_screen_off = true ∨ turn_screen_off_given g.parsed) ∧
    ((scrcpy_parse_args d b args g).2.opts.turn_screen_off = true →
      (scrcpy_parse_args d b args g).2.opts.control = true) := by
  obtain ⟨a, hw, hc, he⟩ := scrcpy_parse_args_ok d b args g h
  obtain ⟨c1, -, -, -⟩ := scrcpy_parse_args_checks_ok a g.remaining hc
  obtain ⟨g1, g2⟩ := scrcpy_parse_args_guess_screen_off a
  rw [he, c1, g1, g2]
  exact ⟨scrcpy_parse_args_while_screen_off d b g.parsed args a hw,
    fun ht => scrcpy_parse_args_checks_control a g.remaining hc ht⟩

/-- C15: the command line `-N -r a.mkv -S` is accepted with `turn_screen_off`
set, and in a run where every collaborator succeeds scrcpy() enters the event
loop without having pushed the screen power message that the claim, like the
help text of `-S`, promises: the message is pushed only inside
`if (options->display)`, and `scrcpy_parse_args`, which rejects `-S` together
with `-n`, does not reject it together with `-N`. -/
theorem scrcpy_no_screen_off_without_display :
    (scrcpy_parse_args sample_deps sample_build sample_args
      ⟨[(short_option 'N', []), (short_option 'r', ['a', '.', 'm', 'k', 'v']),
        (short_option 'S', [])], 0⟩).1 = true ∧
    (scrcpy_parse_args sample_deps sample_build sample_args
      ⟨[(short_option 'N', []), (short_option 'r', ['a', '.', 'm', 'k', 'v']),
        (short_option 'S', [])], 0⟩).2.opts.turn_screen_off = true ∧
    Call.event_loop ∈
      (scrcpy sample_build sample_env (scrcpy_parse_args sample_deps sample_build sample_args
        ⟨[(short_option 'N', []), (short_option 'r', ['a', '.', 'm', 'k', 'v']),
          (short_option 'S', [])], 0⟩).2.opts).2 ∧
    ((scrcpy sample_build sample_env (scrcpy_parse_args sample_deps sample_build sample_args
        ⟨[(short_option 'N', []), (short_option 'r', ['a', '.', 'm', 'k', 'v']),
          (short_option 'S', [])], 0⟩).2.opts).2.filter Call.is_push_or_loop) =
      [.event_loop] := by
  decide

/-- What scrcpy() does with the screen power message, for every command line
that `scrcpy_parse_args` accepts, if it enters the event loop: when `-S` is
given and display is enabled, control is enabled and the trace holds exactly
one `controller_push_msg`, with the message of type `SET_SCREEN_POWER_MODE` and
mode `OFF`, and it precedes the entry into the loop; when `-S` is not given
(and `turn_screen_off` was not set before), no control message is pushed; and
when `-S` is given with display disabled, no control message is pushed either,
so that the option is dropped. -/
theorem scrcpy_turn_screen_off (d : Deps) (b : Build) (args : scrcpy_cli_args)
    (g : getopt_run) (env : Env) (hdef : args.opts.turn_screen_off = false)
    (hp : (scrcpy_parse_args d b args g).1 = true)
    (hl : Call.event_loop ∈ (scrcpy b env (scrcpy_parse_args d b args g).2.opts).2) :
    (turn_screen_off_given g.parsed →
      (scrcpy_parse_args d b args g).2.opts.display = true →
      (scrcpy_parse_args d b args g).2.opts.control = true ∧
      (scrcpy b env (scrcpy_parse_args d b args g).2.opts).2.count
        (.controller_push_msg screen_off_msg) = 1 ∧
      (∀ m, Call.controller_push_msg m ∈
        (scrcpy b env (scrcpy_parse_args d b args g).2.opts).2 → m = screen_off_msg) ∧
      precedes (.controller_push_msg screen_off_msg) .event_loop
        (scrcpy b env (scrcpy_parse_args d b args g).2.opts).2) ∧
    (turn_screen_off_given g.parsed →
      (scrcpy_parse_args d b args g).2.opts.display = false →
      ∀ m, Call.controller_push_msg m ∉
        (scrcpy b env (scrcpy_parse_args d b args g).2.opts).2) ∧
    (¬ turn_screen_off_given g.parsed →
      ∀ m, Call.controller_push_msg m ∉
        (scrcpy b env (scrcpy_parse_args d b args g).2.opts).2) := by
  obtain ⟨s1, s2⟩ := scrcpy_parse_args_screen_off d b args g hp
  generalize (scrcpy_parse_args d b args g).2.opts = options at s1 s2 hl ⊢
  obtain ⟨l, l', e, p1, p2, p3⟩ := scrcpy_trace_power b env options hl
  have loop := event_loop_calls b options env.events l.screen_has_frame
  have fin := scrcpy_end_cleanup b l'
  have mem : ∀ m, Call.controller_push_msg m ∈ (scrcpy b env options).2 →
      Call.controller_push_msg m ∈ l.trace := by
    intro m hm
    rw [e] at hm
    simp only [List.mem_append] at hm
    rcases hm with (((hm | hm) | hm) | hm) | hm
    · exact hm
    · simp at hm
    · exact absurd (loop _ hm) (by simp [Call.is_loop])
    · simp at hm
    · exact absurd (fin _ hm) (by simp [Call.is_cleanup])
  refine ⟨fun hg hd => ?_, fun hg hd m hm => ?_, fun hg m hm => ?_⟩
  · have ht : options.turn_screen_off = true := s1.mpr (Or.inr hg)
    refine ⟨s2 ht, ?_, fun m hm => (p2 m (mem m hm)).1, ?_⟩
    · rw [e]
      simp only [List.count_append, p3, hd, ht, and_self, if_true]
      have z1 : List.count (Call.controller_push_msg screen_off_msg)
          (event_loop b options env.events l.screen_has_frame).2.2 = 0 :=
        List.count_eq_zero.mpr fun hm => absurd (loop _ hm) (by simp [Call.is_loop])
      have z2 : List.count (Call.controller_push_msg screen_off_msg) (scrcpy_end b l') = 0 :=
        List.count_eq_zero.mpr fun hm => absurd (fin _ hm) (by simp [Call.is_cleanup])
      rw [z1, z2]
      simp
    · rw [e]
      simp only [List.append_assoc]
      rw [precedes_append]
      refine ⟨precedes_of_not_mem _ _ _ (Or.inr p1), precedes_of_not_mem _ _ _ (Or.inl ?_),
        fun hc => absurd hc p1⟩
      intro hm
      simp only [List.mem_append] at hm
      rcases hm with hm | hm | hm | hm
      · simp at hm
      · exact absurd (loop _ hm) (by simp [Call.is_loop])
      · simp at hm
      · exact absurd (fin _ hm) (by simp [Call.is_cleanup])
  · have := (p2 m (mem m hm)).2.1
    rw [hd] at this
    cases this
  · have ht := (p2 m (mem m hm)).2.2
    rcases s1.mp ht with h0 | h0
    · rw [hdef] at h0; cases h0
    · exact hg h0

/-- With display enabled: `-S` alone is accepted, and in a run where every
collaborator succeeds the screen power message is pushed once. -/
theorem scrcpy_turn_screen_off_witness :
    sample_args.opts.turn_screen_off = false ∧
    (scrcpy_parse_args sample_deps sample_build sample_args
      ⟨[(short_option 'S', [])], 0⟩).1 = true ∧
    Call.event_loop ∈
      (scrcpy sample_build sample_env (scrcpy_parse_args sample_deps sample_build sample_args
        ⟨[(short_option 'S', [])], 0⟩).2.opts).2 ∧
    (scrcpy sample_build sample_env (scrcpy_parse_args sample_deps sample_build sample_args
        ⟨[(short_option 'S', [])], 0⟩).2.opts).2.count
      (.controller_push_msg screen_off_msg) = 1 :=
  ⟨rfl, by decide, by decide,
    ((scrcpy_turn_screen_off sample_deps sample_build sample_args ⟨[(short_option 'S', [])], 0⟩
      sample_env rfl (by decide) (by decide)).1 ⟨_, List.mem_singleton.mpr rfl, rfl⟩
      (by decide)).2.1⟩

/-! ### The shortcut modifiers -/

theorem indexOf_append_of_not_mem (c : Char) (k t : CStr) (h : c ∉ k) :
    (k ++ t).indexOf? c = (t.indexOf? c).map (fun i => i + k.length) := by
  unfold List.indexOf?
  rw [List.findIdx?_append]
  have e : List.findIdx? (fun x => x == c) k = none := by
    rw [List.findIdx?_eq_none_iff]
    intro x hx
    simp only [beq_eq_false_iff_ne, ne_eq]
    rintro rfl
    exact h hx
  rw [e]
  rfl

theorem indexOf_sep (c : Char) (k t : CStr) (h : c ∉ k) :
    (k ++ c :: t).indexOf? c = some k.length := by
  rw [indexOf_append_of_not_mem c k _ h]
  simp [List.indexOf?, List.findIdx?_cons]

theorem indexOf_none (c : Char) (k : CStr) (h : c ∉ k) : k.indexOf? c = none := by
  have := indexOf_append_of_not_mem c k [] h
  simpa [List.indexOf?] using this

theorem indexOf_ge (c : Char) (k t : CStr) (h : c ∉ k) (i : Nat)
    (hi : (k ++ t).indexOf? c = some i) : k.length ≤ i := by
  rw [indexOf_append_of_not_mem c k _ h] at hi
  cases ht : t.indexOf? c with
  | none => rw [ht] at hi; cases hi
  | some j =>
    rw [ht] at hi
    simp only [Option.map_some', Option.some.injEq] at hi
    omega

theorem STREQ_key (literal : String) (k rest : CStr) :
    STREQ literal (k ++ rest) k.length = decide (k = literal.toList) := by
  unfold STREQ
  rw [List.take_left']
  · by_cases h : k = literal.toList
    · subst h
      simp
    · have h' : ¬ literal.toList = k := fun e => h e.symm
      rw [decide_eq_false h', Bool.and_false, decide_eq_false h]
  · rfl

/-- The key that one turn of `parse_shortcut_mods_item` recognises at the start
of `k ++ rest`, with `key_len` the length of `k`. -/
theorem shortcut_key_eq (d : Deps) (k rest : CStr) :
    (if STREQ "lctrl" (k ++ rest) k.length then some d.SC_MOD_LCTRL
      else if STREQ "rctrl" (k ++ rest) k.length then some d.SC_MOD_RCTRL
      else if STREQ "lalt" (k ++ rest) k.length then some d.SC_MOD_LALT
      else if STREQ "ralt" (k ++ rest) k.length then some d.SC_MOD_RALT
      else if STREQ "lsuper" (k ++ rest) k.length then some d.SC_MOD_LSUPER
      else if STREQ "rsuper" (k ++ rest) k.length then some d.SC_MOD_RSUPER
      else none) = shortcut_key d k := by
  simp only [STREQ_key, decide_eq_true_eq]
  rfl

/-- One turn of the loop of `parse_shortcut_mods_item` on the last key of the
item: whatever follows the item, also a `'+'` of a later alternative. -/
theorem item_loop_last (d : Deps) (fuel : Nat) (k rest : CStr) (mod : Nat) (h : '+' ∉ k) :
    parse_shortcut_mods_item_loop d (fuel + 1) (k ++ rest) k.length mod =
      match shortcut_key d k with
      | none => (true, 0)
      | some m => (true, mod ||| m) := by
  have hp : (match (k ++ rest).indexOf? '+' with
      | some i => decide (i < k.length)
      | none => false) = false := by
    cases hi : (k ++ rest).indexOf? '+' with
    | none => rfl
    | some i =>
      have := indexOf_ge '+' k rest h i hi
      simp only [decide_eq_false_iff_not, not_lt]
      exact this
  rw [parse_shortcut_mods_item_loop]
  simp only [hp, Bool.false_eq_true, if_false, Bool.not_false, Bool.true_or, if_true]
  rw [shortcut_key_eq]

/-- One turn of the loop of `parse_shortcut_mods_item` on a key that is followed
by `'+'` within the item. -/
theorem item_loop_more (d : Deps) (fuel : Nat) (k t : CStr) (n mod : Nat) (h : '+' ∉ k) :
    parse_shortcut_mods_item_loop d (fuel + 1) (k ++ '+' :: t) (k.length + 1 + n) mod =
      match shortcut_key d k with
      | none => (decide (0 < k.length), 0)
      | some m =>
        (decide (0 < k.length) && (parse_shortcut_mods_item_loop d fuel t n (mod ||| m)).1,
          (parse_shortcut_mods_item_loop d fuel t n (mod ||| m)).2) := by
  have hi := indexOf_sep '+' k t h
  have hlt : k.length < k.length + 1 + n := by omega
  rw [parse_shortcut_mods_item_loop]
  simp only [hi, hlt, decide_True, if_true, Option.getD_some, Bool.not_true, Bool.false_or,
    Bool.false_eq_true, if_false]
  rw [shortcut_key_eq]
  cases shortcut_key d k with
  | none => rfl
  | some m =>
    have e1 : List.drop (k.length + 1) (k ++ '+' :: t) = t := by
      rw [List.drop_append]
      rfl
    have e2 : k.length + 1 + n - (k.length + 1) = n := by omega
    have e3 : decide (k.length + 1 + n ≥ k.length + 1) = true := by
      simp
    simp only [e1, e2, e3, Bool.and_true]

theorem join_with_length (sep : Char) (parts : List CStr) :
    parts.length ≤ (join_with sep parts).length + 1 := by
  induction parts with
  | nil => simp
  | cons x rest ih =>
    cases rest with
    | nil => simp
    | cons y rest =>
      simp only [join_with, List.length_cons, List.length_append] at ih ⊢
      omega

/-- A key name holds no separator and is not empty. -/
theorem shortcut_key_some (d : Deps) (k : CStr) (h : (shortcut_key d k).isSome = true) :
    '+' ∉ k ∧ ',' ∉ k ∧ 0 < k.length := by
  unfold shortcut_key at h
  by_cases h1 : k = "lctrl".toList
  · subst h1; decide
  by_cases h2 : k = "rctrl".toList
  · subst h2; decide
  by_cases h3 : k = "lalt".toList
  · subst h3; decide
  by_cases h4 : k = "ralt".toList
  · subst h4; decide
  by_cases h5 : k = "lsuper".toList
  · subst h5; decide
  by_cases h6 : k = "rsuper".toList
  · subst h6; decide
  rw [if_neg h1, if_neg h2, if_neg h3, if_neg h4, if_neg h5, if_neg h6] at h
  cases h

/-- On an item of key names `parse_shortcut_mods_item` breaks no `assert` and
returns the bitwise-or of their constants, whatever follows the item. -/
theorem item_loop_valid (d : Deps) (keys : List CStr) (hne : keys ≠ [])
    (hk : ∀ k ∈ keys, (shortcut_key d k).isSome = true) :
    ∀ (fuel : Nat) (rest : CStr) (mod : Nat), keys.length ≤ fuel →
      parse_shortcut_mods_item_loop d fuel (join_with '+' keys ++ rest)
        (join_with '+' keys).length mod = (true, keys_mod d mod keys) := by
  induction keys with
  | nil => exact absurd rfl hne
  | cons k ks ih =>
    intro fuel rest mod hf
    obtain ⟨fuel, rfl⟩ : ∃ f, fuel = f + 1 := ⟨fuel - 1, by simp at hf; omega⟩
    have hk1 := hk k (List.mem_cons_self _ _)
    obtain ⟨p1, -, p3⟩ := shortcut_key_some d k hk1
    obtain ⟨m, hm⟩ := Option.isSome_iff_exists.mp hk1
    cases ks with
    | nil =>
      simp only [join_with]
      rw [item_loop_last d fuel k rest mod p1, hm]
      simp [keys_mod, hm]
    | cons k2 ks =>
      have ih' := ih (by simp) (fun k' hk' => hk k' (List.mem_cons_of_mem _ hk')) fuel rest
        (mod ||| m) (by simp at hf ⊢; omega)
      simp only [join_with, List.append_assoc, List.cons_append, List.length_append,
        List.length_cons]
      have e : k.length + ((join_with '+' (k2 :: ks)).length + 1) =
          k.length + 1 + (join_with '+' (k2 :: ks)).length := by omega
      rw [e, item_loop_more d fuel k _ _ mod p1, hm]
      simp only [ih', p3, decide_True, Bool.and_self]
      simp [keys_mod, hm]

/-- On an item with a key that is no key name `parse_shortcut_mods_item`
returns 0. -/
theorem item_loop_invalid (d : Deps) (keys : List CStr) (hne : keys ≠ [])
    (hp : ∀ k ∈ keys, '+' ∉ k) (hbad : ∃ k ∈ keys, shortcut_key d k = none) :
    ∀ (fuel : Nat) (rest : CStr) (mod : Nat), keys.length ≤ fuel →
      (parse_shortcut_mods_item_loop d fuel (join_with '+' keys ++ rest)
        (join_with '+' keys).length mod).2 = 0 := by
  induction keys with
  | nil => exact absurd rfl hne
  | cons k ks ih =>
    intro fuel rest mod hf
    obtain ⟨fuel, rfl⟩ : ∃ f, fuel = f + 1 := ⟨fuel - 1, by simp at hf; omega⟩
    have p1 := hp k (List.mem_cons_self _ _)
    cases ks with
    | nil =>
      obtain ⟨k', hk', hn⟩ := hbad
      simp only [List.mem_singleton] at hk'
      subst hk'
      simp only [join_with]
      rw [item_loop_last d fuel k' rest mod p1, hn]
    | cons k2 ks =>
      simp only [join_with, List.append_assoc, List.cons_append, List.length_append,
        List.length_cons]
      have e : k.length + ((join_with '+' (k2 :: ks)).length + 1) =
          k.length + 1 + (join_with '+' (k2 :: ks)).length := by omega
      rw [e, item_loop_more d fuel k _ _ mod p1]
      cases hm : shortcut_key d k with
      | none => rfl
      | some m =>
        have hbad' : ∃ k' ∈ k2 :: ks, shortcut_key d k' = none := by
          obtain ⟨k', hk', hn⟩ := hbad
          rcases List.mem_cons.mp hk' with rfl | hk'
          · rw [hm] at hn; cases hn
          · exact ⟨k', hk', hn⟩
        exact ih (by simp) (fun k' hk' => hp k' (List.mem_cons_of_mem _ hk')) hbad' fuel rest
          (mod ||| m) (by simp at hf ⊢; omega)

theorem item_valid (d : Deps) (keys : List CStr) (rest : CStr) (hne : keys ≠ [])
    (hk : ∀ k ∈ keys, (shortcut_key d k).isSome = true) :
    parse_shortcut_mods_item d (join_with '+' keys ++ rest) (join_with '+' keys).length =
      (true, keys_mod d 0 keys) :=
  item_loop_valid d keys hne hk _ rest 0 (join_with_length '+' keys)

theorem item_invalid (d : Deps) (keys : List CStr) (rest : CStr) (hne : keys ≠ [])
    (hp : ∀ k ∈ keys, '+' ∉ k) (hbad : ∃ k ∈ keys, shortcut_key d k = none) :
    (parse_shortcut_mods_item d (join_with '+' keys ++ rest) (join_with '+' keys).length).2 =
      0 :=
  item_loop_invalid d keys hne hp hbad _ rest 0 (join_with_length '+' keys)

theorem lor_eq_zero (a b : Nat) (h : a ||| b = 0) : a = 0 ∧ b = 0 := by
  constructor
  · apply Nat.eq_of_testBit_eq
    intro i
    have := congrArg (fun n => Nat.testBit n i) h
    simp only [Nat.testBit_or, Nat.zero_testBit, Bool.or_eq_false_iff] at this
    rw [this.1, Nat.zero_testBit]
  · apply Nat.eq_of_testBit_eq
    intro i
    have := congrArg (fun n => Nat.testBit n i) h
    simp only [Nat.testBit_or, Nat.zero_testBit, Bool.or_eq_false_iff] at this
    rw [this.2, Nat.zero_testBit]

theorem keys_mod_eq_zero (d : Deps) (keys : List CStr) :
    ∀ mod, keys_mod d mod keys = 0 → mod = 0 := by
  induction keys with
  | nil => intro mod h; exact h
  | cons k ks ih =>
    intro mod h
    exact (lor_eq_zero _ _ (ih _ h)).1

theorem shortcut_key_ne_zero (d : Deps) (hz : mods_nonzero d) (k : CStr) (m : Nat)
    (h : shortcut_key d k = some m) : m ≠ 0 := by
  obtain ⟨z1, z2, z3, z4, z5, z6⟩ := hz
  unfold shortcut_key at h
  by_cases h1 : k = "lctrl".toList
  · rw [if_pos h1] at h; cases h; exact z1
  rw [if_neg h1] at h
  by_cases h2 : k = "rctrl".toList
  · rw [if_pos h2] at h; cases h; exact z2
  rw [if_neg h2] at h
  by_cases h3 : k = "lalt".toList
  · rw [if_pos h3] at h; cases h; exact z3
  rw [if_neg h3] at h
  by_cases h4 : k = "ralt".toList
  · rw [if_pos h4] at h; cases h; exact z4
  rw [if_neg h4] at h
  by_cases h5 : k = "lsuper".toList
  · rw [if_pos h5] at h; cases h; exact z5
  rw [if_neg h5] at h
  by_cases h6 : k = "rsuper".toList
  · rw [if_pos h6] at h; cases h; exact z6
  rw [if_neg h6] at h
  cases h

/-- The bitwise-or of the constants of key names, one at least, is not 0. -/
theorem keys_mod_ne_zero (d : Deps) (hz : mods_nonzero d) (keys : List CStr) (hne : keys ≠ [])
    (hk : ∀ k ∈ keys, (shortcut_key d k).isSome = true) : keys_mod d 0 keys ≠ 0 := by
  cases keys with
  | nil => exact absurd rfl hne
  | cons k ks =>
    obtain ⟨m, hm⟩ := Option.isSome_iff_exists.mp (hk k (List.mem_cons_self _ _))
    intro h
    have h0 : 0 ||| (shortcut_key d k).getD 0 = 0 := keys_mod_eq_zero d ks _ h
    rw [hm] at h0
    exact shortcut_key_ne_zero d hz k m hm (lor_eq_zero _ _ h0).2

theorem join_with_not_mem (c sep : Char) (hc : c ≠ sep) (parts : List CStr)
    (h : ∀ x ∈ parts, c ∉ x) : c ∉ join_with sep parts := by
  induction parts with
  | nil => simp [join_with]
  | cons x rest ih =>
    cases rest with
    | nil => exact h x (List.mem_cons_self _ _)
    | cons y rest =>
      simp only [join_with, List.mem_append, List.mem_cons, not_or]
      exact ⟨h x (List.mem_cons_self _ _), hc,
        ih (fun z hz => h z (List.mem_cons_of_mem _ hz))⟩

/-- One turn of the loop of `parse_shortcut_mods` on the last alternative. -/
theorem mods_loop_last (d : Deps) (fuel : Nat) (a : CStr) (data : List Nat)
    (count current : Nat) (h : ',' ∉ a) :
    parse_shortcut_mods_loop d (fuel + 1) a data count current =
      if (parse_shortcut_mods_item d a a.length).2 = 0 then
        ((parse_shortcut_mods_item d a a.length).1, false, data, count)
      else
        ((parse_shortcut_mods_item d a a.length).1, true,
          array_write data current (parse_shortcut_mods_item d a a.length).2, count + 1) := by
  rw [parse_shortcut_mods_loop]
  simp only [indexOf_none ',' a h, Option.isSome_none, Bool.false_and, Bool.false_eq_true,
    if_false, Bool.true_and]

/-- One turn of the loop of `parse_shortcut_mods` on an alternative that is
followed by `','`. -/
theorem mods_loop_more (d : Deps) (fuel : Nat) (a t : CStr) (data : List Nat)
    (count current : Nat) (h : ',' ∉ a) :
    parse_shortcut_mods_loop d (fuel + 1) (a ++ ',' :: t) data count current =
      if count = d.SC_MAX_SHORTCUT_MODS - 1 then
        (decide (count < d.SC_MAX_SHORTCUT_MODS), false, data, count)
      else if (parse_shortcut_mods_item d (a ++ ',' :: t) a.length).2 = 0 then
        (decide (0 < a.length) && (parse_shortcut_mods_item d (a ++ ',' :: t) a.length).1,
          false, data, count)
      else
        (decide (0 < a.length) && (parse_shortcut_mods_item d (a ++ ',' :: t) a.length).1 &&
          (parse_shortcut_mods_loop d fuel t
            (array_write data current (parse_shortcut_mods_item d (a ++ ',' :: t) a.length).2)
            (count + 1) (current + 1)).1,
         (parse_shortcut_mods_loop d fuel t
            (array_write data current (parse_shortcut_mods_item d (a ++ ',' :: t) a.length).2)
            (count + 1) (current + 1)).2) := by
  have e1 : List.drop (a.length + 1) (a ++ ',' :: t) = t := by
    rw [List.drop_append]
    rfl
  rw [parse_shortcut_mods_loop]
  simp only [indexOf_sep ',' a t h, Option.isSome_some, Bool.true_and, decide_eq_true_eq, e1]

theorem shortcut_text_cons (a a2 : List CStr) (alts : List (List CStr)) :
    shortcut_text (a :: a2 :: alts) =
      join_with '+' a ++ ',' :: shortcut_text (a2 :: alts) := rfl

theorem array_write_append (pre rest : List Nat) (v : Nat) :
    array_write (pre ++ rest) pre.length v = (pre ++ [v]) ++ rest.drop 1 := by
  unfold array_write
  rw [List.take_left', List.drop_append]
  rfl

theorem join_with_pos (d : Deps) (keys : List CStr) (hne : keys ≠ [])
    (hk : ∀ k ∈ keys, (shortcut_key d k).isSome = true) :
    0 < (join_with '+' keys).length := by
  cases keys with
  | nil => exact absurd rfl hne
  | cons k ks =>
    have := (shortcut_key_some d k (hk k (List.mem_cons_self _ _))).2.2
    cases ks with
    | nil => exact this
    | cons k2 ks =>
      simp only [join_with, List.length_append]
      omega

theorem join_with_no_comma (d : Deps) (keys : List CStr)
    (hk : ∀ k ∈ keys, (shortcut_key d k).isSome = true) : ',' ∉ join_with '+' keys :=
  join_with_not_mem ',' '+' (by decide) keys
    (fun k h => (shortcut_key_some d k (hk k h)).2.1)

/-- The loop of `parse_shortcut_mods` on alternatives of key names, with room
for them in the array: no `assert` is broken, the loop ends with true, every
alternative has written its entry, after the entries `pre` written before, and
`count` has grown by the number of alternatives. -/
theorem mods_loop_valid (d : Deps) (hz : mods_nonzero d) (alts : List (List CStr))
    (hne : alts ≠ [])
    (hk : ∀ alt ∈ alts, alt ≠ [] ∧ ∀ k ∈ alt, (shortcut_key d k).isSome = true) :
    ∀ (fuel : Nat) (pre rest : List Nat), alts.length ≤ fuel →
      pre.length + alts.length ≤ d.SC_MAX_SHORTCUT_MODS →
      parse_shortcut_mods_loop d fuel (shortcut_text alts) (pre ++ rest) pre.length pre.length =
        (true, true, pre ++ alts.map (keys_mod d 0) ++ rest.drop alts.length,
          pre.length + alts.length) := by
  induction alts with
  | nil => exact absurd rfl hne
  | cons a as ih =>
    intro fuel pre rest hf hmax
    obtain ⟨fuel, rfl⟩ : ∃ f, fuel = f + 1 := ⟨fuel - 1, by simp at hf; omega⟩
    obtain ⟨a1, a2⟩ := hk a (List.mem_cons_self _ _)
    have hc := join_with_no_comma d a a2
    have hv := keys_mod_ne_zero d hz a a1 a2
    cases as with
    | nil =>
      have e : shortcut_text [a] = join_with '+' a := rfl
      have hi := item_valid d a [] a1 a2
      rw [List.append_nil] at hi
      rw [e, mods_loop_last d fuel _ _ _ _ hc, hi]
      simp only [hv, if_false, array_write_append]
      simp
    | cons a' as =>
      have hi := item_valid d a (',' :: shortcut_text (a' :: as)) a1 a2
      have hcount : ¬ pre.length = d.SC_MAX_SHORTCUT_MODS - 1 := by
        simp only [List.length_cons] at hmax
        omega
      rw [shortcut_text_cons, mods_loop_more d fuel _ _ _ _ _ hc, if_neg hcount, hi]
      simp only [hv, if_false, array_write_append, join_with_pos d a a1 a2, decide_True,
        Bool.and_self, Bool.true_and]
      have ih' := ih (by simp) (fun alt h => hk alt (List.mem_cons_of_mem _ h)) fuel
        (pre ++ [keys_mod d 0 a]) (rest.drop 1) (by simp at hf ⊢; omega)
        (by simp at hmax ⊢; omega)
      simp only [List.length_append, List.length_singleton] at ih'
      rw [ih']
      simp [List.drop_drop, Nat.add_comm, Nat.add_left_comm]

/-- The loop of `parse_shortcut_mods` on alternatives of which one holds a key
that is no key name (the empty key included) ends with false. -/
theorem mods_loop_invalid (d : Deps) (alts : List (List CStr)) (hne : alts ≠ [])
    (he : ∀ alt ∈ alts, alt ≠ []) (hp : plain_keys alts)
    (hbad : ∃ alt ∈ alts, ∃ k ∈ alt, shortcut_key d k = none) :
    ∀ (fuel : Nat) (data : List Nat) (count current : Nat), alts.length ≤ fuel →
      (parse_shortcut_mods_loop d fuel (shortcut_text alts) data count current).2.1 = false := by
  induction alts with
  | nil => exact absurd rfl hne
  | cons a as ih =>
    intro fuel data count current hf
    obtain ⟨fuel, rfl⟩ : ∃ f, fuel = f + 1 := ⟨fuel - 1, by simp at hf; omega⟩
    have a1 := he a (List.mem_cons_self _ _)
    have a2 := hp a (List.mem_cons_self _ _)
    have hc : ',' ∉ join_with '+' a :=
      join_with_not_mem ',' '+' (by decide) a (fun k h => (a2 k h).2)
    cases as with
    | nil =>
      have e : shortcut_text [a] = join_with '+' a := rfl
      have hbad' : ∃ k ∈ a, shortcut_key d k = none := by
        obtain ⟨alt, halt, k, hk, hn⟩ := hbad
        simp only [List.mem_singleton] at halt
        subst halt
        exact ⟨k, hk, hn⟩
      have hi := item_invalid d a [] a1 (fun k h => (a2 k h).1) hbad'
      rw [List.append_nil] at hi
      rw [e, mods_loop_last d fuel _ _ _ _ hc, if_pos hi]
    | cons a' as =>
      rw [shortcut_text_cons, mods_loop_more d fuel _ _ _ _ _ hc]
      by_cases h1 : count = d.SC_MAX_SHORTCUT_MODS - 1
      · rw [if_pos h1]
      rw [if_neg h1]
      by_cases h2 : (parse_shortcut_mods_item d
          (join_with '+' a ++ ',' :: shortcut_text (a' :: as)) (join_with '+' a).length).2 = 0
      · rw [if_pos h2]
      rw [if_neg h2]
      have hbad' : ∃ alt ∈ a' :: as, ∃ k ∈ alt, shortcut_key d k = none := by
        obtain ⟨alt, halt, k, hk, hn⟩ := hbad
        rcases List.mem_cons.mp halt with rfl | halt
        · exact absurd (item_invalid d alt _ a1 (fun k h => (a2 k h).1) ⟨k, hk, hn⟩) h2
        · exact ⟨alt, halt, k, hk, hn⟩
      exact ih (by simp) (fun alt h => he alt (List.mem_cons_of_mem _ h))
        (fun alt h => hp alt (List.mem_cons_of_mem _ h)) hbad' fuel _ _ _
        (by simp at hf ⊢; omega)

/-- The loop of `parse_shortcut_mods` on more alternatives of key names than
the array has room for ends with false. -/
theorem mods_loop_too_many (d : Deps) (hz : mods_nonzero d) (alts : List (List CStr))
    (hk : ∀ alt ∈ alts, alt ≠ [] ∧ ∀ k ∈ alt, (shortcut_key d k).isSome = true) :
    ∀ (fuel : Nat) (data : List Nat) (count current : Nat), alts.length ≤ fuel →
      count < d.SC_MAX_SHORTCUT_MODS → d.SC_MAX_SHORTCUT_MODS < count + alts.length →
      (parse_shortcut_mods_loop d fuel (shortcut_text alts) data count current).2.1 = false := by
  induction alts with
  | nil => intro fuel data count current _ h1 h2; simp at h2; omega
  | cons a as ih =>
    intro fuel data count current hf h1 h2
    obtain ⟨fuel, rfl⟩ : ∃ f, fuel = f + 1 := ⟨fuel - 1, by simp at hf; omega⟩
    obtain ⟨a1, a2⟩ := hk a (List.mem_cons_self _ _)
    have hc := join_with_no_comma d a a2
    have hv := keys_mod_ne_zero d hz a a1 a2
    cases as with
    | nil => simp at h2; omega
    | cons a' as =>
      have hi := item_valid d a (',' :: shortcut_text (a' :: as)) a1 a2
      rw [shortcut_text_cons, mods_loop_more d fuel _ _ _ _ _ hc]
      by_cases hcount : count = d.SC_MAX_SHORTCUT_MODS - 1
      · rw [if_pos hcount]
      rw [if_neg hcount, hi]
      simp only [hv, if_false]
      exact ih (fun alt h => hk alt (List.mem_cons_of_mem _ h)) fuel _ _ _
        (by simp at hf ⊢; omega) (by omega) (by simp at h2 ⊢; omega)

theorem shortcut_text_fuel (alts : List (List CStr)) :
    alts.length ≤ (shortcut_text alts).length + 1 := by
  have := join_with_length ',' (alts.map (join_with '+'))
  rw [List.length_map] at this
  exact this

/-- The return value of `parse_shortcut_mods` for a text of alternatives of key
names, as many as the array has room for at most: true, with `count` the number
of alternatives and entry `i` of `data` the bitwise-or of the constants of the
keys of alternative `i`; and no `assert` is broken. -/
theorem parse_shortcut_mods_valid (d : Deps) (mods : sc_shortcut_mods)
    (alts : List (List CStr)) (hz : mods_nonzero d) (hne : alts ≠ [])
    (hk : ∀ alt ∈ alts, alt ≠ [] ∧ ∀ k ∈ alt, (shortcut_key d k).isSome = true)
    (hmax : alts.length ≤ d.SC_MAX_SHORTCUT_MODS) :
    parse_shortcut_mods d (shortcut_text alts) mods =
      (true, { data := alts.map (keys_mod d 0) ++ mods.data.drop alts.length,
               count := alts.length }) ∧
    (∀ i (h : i < alts.length),
      (parse_shortcut_mods d (shortcut_text alts) mods).2.data[i]? =
        some (keys_mod d 0 (alts.get ⟨i, h⟩))) ∧
    parse_shortcut_mods_asserts d (shortcut_text alts) mods = true := by
  have key := mods_loop_valid d hz alts hne hk ((shortcut_text alts).length + 1) [] mods.data
    (shortcut_text_fuel alts) (by simpa using hmax)
  simp only [List.nil_append, List.length_nil, Nat.zero_add] at key
  have e : parse_shortcut_mods d (shortcut_text alts) mods =
      (true, { data := alts.map (keys_mod d 0) ++ mods.data.drop alts.length,
               count := alts.length }) := by
    unfold parse_shortcut_mods
    rw [key]
  refine ⟨e, ?_, ?_⟩
  · intro i h
    rw [e]
    simp only []
    rw [List.getElem?_append_left (by simpa using h)]
    simp [List.getElem?_map, List.getElem?_eq_getElem h]
  · unfold parse_shortcut_mods_asserts
    rw [key]

/-- The return value of `parse_shortcut_mods` for a text in which some key is
no key name, which is so when an alternative or a key is empty: false; and
also false for more alternatives of key names than the array has room for. -/
theorem parse_shortcut_mods_invalid (d : Deps) (mods : sc_shortcut_mods)
    (alts : List (List CStr)) (hne : alts ≠ []) (he : ∀ alt ∈ alts, alt ≠ []) :
    (plain_keys alts → (∃ alt ∈ alts, ∃ k ∈ alt, shortcut_key d k = none) →
      (parse_shortcut_mods d (shortcut_text alts) mods).1 = false) ∧
    (mods_nonzero d → (∀ alt ∈ alts, ∀ k ∈ alt, (shortcut_key d k).isSome = true) →
      0 < d.SC_MAX_SHORTCUT_MODS → d.SC_MAX_SHORTCUT_MODS < alts.length →
      (parse_shortcut_mods d (shortcut_text alts) mods).1 = false) := by
  have fin : ∀ r : Bool × Bool × List Nat × Nat, r.2.1 = false →
      (match r.2 with
        | (false, data, _) => (false, ({ mods with data := data } : sc_shortcut_mods))
        | (true, data, count) => (true, { data := data, count := count })).1 = false := by
    rintro ⟨a, b, c, e⟩ h
    simp only at h
    subst h
    rfl
  refine ⟨fun hp hbad => ?_, fun hz hk h1 h2 => ?_⟩
  · unfold parse_shortcut_mods
    exact fin _ (mods_loop_invalid d alts hne he hp hbad _ _ _ _ (shortcut_text_fuel alts))
  · unfold parse_shortcut_mods
    exact fin _ (mods_loop_too_many d hz alts (fun alt h => ⟨he alt h, hk alt h⟩) _ _ _ _
      (shortcut_text_fuel alts) h1 (by omega))

theorem join_with_cons_char (c : Char) (k : CStr) (ks : List CStr) :
    join_with '+' ((c :: k) :: ks) = c :: join_with '+' (k :: ks) := by
  cases ks <;> rfl

theorem shortcut_text_head (a : List CStr) (alts : List (List CStr)) :
    shortcut_text (a :: alts) =
      join_with '+' a ++
        match alts with
        | [] => []
        | _ :: _ => ',' :: shortcut_text alts := by
  cases alts with
  | nil => simp [shortcut_text, join_with]
  | cons a2 alts => rfl

/-- Every text is the text of alternatives of keys without separators, one
alternative and one key per alternative at least. -/
theorem shortcut_text_exists (s : CStr) :
    ∃ alts, alts ≠ [] ∧ (∀ alt ∈ alts, alt ≠ []) ∧ plain_keys alts ∧ shortcut_text alts = s := by
  induction s with
  | nil =>
    refine ⟨[[[]]], by simp, by simp, ?_, rfl⟩
    intro alt halt k hk
    simp only [List.mem_singleton] at halt
    subst halt
    simp only [List.mem_singleton] at hk
    subst hk
    simp
  | cons c s ih =>
    obtain ⟨alts, h1, h2, h3, h4⟩ := ih
    cases alts with
    | nil => exact absurd rfl h1
    | cons a as =>
      cases a with
      | nil => exact absurd rfl (h2 [] (List.mem_cons_self _ _))
      | cons k ks =>
        have p0 := h3 (k :: ks) (List.mem_cons_self _ _)
        by_cases hc : c = ','
        · subst hc
          refine ⟨[[]] :: (k :: ks) :: as, by simp, ?_, ?_, ?_⟩
          · intro alt halt
            rcases List.mem_cons.mp halt with rfl | halt
            · simp
            · exact h2 alt halt
          · intro alt halt
            rcases List.mem_cons.mp halt with rfl | halt
            · intro k' hk'
              simp only [List.mem_singleton] at hk'
              subst hk'
              simp
            · exact h3 alt halt
          · rw [shortcut_text_cons, h4]
            rfl
        · by_cases hp : c = '+'
          · subst hp
            refine ⟨([] :: k :: ks) :: as, by simp, ?_, ?_, ?_⟩
            · intro alt halt
              rcases List.mem_cons.mp halt with rfl | halt
              · simp
              · exact h2 alt (List.mem_cons_of_mem _ halt)
            · intro alt halt
              rcases List.mem_cons.mp halt with rfl | halt
              · intro k' hk'
                rcases List.mem_cons.mp hk' with rfl | hk'
                · simp
                · exact p0 k' hk'
              · exact h3 alt (List.mem_cons_of_mem _ halt)
            · rw [shortcut_text_head] at h4 ⊢
              rw [← h4]
              rfl
          · refine ⟨((c :: k) :: ks) :: as, by simp, ?_, ?_, ?_⟩
            · intro alt halt
              rcases List.mem_cons.mp halt with rfl | halt
              · simp
              · exact h2 alt (List.mem_cons_of_mem _ halt)
            · intro alt halt
              rcases List.mem_cons.mp halt with rfl | halt
              · intro k' hk'
                rcases List.mem_cons.mp hk' with rfl | hk'
                · have := p0 k (List.mem_cons_self _ _)
                  simp only [List.mem_cons, not_or]
                  exact ⟨⟨fun e => hp e.symm, this.1⟩, ⟨fun e => hc e.symm, this.2⟩⟩
                · exact p0 k' (List.mem_cons_of_mem _ hk')
              · exact h3 alt (List.mem_cons_of_mem _ halt)
            · rw [shortcut_text_head] at h4 ⊢
              rw [← h4, join_with_cons_char]
              rfl

/-- The example of the help text: "lctrl+lalt,lsuper" gives 2 alternatives,
`SC_MOD_LCTRL | SC_MOD_LALT` and `SC_MOD_LSUPER`. -/
theorem parse_shortcut_mods_valid_example :
    parse_shortcut_mods sample_deps "lctrl+lalt,lsuper".toList ⟨[], 0⟩ =
      (true, ⟨[sample_deps.SC_MOD_LCTRL ||| sample_deps.SC_MOD_LALT,
        sample_deps.SC_MOD_LSUPER], 2⟩) :=
  (parse_shortcut_mods_valid sample_deps ⟨[], 0⟩
    [["lctrl".toList, "lalt".toList], ["lsuper".toList]]
    ⟨by decide, by decide, by decide, by decide, by decide, by decide⟩
    (by decide) (by decide) (by decide)).1

/-- C12: on an argument that starts with `','`, so that its first alternative
is empty, with room for 2 alternatives at least, `parse_shortcut_mods` returns
false when the `assert`s are compiled out, as claimed; but
`assert(!comma || comma > s)` does not hold there, so a build with assertions
stops at it instead of returning false. -/
theorem parse_shortcut_mods_empty_first (d : Deps) (t : CStr) (mods : sc_shortcut_mods)
    (h : 2 ≤ d.SC_MAX_SHORTCUT_MODS) :
    (parse_shortcut_mods d (',' :: t) mods).1 = false ∧
    parse_shortcut_mods_asserts d (',' :: t) mods = false := by
  have hc : ¬ 0 = d.SC_MAX_SHORTCUT_MODS - 1 := by omega
  have hi : parse_shortcut_mods_item d ([] ++ ',' :: t) ([] : CStr).length = (true, 0) := by
    have := item_loop_last d 0 [] (',' :: t) 0 (by simp)
    exact this
  have key := mods_loop_more d (',' :: t).length [] t mods.data 0 0 (by simp)
  rw [if_neg hc, hi] at key
  simp only [List.nil_append, if_true, List.length_nil, Nat.lt_irrefl, decide_False,
    Bool.false_and] at key
  constructor
  · unfold parse_shortcut_mods
    rw [key]
  · unfold parse_shortcut_mods_asserts
    rw [key]

/-- C12 at a concrete input: on ",lctrl" the returned value is false and the
`assert` on `comma` does not hold. -/
theorem parse_shortcut_mods_empty_first_witness :
    2 ≤ sample_deps.SC_MAX_SHORTCUT_MODS ∧
    (parse_shortcut_mods sample_deps ",lctrl".toList ⟨[], 0⟩).1 = false ∧
    parse_shortcut_mods_asserts sample_deps ",lctrl".toList ⟨[], 0⟩ = false :=
  ⟨by decide, parse_shortcut_mods_empty_first sample_deps "lctrl".toList ⟨[], 0⟩ (by decide)⟩

/-- More arguments: an empty key that is followed by `'+'` breaks
`assert(!has_plus || plus > item)`, an empty alternative in the middle breaks
`assert(!comma || comma > s)`; an empty alternative or key at the end of the
text breaks no `assert`; the returned value is false each time. -/
theorem parse_shortcut_mods_asserts_examples :
    (parse_shortcut_mods_asserts sample_deps "+lctrl".toList ⟨[], 0⟩ = false ∧
     (parse_shortcut_mods sample_deps "+lctrl".toList ⟨[], 0⟩).1 = false) ∧
    (parse_shortcut_mods_asserts sample_deps "lctrl,,lalt".toList ⟨[], 0⟩ = false ∧
     (parse_shortcut_mods sample_deps "lctrl,,lalt".toList ⟨[], 0⟩).1 = false) ∧
    (parse_shortcut_mods_asserts sample_deps "lctrl,".toList ⟨[], 0⟩ = true ∧
     (parse_shortcut_mods sample_deps "lctrl,".toList ⟨[], 0⟩).1 = false) ∧
    (parse_shortcut_mods_asserts sample_deps "lctrl+".toList ⟨[], 0⟩ = true ∧
     (parse_shortcut_mods sample_deps "lctrl+".toList ⟨[], 0⟩).1 = false) := by
  decide

end Scrcpy
